import Mathlib

/-!
# slsa-verifier: VSA verification, dispatch and the GHA verifier

A shallow embedding of the VSA (Verification Summary Attestation) path of
slsa-verifier, of the dispatch over the registries and of the orchestration
of the GHA verifier:

* `options/vsa/level.go`                      : SLSA levels and their string codec
* `verifiers/utils/vsa.go`                    : `TrustedVerifierID`, `ParseVerifierID`
* `verifiers/internal/vsas/v0.2/vsa.go`       : `FromStatement`, `VerifyLevels`
* `verifiers/internal/vsas/verifier.go`       : `Verify`, `verifyPayload`, `verifySubject`
* `register/register.go`, `verifiers/*.go`    : registries, `getVsaVerifier`,
  `getProvenanceVerifier`
* `verifiers/internal/gha/verifier.go`        : `verifyEnvAndCert`, `verifyNpmEnvAndCert`,
  `VerifyImage`
* `cli/slsa-verifier/verify/options.go`       : `workflowInputs`
* `verifiers/internal/gcb/provenance.go`      : `validateBuildType`, `VerifyVersionedTag`,
  modelled from the spec (only their tests are under `src/`)

Go strings are modelled by Lean strings (the valid UTF-8 ones); `len` counts
bytes as in Go. A Go `error` is modelled by its kind: wrapping with `%w`
keeps the kind, which is all `errors.Is` observes.
-/

namespace SlsaVerifier

/-! ## Error kinds -/

/-- Error kinds that the modelled code can return. The first group are the
sentinels of package `errors` (`serrors.ErrorXxx`), the second the private
sentinels of `options/vsa/level.go`, the rest errors without a sentinel of
this repository. -/
inductive Err where
  | InvalidFormat
  | InvalidDssePayload
  | InvalidPredicate
  | InvalidVsaLevel
  | MismatchHash
  | MismatchVerifierID
  | MismatchVsaLevel
  | MismatchVsaResourceURI
  | VsaResultFailure
  | InvalidBuilderID
  | InvalidRecipe
  | InvalidBuildType
  | NoValidSignature
  | MismatchBuilderID
  | MismatchSource
  | MismatchVersionedTag
  | BuilderVerifierNotSupported
  | VsaVerifierNotSupported
  | NotSupported
  | UntrustedReusableWorkflow
  | Internal
  | errVsaDuplicateTrack
  | errVsaMismatchTrack
  | errVsaInvalidTrack
  /-- The error `strconv.ErrSyntax`, wrapped by `strconv.Atoi`. -/
  | strconvErrSyntax
  /-- The error `strconv.ErrRange`, wrapped by `strconv.Atoi`. -/
  | strconvErrRange
  /-- The error `fmt.Errorf("invalid level: %q", ...)` of `parseLevel`: wraps nothing. -/
  | invalidLevel
  /-- The error of `json.Marshal`, wrapped as `marshal: %w`. -/
  | marshal
  /-- A run-time panic on a nil pointer dereference (not an error value). -/
  | nilDereference
  /-- An error produced by a collaborator that is not part of the model
  (signature verification, envelope decoding), identified by its text. -/
  | other (msg : String)
  deriving DecidableEq, Repr

deriving instance DecidableEq for Except

/-! ## Go string primitives -/

/-- Go `len(s)`: the number of bytes of `s`. -/
def len (s : String) : Nat := s.utf8ByteSize

/-- Go `strings.HasPrefix(s, pre)`. -/
def HasPrefix (s pre : String) : Bool := pre.data.isPrefixOf s.data

/-- Worker of `ReplaceAll`: scans left to right, replacing each
non-overlapping occurrence of `old`. The fuel bounds the number of steps. -/
def replaceAllAux (old new : List Char) : Nat → List Char → List Char
  | 0, s => s
  | _ + 1, [] => []
  | fuel + 1, c :: cs =>
    if old.isPrefixOf (c :: cs) then
      new ++ replaceAllAux old new fuel ((c :: cs).drop old.length)
    else
      c :: replaceAllAux old new fuel cs

/-- Go `strings.ReplaceAll(s, old, new)` for a non-empty `old` (both call
sites pass a non-empty constant). -/
def ReplaceAll (s old new : String) : String :=
  String.mk (replaceAllAux old.data new.data s.data.length s.data)

/-- Worker of `Split` on the characters of a string. -/
def splitChars (sep : Char) : List Char → List (List Char)
  | [] => [[]]
  | c :: cs =>
    if c = sep then [] :: splitChars sep cs
    else
      match splitChars sep cs with
      | [] => [[c]]
      | p :: ps => (c :: p) :: ps

/-- Go `strings.Split(s, sep)` for a one-byte separator (the code splits on
the slash only). -/
def Split (s : String) (sep : Char) : List String :=
  (splitChars sep s.data).map String.mk

/-- Go `strings.Join(parts, sep)`. -/
def Join (parts : List String) (sep : String) : String :=
  sep.intercalate parts

/-- The characters that `Join` puts after the first part: each further part
preceded by the separator. -/
def joinTail (sep : List Char) : List (List Char) → List Char
  | [] => []
  | q :: rest => sep ++ q ++ joinTail sep rest

/-- The characters of `Join parts sep`, by recursion over the parts. -/
def joinChars (sep : List Char) : List (List Char) → List Char
  | [] => []
  | p :: rest => p ++ joinTail sep rest

/-- Go `unicode.IsSpace(r)`: the Latin-1 spaces and the code points with the
Unicode property White_Space. -/
def isSpace (r : Char) : Bool :=
  r = '\t' || r = '\n' || r.toNat = 0x0B || r.toNat = 0x0C || r = '\r' || r = ' ' ||
  r.toNat = 0x85 || r.toNat = 0xA0 || r.toNat = 0x1680 ||
  (0x2000 ≤ r.toNat && r.toNat ≤ 0x200A) ||
  r.toNat = 0x2028 || r.toNat = 0x2029 || r.toNat = 0x202F || r.toNat = 0x205F ||
  r.toNat = 0x3000

/-- Go `strings.TrimSpace(s)`: `s` without its leading and trailing white
space. -/
def TrimSpace (s : String) : String :=
  String.mk ((s.data.dropWhile isSpace).reverse.dropWhile isSpace).reverse

/-- Go `s[len(s)-1:]`, the last byte of `s` as a string. When the last
character of `s` takes several bytes the Go slice is a lone continuation
byte, which is not a valid string of its own; it is represented by U+FFFD,
which like that byte is no digit and no sign. -/
def lastByte (s : String) : String :=
  match s.data.getLast? with
  | none => ""
  | some c => if c.utf8Size = 1 then String.singleton c else String.singleton (Char.ofNat 0xFFFD)

/-- Go `strconv.Atoi(s)` on a 64-bit platform: an optional sign followed by
one or more decimal digits. -/
def Atoi (s : String) : Except Err Int :=
  let cs := s.data
  let neg : Bool := match cs with
    | '-' :: _ => true
    | _ => false
  let ds : List Char := match cs with
    | '+' :: r => r
    | '-' :: r => r
    | r => r
  if ds.isEmpty || !ds.all Char.isDigit then .error .strconvErrSyntax
  else
    let n : Nat := ds.foldl (fun a c => 10 * a + (c.toNat - 48)) 0
    let v : Int := if neg then -(n : Int) else (n : Int)
    if v < -(2 ^ 63 : Int) || v > (2 ^ 63 - 1 : Int) then .error .strconvErrRange
    else .ok v

/-! ## `options/vsa/level.go` -/

/-- Go interface `Level` with its two implementations `*BuildLevel` and
`*SourceLevel` (both `int`), for non-nil pointers. -/
inductive Level where
  | BuildLevel (l : Int)
  | SourceLevel (l : Int)
  deriving DecidableEq, Repr

/-- Go `parseLevel[T](levelStr, prefix)`; the conversion `T(level)` is left
to the caller. -/
def parseLevel (levelStr pre : String) : Except Err Int :=
  if !HasPrefix levelStr pre || len levelStr != len pre + 1 then
    .error .errVsaMismatchTrack
  else
    match Atoi (lastByte levelStr) with
    | .error e => .error e
    | .ok level =>
      if level < 0 || level > 4 then .error .invalidLevel
      else .ok level

/-- Go `BuildLevelFromString`. -/
def BuildLevelFromString (s : String) : Except Err Level :=
  match parseLevel s "SLSA_BUILD_LEVEL_" with
  | .error e => .error e
  | .ok bl => .ok (.BuildLevel bl)

/-- Go `SourceLevelFromString`. -/
def SourceLevelFromString (s : String) : Except Err Level :=
  match parseLevel s "SLSA_SOURCE_LEVEL_" with
  | .error e => .error e
  | .ok sl => .ok (.SourceLevel sl)

/-- Go `LevelFromString`. -/
def LevelFromString (s : String) : Except Err Level :=
  if HasPrefix s "SLSA_BUILD_LEVEL_" then BuildLevelFromString s
  else if HasPrefix s "SLSA_SOURCE_LEVEL_" then SourceLevelFromString s
  else .error .errVsaInvalidTrack

namespace Level

/-- Go `Track()`. -/
def Track : Level → String
  | .BuildLevel _ => "build"
  | .SourceLevel _ => "source"

/-- The integer that a level holds: Go `*l`, of type `BuildLevel` or
`SourceLevel` (both `int`). -/
def value : Level → Int
  | .BuildLevel l => l
  | .SourceLevel l => l

/-- Go `ToInt()`: the conversion `uint(l)` on a 64-bit platform, which wraps
a negative level. -/
def ToInt : Level → Nat
  | .BuildLevel l => (l % 2 ^ 64).toNat
  | .SourceLevel l => (l % 2 ^ 64).toNat

/-- Go `ToString()`: `fmt.Sprintf("SLSA_BUILD_LEVEL_%d", *l)`, and the same
with `SLSA_SOURCE_LEVEL_` for a source level. -/
def ToString : Level → String
  | .BuildLevel l => "SLSA_BUILD_LEVEL_" ++ toString l
  | .SourceLevel l => "SLSA_SOURCE_LEVEL_" ++ toString l

/-- Go `LowerThan(o)`: the type assertion `o.(*T)` yields a nil pointer when
`o` is of the other track, and dereferencing it panics (`none`). -/
def LowerThan : Level → Level → Option Bool
  | .BuildLevel l, .BuildLevel ol => some (decide (l < ol))
  | .BuildLevel _, .SourceLevel _ => none
  | .SourceLevel l, .SourceLevel ol => some (decide (l < ol))
  | .SourceLevel _, .BuildLevel _ => none

end Level

/-- The body of the first loop of `LevelsFromArray` for one entry: the level
stored in `levels[i]`, or the error returned. The last error wraps `berr` and
`serr`, at that point both of kind `errVsaMismatchTrack`. -/
def levelsFromArrayEntry (value : String) : Except Err Level :=
  let levelStr := TrimSpace value
  match BuildLevelFromString levelStr with
  | .ok bl => .ok bl
  | .error berr =>
    if berr != .errVsaMismatchTrack then .error berr
    else
      match SourceLevelFromString levelStr with
      | .ok sl => .ok sl
      | .error serr =>
        if serr != .errVsaMismatchTrack then .error serr
        else .error .errVsaMismatchTrack

/-- The first loop of `LevelsFromArray`: parses the entries in order and
stops at the first error. -/
def levelsFromArrayParse : List String → Except Err (List Level)
  | [] => .ok []
  | value :: rest =>
    match levelsFromArrayEntry value with
    | .error e => .error e
    | .ok level =>
      match levelsFromArrayParse rest with
      | .error e => .error e
      | .ok levels => .ok (level :: levels)

/-- The second loop of `LevelsFromArray`; `tracks` is the Go map from track
name to bool as an association list (a missing key reads as false). -/
def levelsFromArrayTracks (tracks : List (String × Bool)) : List Level → Except Err Unit
  | [] => .ok ()
  | level :: rest =>
    let trackName := level.Track
    if (tracks.lookup trackName).getD false then .error .errVsaDuplicateTrack
    else levelsFromArrayTracks ((trackName, true) :: tracks) rest

/-- Go `LevelsFromArray(values)`. -/
def LevelsFromArray (values : List String) : Except Err (List Level) :=
  match levelsFromArrayParse values with
  | .error e => .error e
  | .ok levels =>
    match levelsFromArrayTracks [("build", false), ("source", false)] levels with
    | .error e => .error e
    | .ok _ => .ok levels

/-! ## `verifiers/utils/vsa.go` -/

/-- Go `ParseVerifierID(id, needVersion)`: returns `(name, version)`. -/
def ParseVerifierID (id : String) (needVersion : Bool) : Except Err (String × String) :=
  let parts := Split id '/'
  if parts.length < 1 then .error .InvalidFormat
  else
    let version := parts.getLast?.getD ""
    if needVersion && version == "" then .error .InvalidFormat
    else if needVersion && !HasPrefix version "v" then .error .InvalidFormat
    else if !HasPrefix version "v" then .ok (Join parts "/", "")
    else .ok (Join parts.dropLast "/", version)

/-- Go `TrustedVerifierID`. -/
structure TrustedVerifierID where
  name : String
  version : String
  deriving DecidableEq, Repr

/-- Go `TrustedVerifierIDNew`. -/
def TrustedVerifierIDNew (VerifierID : String) : Except Err TrustedVerifierID :=
  match ParseVerifierID VerifierID true with
  | .error e => .error e
  | .ok (name, version) => .ok { name := name, version := version }

/-- Go `(*TrustedVerifierID).Matches(VerifierID, allowRef)`. -/
def TrustedVerifierID.Matches (b : TrustedVerifierID) (VerifierID : String) (allowRef : Bool) : Except Err Unit :=
  match ParseVerifierID VerifierID false with
  | .error e => .error e
  | .ok (name, version) =>
    if name != b.name then .error .MismatchVerifierID
    else if version != "" && version != b.version then
      if allowRef && "refs/tags/" ++ version == b.version then .ok ()
      else .error .MismatchVerifierID
    else .ok ()

/-- Go `Name()`. -/
def TrustedVerifierID.Name (b : TrustedVerifierID) : String := b.name

/-- Go `Version()`. -/
def TrustedVerifierID.Version (b : TrustedVerifierID) : String := b.version

/-- Go `String()`: `fmt.Sprintf("%s/%s", b.name, b.version)`. -/
def TrustedVerifierID.String (b : TrustedVerifierID) : String := b.name ++ "/" ++ b.version

/-! ## `verifiers/internal/vsas/v0.2/vsa.go` -/

/-- Go constant `PredicateVsa`. -/
def PredicateVsa : String := "https://slsa.dev/verification_summary/v0.2"

/-- Go `common.VsaVerifier`: the `verifier` object of a VSA predicate. -/
structure VsaVerifierField where
  ID : String
  deriving DecidableEq, Repr

/-- Go `VsaPredicate`. -/
structure VsaPredicate where
  Verifier : VsaVerifierField
  VerificationResult : String
  PolicyLevel : String
  ResourceURI : String
  deriving DecidableEq, Repr

/-- The `Predicate` field of an in-toto statement is an untyped Go value
(`interface{}`). `FromStatement` reads it only through `json.Marshal`
followed by `json.Unmarshal` into a `VsaPredicate`, both library functions,
so a predicate is represented by the outcome of that round trip. -/
inductive Predicate where
  /-- The call of `json.Marshal` returns an error. -/
  | unmarshalable
  /-- The call of `json.Unmarshal` into `VsaPredicate` returns an error. -/
  | undecodable
  /-- Both calls succeed and the decoded structure is `p`. -/
  | decodes (p : VsaPredicate)
  deriving DecidableEq, Repr

/-- Go `intoto.Subject`; `Digest` is the map `DigestSet` from algorithm to
hex digest, as an association list. -/
structure Subject where
  Name : String
  Digest : List (String × String)
  deriving DecidableEq, Repr

/-- Go `intoto.Statement`, with the fields that the code reads. -/
structure Statement where
  PredicateType : String
  Subject : List Subject
  Predicate : Predicate
  deriving DecidableEq, Repr

/-- Go `FromStatement`. -/
def FromStatement (statement : Statement) : Except Err VsaPredicate :=
  if statement.PredicateType != PredicateVsa then .error .InvalidPredicate
  else
    match statement.Predicate with
    | .unmarshalable => .error .marshal
    | .undecodable => .error .InvalidDssePayload
    | .decodes vsa =>
      if HasPrefix vsa.PolicyLevel "SLSA_L" && len vsa.PolicyLevel == len "SLSA_L" + 1 then
        .ok { vsa with PolicyLevel := ReplaceAll vsa.PolicyLevel "SLSA_L" "SLSA_BUILD_LEVEL_" }
      else if HasPrefix vsa.PolicyLevel "SLSA_LEVEL_" &&
          len vsa.PolicyLevel == len "SLSA_LEVEL_" + 1 then
        .ok { vsa with PolicyLevel := ReplaceAll vsa.PolicyLevel "SLSA_LEVEL_" "SLSA_BUILD_LEVEL_" }
      else .error .InvalidVsaLevel

/-- Go `(*VsaPredicate).VerifyLevels(expectedLevels)`. -/
def VsaPredicate.VerifyLevels (p : VsaPredicate) (expectedLevels : List Level) :
    Except Err Unit :=
  match LevelFromString p.PolicyLevel with
  | .error e => .error e
  | .ok predicateLevel =>
    if expectedLevels.length != 1 then .error .InvalidVsaLevel
    else
      match expectedLevels with
      | [] => .error .InvalidVsaLevel
      | expectedLevel :: _ =>
        if expectedLevel.Track != predicateLevel.Track then .error .MismatchVsaLevel
        else
          match predicateLevel.LowerThan expectedLevel with
          | none => .error .nilDereference
          | some true => .error .MismatchVsaLevel
          | some false => .ok ()

/-! ## `verifiers/internal/vsas/verifier.go` -/

/-- Go `options.VsaOpts`. -/
structure VsaOpts where
  ExpectedDigest : String
  ExpectedLevels : List Level
  ExpectedResourceURI : Option String
  deriving DecidableEq, Repr

/-- Go `options.VerifierOpts`. -/
structure VerifierOpts where
  ExpectedID : String
  deriving DecidableEq, Repr

/-- The loop of `verifySubject` over the subjects. -/
def verifySubjectLoop (expectedHash : String) : List Subject → Except Err Unit
  | [] => .error .MismatchHash
  | subject :: rest =>
    match subject.Digest.lookup "sha256" with
    | none => .error .InvalidDssePayload
    | some hash =>
      if hash == expectedHash then .ok ()
      else verifySubjectLoop expectedHash rest

/-- Go `(*VsaVerifier).verifySubject(statement, expectedHash)`. -/
def verifySubject (statement : Statement) (expectedHash : String) : Except Err Unit :=
  verifySubjectLoop expectedHash statement.Subject

/-- Go `(*VsaVerifier).verifyPayload(statement, vsaOpts, verifierOpts)`. -/
def verifyPayload (statement : Statement) (vsaOpts : VsaOpts) (verifierOpts : VerifierOpts) :
    Except Err TrustedVerifierID :=
  match FromStatement statement with
  | .error e => .error e
  | .ok vsaPredicate =>
    match TrustedVerifierIDNew vsaPredicate.Verifier.ID with
    | .error e => .error e
    | .ok trustedVerifier =>
      match trustedVerifier.Matches verifierOpts.ExpectedID false with
      | .error e => .error e
      | .ok _ =>
        match verifySubject statement vsaOpts.ExpectedDigest with
        | .error e => .error e
        | .ok _ =>
          if vsaPredicate.VerificationResult != "PASSED" then .error .VsaResultFailure
          else
            match vsaPredicate.VerifyLevels vsaOpts.ExpectedLevels with
            | .error e => .error e
            | .ok _ =>
              match vsaOpts.ExpectedResourceURI with
              | some uri =>
                if uri != vsaPredicate.ResourceURI then .error .MismatchVsaResourceURI
                else .ok trustedVerifier
              | none => .ok trustedVerifier

/-- Go `VsaVerifier`: the DSSE verifier and the envelope. The DSSE verifier
(`utils.DsseVerifier`) is a collaborator: `verifier ctx env encoding` is the
result of its `Verify`, `none` for a nil error. -/
structure VsaVerifier (Ctx Env Enc : Type) where
  verifier : Ctx → Env → Enc → Option Err
  envelope : Env

/-- Go `(*VsaVerifier).verifySignature(ctx, encoding)`. -/
def VsaVerifier.verifySignature {Ctx Env Enc : Type} (v : VsaVerifier Ctx Env Enc)
    (ctx : Ctx) (encoding : Enc) : Option Err :=
  v.verifier ctx v.envelope encoding

/-- Go `(*VsaVerifier).Verify(ctx, vsaOpts, verifierOpts, encoding)`. The
function `utils.StatementFromEnvelope` is a collaborator, passed as
`StatementFromEnvelope`. -/
def VsaVerifier.Verify {Ctx Env Enc : Type} (StatementFromEnvelope : Env → Except Err Statement)
    (v : VsaVerifier Ctx Env Enc) (ctx : Ctx) (vsaOpts : VsaOpts)
    (verifierOpts : VerifierOpts) (encoding : Enc) : Except Err TrustedVerifierID :=
  match v.verifySignature ctx encoding with
  | some err => .error err
  | none =>
    match StatementFromEnvelope v.envelope with
    | .error err => .error err
    | .ok statement => verifyPayload statement vsaOpts verifierOpts

/-! ## `register/register.go`, `verifiers/vsa_verifiers.go`, `verifiers/builder_verifiers.go` -/

/-- Go `RegisterVsaVerifier(name, verifier)` and
`RegisterProvenanceVerifier(name, verifier)`: the assignment
`registry[name] = verifier`. A registry (a Go map from name to verifier) is
an association list, read in the order in which a `range` loop visits the
map in the run at hand; Go leaves that order open. -/
def RegisterVerifier {V : Type} (registry : List (String × V)) (name : String) (verifier : V) :
    List (String × V) :=
  (name, verifier) :: registry.filter (fun entry => entry.1 != name)

/-- Go `getVsaVerifier(verifierOpts)`. The registry `register.VsaVerifiers`
and the method `IsAuthoritativeFor` of its verifiers are passed in. -/
def getVsaVerifier {V : Type} (IsAuthoritativeFor : V → String → Bool)
    (VsaVerifiers : List (String × V)) (verifierOpts : VerifierOpts) : Except Err V :=
  if verifierOpts.ExpectedID != "" then
    match ParseVerifierID verifierOpts.ExpectedID false with
    | .error err => .error err
    | .ok (name, _) =>
      match (VsaVerifiers.map Prod.snd).find? (fun v => IsAuthoritativeFor v name) with
      | some v => .ok v
      | none => .error .VsaVerifierNotSupported
  else .error .VsaVerifierNotSupported

/-- Go `options.BuilderOpts`: `ExpectedID` is a pointer to a string, `none`
when nil. -/
structure BuilderOpts where
  ExpectedID : Option String
  deriving DecidableEq, Repr

/-- Go `getProvenanceVerifier(builderOpts)`. The registry
`register.ProvenanceVerifiers`, the method `IsAuthoritativeFor`, the function
`utils.ParseBuilderID` and the constant `gha.BuilderName` are passed in. The
result is `none` for the nil interface that a Go map yields on a missing
key. -/
def getProvenanceVerifier {V : Type} (IsAuthoritativeFor : V → String → Bool)
    (ParseBuilderID : String → Bool → Except Err (String × String)) (BuilderName : String)
    (ProvenanceVerifiers : List (String × V)) (builderOpts : BuilderOpts) :
    Except Err (Option V) :=
  let verifier := ProvenanceVerifiers.lookup BuilderName
  match builderOpts.ExpectedID with
  | none => .ok verifier
  | some expectedID =>
    if expectedID != "" then
      match ParseBuilderID expectedID false with
      | .error err => .error err
      | .ok (name, _) =>
        match (ProvenanceVerifiers.map Prod.snd).find? (fun v => IsAuthoritativeFor v name) with
        | some v => .ok (some v)
        | none => .error .BuilderVerifierNotSupported
    else .ok verifier

/-! ## `verifiers/internal/gha/verifier.go` -/

/-- Modelled from the spec: the structure `options.ProvenanceOpts` is not
under `src/`; its fields are those of the spec's data model (expected source
URI, builder ID, branch, tag, versioned tag, digest, workflow inputs, package
name and version). The code under `src/` reads `ExpectedSourceURI` and writes
`ExpectedBuilderID`. -/
structure ProvenanceOpts where
  ExpectedSourceURI : String
  ExpectedBuilderID : String
  ExpectedBranch : Option String
  ExpectedTag : Option String
  ExpectedVersionedTag : Option String
  ExpectedDigest : String
  ExpectedWorkflowInputs : List (String × String)
  ExpectedPackageName : Option String
  ExpectedPackageVersion : Option String
  deriving DecidableEq, Repr

/-- Modelled from the spec: the type `Hosted` of `WorkflowIdentity.SubjectHosted`
is not under `src/`; the spec names the two runner hostings, self-hosted and
GitHub-hosted (an unknown hosting is the nil pointer). -/
inductive Hosted where
  | HostedSelf
  | HostedGitHub
  deriving DecidableEq, Repr

/-- The functions and constants of the package that `verifyEnvAndCert`,
`verifyNpmEnvAndCert` and `VerifyImage` call and that are not under `src/`.
A Go `error` result is `none` for nil. `VerifyBuilderIdentity` returns the Go
triple (builder ID or nil, byob, error). None of them writes to the options
it is given. -/
structure GhaCollaborators (Env Cert WorkflowInfo BuilderID Builders Att Bytes Root : Type) where
  GetWorkflowInfoFromCertificate : Cert → Except Err WorkflowInfo
  VerifyBuilderIdentity : WorkflowInfo → BuilderOpts → Builders →
    Option BuilderID × Bool × Option Err
  VerifyCertficateSourceRepository : WorkflowInfo → String → Option Err
  /-- Go `(*utils.TrustedBuilderID).String()`. -/
  BuilderIDString : BuilderID → String
  VerifyProvenance : Env → ProvenanceOpts → BuilderID → Bool → Option Err
  builderID : Env → BuilderID → Except Err BuilderID
  /-- Go `base64.StdEncoding.DecodeString(env.Payload)`. -/
  DecodePayload : Env → Except Err Bytes
  /-- Go field `workflowInfo.SubjectHosted`, `none` for nil. -/
  SubjectHosted : WorkflowInfo → Option Hosted
  TrustedBuilderIDNew : String → Bool → Except Err BuilderID
  VerifyNpmPackageProvenance : Env → WorkflowInfo → ProvenanceOpts → BuilderID → Bool →
    Option Err
  httpsGithubCom : String
  GenericLowPermsDelegatorBuilderID : String
  NpmCLILegacyBuilderID : String
  NpmCLIHostedBuilderID : String
  NpmCLISelfHostedBuilderID : String
  TrustedRootSingleton : Except Err Root
  RunCosignImageVerification : String → Root → Except Err (List Att)
  /-- Go `att.Payload()`. -/
  AttPayload : Att → Except Err Bytes
  EnvelopeFromBytes : Bytes → Except Err Env
  /-- Go `att.Cert()`. -/
  AttCert : Att → Except Err Cert
  defaultContainerTrustedReusableWorkflows : Builders

section Gha

variable {Env Cert WorkflowInfo BuilderID Builders Att Bytes Root : Type}

/-- Go `verifyEnvAndCert(env, cert, provenanceOpts, builderOpts,
defaultBuilders)`: the result and the options `*provenanceOpts` after the
call. A nil builder ID returned without error makes
`verifiedBuilderID.String()` panic. -/
def verifyEnvAndCert (C : GhaCollaborators Env Cert WorkflowInfo BuilderID Builders Att Bytes Root)
    (env : Env) (cert : Cert) (provenanceOpts : ProvenanceOpts) (builderOpts : BuilderOpts)
    (defaultBuilders : Builders) : Except Err (Bytes × BuilderID) × ProvenanceOpts :=
  match C.GetWorkflowInfoFromCertificate cert with
  | .error err => (.error err, provenanceOpts)
  | .ok workflowInfo =>
    match C.VerifyBuilderIdentity workflowInfo builderOpts defaultBuilders with
    | (_, _, some err) => (.error err, provenanceOpts)
    | (verifiedBuilderID, byob, none) =>
      match C.VerifyCertficateSourceRepository workflowInfo provenanceOpts.ExpectedSourceURI with
      | some err => (.error err, provenanceOpts)
      | none =>
        match verifiedBuilderID with
        | none => (.error .nilDereference, provenanceOpts)
        | some verifiedBuilderID =>
          let opts1 := { provenanceOpts with
            ExpectedBuilderID := C.BuilderIDString verifiedBuilderID }
          if byob && (builderOpts.ExpectedID == none || builderOpts.ExpectedID == some "") then
            (.error .InvalidBuilderID, opts1)
          else
            let opts2 :=
              if byob then { opts1 with ExpectedBuilderID := builderOpts.ExpectedID.getD "" }
              else opts1
            match C.VerifyProvenance env opts2 verifiedBuilderID byob with
            | some err => (.error err, opts2)
            | none =>
              match (if byob then C.builderID env verifiedBuilderID
                  else .ok verifiedBuilderID) with
              | .error err => (.error err, opts2)
              | .ok verifiedBuilderID =>
                match C.DecodePayload env with
                | .error err => (.error err, opts2)
                | .ok r => (.ok (r, verifiedBuilderID), opts2)

/-- The switch on `*builderOpts.ExpectedID` in `verifyNpmEnvAndCert`, for a
known hosting: the error returned, or `none` when the switch is passed. -/
def npmHostingSwitch (C : GhaCollaborators Env Cert WorkflowInfo BuilderID Builders Att Bytes Root)
    (expectedID : String) (hosted : Hosted) : Option Err :=
  if expectedID = C.NpmCLILegacyBuilderID ∨ expectedID = C.NpmCLIHostedBuilderID then
    if hosted != .HostedGitHub then some .MismatchBuilderID else none
  else if expectedID = C.NpmCLISelfHostedBuilderID then
    if hosted != .HostedSelf then some .MismatchBuilderID else none
  else some .NotSupported

/-- Go `verifyNpmEnvAndCert(env, cert, provenanceOpts, builderOpts,
defaultBuilders)`: the result and the options `*provenanceOpts` after the
call; `builderOpts` is `none` for a nil pointer. -/
def verifyNpmEnvAndCert (C : GhaCollaborators Env Cert WorkflowInfo BuilderID Builders Att Bytes Root)
    (env : Env) (cert : Cert) (provenanceOpts : ProvenanceOpts)
    (builderOpts : Option BuilderOpts) (defaultBuilders : Builders) :
    Except Err BuilderID × ProvenanceOpts :=
  match C.GetWorkflowInfoFromCertificate cert with
  | .error err => (.error err, provenanceOpts)
  | .ok workflowInfo =>
    let expectedDelegatorWorkflow := C.httpsGithubCom ++ C.GenericLowPermsDelegatorBuilderID
    let delegatorBuilderOpts : BuilderOpts := { ExpectedID := some expectedDelegatorWorkflow }
    match C.VerifyBuilderIdentity workflowInfo delegatorBuilderOpts defaultBuilders with
    | (trustedBuilderID, byob, err) =>
      match (match err with
          | some e => if e != .UntrustedReusableWorkflow then some e else none
          | none => none) with
      | some e => (.error e, provenanceOpts)
      | none =>
        match C.VerifyCertficateSourceRepository workflowInfo
            provenanceOpts.ExpectedSourceURI with
        | some e => (.error e, provenanceOpts)
        | none =>
          match builderOpts.bind (fun opts => opts.ExpectedID) with
          | none => (.error (.other "builder ID is empty"), provenanceOpts)
          | some expectedID =>
            let verifyProvenance := fun (opts : ProvenanceOpts) (trusted : BuilderID)
                (isTrustedBuilder : Bool) =>
              match C.VerifyNpmPackageProvenance env workflowInfo opts trusted
                  isTrustedBuilder with
              | some e => ((.error e : Except Err BuilderID), opts)
              | none => (.ok trusted, opts)
            match trustedBuilderID with
            | some trusted =>
              if !byob then (.error .Internal, provenanceOpts)
              else
                let opts1 := { provenanceOpts with ExpectedBuilderID := expectedID }
                if (match C.SubjectHosted workflowInfo with
                    | some hosted => hosted != .HostedGitHub
                    | none => false) then (.error .MismatchBuilderID, opts1)
                else verifyProvenance opts1 trusted true
            | none =>
              match C.SubjectHosted workflowInfo with
              | none => (.error .NotSupported, provenanceOpts)
              | some hosted =>
                match npmHostingSwitch C expectedID hosted with
                | some e => (.error e, provenanceOpts)
                | none =>
                  match C.TrustedBuilderIDNew expectedID false with
                  | .error e => (.error e, provenanceOpts)
                  | .ok trusted =>
                    verifyProvenance { provenanceOpts with ExpectedBuilderID := expectedID }
                      trusted false

/-- The loop of `VerifyImage` over the attestations: `errs` are the errors
collected so far, `provenanceOpts` the options as left by the calls so far. -/
def verifyImageLoop (C : GhaCollaborators Env Cert WorkflowInfo BuilderID Builders Att Bytes Root)
    (builderOpts : BuilderOpts) :
    List Att → ProvenanceOpts → List Err → Except Err (Bytes × BuilderID) × ProvenanceOpts
  | [], provenanceOpts, errs =>
    match errs with
    | first :: _ => (.error first, provenanceOpts)
    | [] => (.error .NoValidSignature, provenanceOpts)
  | att :: rest, provenanceOpts, errs =>
    match C.AttPayload att with
    | .error _ => verifyImageLoop C builderOpts rest provenanceOpts errs
    | .ok pyld =>
      match C.EnvelopeFromBytes pyld with
      | .error _ => verifyImageLoop C builderOpts rest provenanceOpts errs
      | .ok env =>
        match C.AttCert att with
        | .error _ => verifyImageLoop C builderOpts rest provenanceOpts errs
        | .ok cert =>
          match verifyEnvAndCert C env cert provenanceOpts builderOpts
              C.defaultContainerTrustedReusableWorkflows with
          | (.ok verified, opts) => (.ok verified, opts)
          | (.error err, opts) => verifyImageLoop C builderOpts rest opts (errs ++ [err])

/-- Go `(*GHAVerifier).VerifyImage(ctx, provenance, artifactImage,
provenanceOpts, builderOpts)`: the result and the options after the call. -/
def VerifyImage (C : GhaCollaborators Env Cert WorkflowInfo BuilderID Builders Att Bytes Root)
    (artifactImage : String) (provenanceOpts : ProvenanceOpts) (builderOpts : BuilderOpts) :
    Except Err (Bytes × BuilderID) × ProvenanceOpts :=
  match C.TrustedRootSingleton with
  | .error err => (.error err, provenanceOpts)
  | .ok trustedRoot =>
    match C.RunCosignImageVerification artifactImage trustedRoot with
    | .error err => (.error err, provenanceOpts)
    | .ok atts => verifyImageLoop C builderOpts atts provenanceOpts []

/-- What the body of the loop of `VerifyImage` makes of one attestation under
the options `provenanceOpts`: `none` when the attestation is skipped (its
payload, envelope or certificate cannot be read), else the result of
`verifyEnvAndCert`. -/
def attestationOutcome
    (C : GhaCollaborators Env Cert WorkflowInfo BuilderID Builders Att Bytes Root)
    (builderOpts : BuilderOpts) (provenanceOpts : ProvenanceOpts) (att : Att) :
    Option (Except Err (Bytes × BuilderID)) :=
  match C.AttPayload att with
  | .error _ => none
  | .ok pyld =>
    match C.EnvelopeFromBytes pyld with
    | .error _ => none
    | .ok env =>
      match C.AttCert att with
      | .error _ => none
      | .ok cert =>
        some (verifyEnvAndCert C env cert provenanceOpts builderOpts
          C.defaultContainerTrustedReusableWorkflows).1

/-- The verdict over the results of the attestations that reached
verification, in order, after the errors `errs`: the first success, else the
first error, else `NoValidSignature`. -/
def imageVerdict {R : Type} : List Err → List (Except Err R) → Except Err R
  | errs, [] =>
    match errs with
    | first :: _ => .error first
    | [] => .error .NoValidSignature
  | _, .ok verified :: _ => .ok verified
  | errs, .error err :: rest => imageVerdict (errs ++ [err]) rest

end Gha

/-! ## `verifiers/internal/gcb/provenance.go` (not under `src/`) -/

/-- Modelled from the spec: the type `utils.TrustedBuilderID` is not under
`src/`. The spec gives it as the pair `(name, version)`. -/
structure TrustedBuilderID where
  name : String
  version : String
  deriving DecidableEq, Repr

/-- Modelled from the spec: the method `String()` of `utils.TrustedBuilderID`
is not under `src/`. The spec: `String()` returns `name@version`. -/
def TrustedBuilderID.String (b : TrustedBuilderID) : String := b.name ++ "@" ++ b.version

/-- Modelled from the spec: the function `validateBuildType` of
`verifiers/internal/gcb/provenance.go` is not under `src/` (its test
`Test_validateBuildType` is). The spec: builder `GoogleHostedWorker@v0.2`
goes with the build type `GoogleHostedWorker@v0.2` (exact); builder `@v0.3`
with the build type `CloudBuildYaml@v0.1` or `CloudBuildSteps@v0.1`; builder
`@v0.1` is invalid; the builder without version suffix goes with the build
type `https://cloud.google.com/build/gcb-buildtypes/google-worker/v1`; any
other combination emits `InvalidBuilderID` or `InvalidRecipe`. The error of
the builder without version on another build type is `InvalidBuildType`, as
the test under `src/` expects. -/
def validateBuildType (builderID : TrustedBuilderID) (buildType : String) : Except Err Unit :=
  if builderID.version = "v0.2" then
    if buildType = builderID.String then .ok () else .error .InvalidRecipe
  else if builderID.version = "v0.3" then
    if buildType = "https://cloudbuild.googleapis.com/CloudBuildYaml@v0.1" ∨
        buildType = "https://cloudbuild.googleapis.com/CloudBuildSteps@v0.1" then .ok ()
    else .error .InvalidRecipe
  else if builderID.version = "" then
    if buildType = "https://cloud.google.com/build/gcb-buildtypes/google-worker/v1" then .ok ()
    else .error .InvalidBuildType
  else .error .InvalidBuilderID

/-- Modelled from the spec: the value of `substitutions.TAG_NAME` in a GCB
provenance, which `gcb/provenance.go` (not under `src/`) reads: absent, not a
string, or a string. -/
inductive TagName where
  | absent
  | notString
  | str (tag : String)
  deriving DecidableEq, Repr

/-- Modelled from the spec: one numeric component of a semantic version, a
non-empty string of decimal digits without a redundant leading zero. -/
def semverComponent (cs : List Char) : Option Nat :=
  if cs.isEmpty || !cs.all Char.isDigit || (cs.head? == some '0' && cs.length != 1) then none
  else some (cs.foldl (fun a c => 10 * a + (c.toNat - 48)) 0)

/-- Modelled from the spec: the parser of semantic versions that
`VerifyVersionedTag` uses is not under `src/`. The spec gives the form
`vMAJOR[.MINOR[.PATCH]]`; the result is the major component and the minor
and patch components when present. -/
def parseSemver (s : String) : Option (Nat × Option Nat × Option Nat) :=
  match s.data with
  | 'v' :: rest =>
    match splitChars '.' rest with
    | [major] =>
      match semverComponent major with
      | some M => some (M, none, none)
      | none => none
    | [major, minor] =>
      match semverComponent major, semverComponent minor with
      | some M, some m => some (M, some m, none)
      | _, _ => none
    | [major, minor, patch] =>
      match semverComponent major, semverComponent minor, semverComponent patch with
      | some M, some m, some p => some (M, some m, some p)
      | _, _, _ => none
    | _ => none
  | _ => none

/-- Modelled from the spec: the method `VerifyVersionedTag` of
`verifiers/internal/gcb/provenance.go` is not under `src/` (its test
`Test_VerifyVersionedTag` is). The spec: the tag is read from
`substitutions.TAG_NAME`; `VerifyVersionedTag` parses both as semantic
versions and requires that every component present in the caller's query
equals the corresponding component in the provenance; missing components are
wildcards. An absent or non-string tag is `MismatchVersionedTag`, as the test
under `src/` expects; the spec names no error kind for a string that is not
a semantic version. -/
def VerifyVersionedTag (tag : TagName) (expected : String) : Except Err Unit :=
  match tag with
  | .absent => .error .MismatchVersionedTag
  | .notString => .error .MismatchVersionedTag
  | .str provenanceTag =>
    match parseSemver provenanceTag, parseSemver expected with
    | some (M, m, p), some (eM, em, ep) =>
      if eM ≠ M then .error .MismatchVersionedTag
      else if em.isSome && em != m then .error .MismatchVersionedTag
      else if ep.isSome && ep != p then .error .MismatchVersionedTag
      else .ok ()
    | _, _ => .error (.other "invalid semantic version")

/-! ## `cli/slsa-verifier/verify/options.go` -/

/-- Go `workflowInputs`: `kv` is a Go map from string to string, `none` when
nil, as an association list. -/
structure workflowInputs where
  kv : Option (List (String × String))
  deriving DecidableEq, Repr

/-- Go map assignment `m[key] = value`. -/
def mapSet (m : List (String × String)) (key value : String) : List (String × String) :=
  (key, value) :: m.filter (fun entry => entry.1 != key)

/-- Go map read `m[key]` with the comma-ok form; a nil map has no key. -/
def mapGet (m : Option (List (String × String))) (key : String) : Option String :=
  match m with
  | none => none
  | some entries => entries.lookup key

/-- Go `(*workflowInputs).Set(value)`: the error returned (`none` for nil)
and the receiver after the call. -/
def workflowInputs.Set (i : workflowInputs) (value : String) : Option Err × workflowInputs :=
  let l := Split value '='
  if l.length != 2 then (some .InvalidFormat, i)
  else
    let kv := match i.kv with
      | none => []
      | some m => m
    (none, { kv := some (mapSet kv (l.getD 0 "") (l.getD 1 "")) })

/-- Go `(*workflowInputs).AsMap()`. -/
def workflowInputs.AsMap (i : workflowInputs) : Option (List (String × String)) := i.kv

/-- Dynamic type and value of an entry of the Go slice `VSALevels`
(`[]interface{}`): a non-nil pointer to a `VSABuildLevel` or to a
`VSASourceLevel` (both `int`). -/
inductive VSALevel where
  | VSABuildLevel (l : Int)
  | VSASourceLevel (l : Int)
  deriving DecidableEq, Repr

/-- Go `VSALevels`. -/
abbrev VSALevels : Type := List VSALevel

namespace verify

/-- Go `parseLevel[T](levelStr, prefix)` of package `verify`; the conversion
`T(level)` is left to the caller. Its two `invalid level` errors wrap
nothing. -/
def parseLevel (levelStr pre : String) : Except Err Int :=
  if !HasPrefix levelStr pre || len levelStr != len pre + 1 then
    .error .invalidLevel
  else
    match Atoi (lastByte levelStr) with
    | .error e => .error e
    | .ok level =>
      if level < 0 || level > 4 then .error .invalidLevel
      else .ok level

end verify

/-- The body of the loop of `VSALevels.Set` for one part: the value stored in
`levels[i]`, or the error returned. Both `blf` and `slf` are
`parseLevel[VSABuildLevel]`. The error `parse: [build track:%v, source
track:%v]` wraps nothing. -/
def VSALevels.setEntry (part : String) : Except Err VSALevel :=
  let levelStr := TrimSpace part
  match verify.parseLevel levelStr "SLSA_BUILD_LEVEL_" with
  | .ok bl => .ok (.VSABuildLevel bl)
  | .error _ =>
    match verify.parseLevel levelStr "SLSA_SOURCE_LEVEL_" with
    | .ok sl => .ok (.VSABuildLevel sl)
    | .error _ => .error (.other "parse")

/-- The loop of `VSALevels.Set` over the parts: stops at the first part that
does not parse. -/
def VSALevels.setLoop : List String → Except Err (List VSALevel)
  | [] => .ok []
  | part :: rest =>
    match VSALevels.setEntry part with
    | .error e => .error e
    | .ok level =>
      match VSALevels.setLoop rest with
      | .error e => .error e
      | .ok levels => .ok (level :: levels)

/-- Go `(*VSALevels).Set(value)`: the error returned (`none` for nil) and the
slice `*ls` after the call. -/
def VSALevels.Set (ls : VSALevels) (value : String) : Option Err × VSALevels :=
  match VSALevels.setLoop (Split value ',') with
  | .error e => (some e, ls)
  | .ok levels => (none, levels)

/-! ## Concrete inputs used by the closed statements below -/

/-- The VSA of the end-to-end scenario: level `SLSA_LEVEL_2`, verifier
`https://the.trusted.verifier/v0.1`, digest `123`. -/
def scenarioPredicate : VsaPredicate :=
  { Verifier := { ID := "https://the.trusted.verifier/v0.1" }
    VerificationResult := "PASSED"
    PolicyLevel := "SLSA_LEVEL_2"
    ResourceURI := "name://the-resource" }

/-- The statement carrying `scenarioPredicate`. -/
def scenarioStatement : Statement :=
  { PredicateType := PredicateVsa
    Subject := [{ Name := "", Digest := [("sha256", "123")] }]
    Predicate := .decodes scenarioPredicate }

/-- The caller's options of the scenario. -/
def scenarioVsaOpts : VsaOpts :=
  { ExpectedDigest := "123"
    ExpectedLevels := [.BuildLevel 1]
    ExpectedResourceURI := some "name://the-resource" }

/-- The caller's expected verifier of the scenario. -/
def scenarioVerifierOpts : VerifierOpts :=
  { ExpectedID := "https://the.trusted.verifier/v0.1" }

/-- A statement of the VSA v0.2 predicate type whose policy level has the
v1.0 form `SLSA_BUILD_LEVEL_2`. -/
def buildLevelFormStatement : Statement :=
  { PredicateType := "https://slsa.dev/verification_summary/v0.2"
    Subject := [{ Name := "", Digest := [("sha256", "123")] }]
    Predicate := .decodes
      { Verifier := { ID := "https://the.trusted.verifier/v0.1" }
        VerificationResult := "PASSED"
        PolicyLevel := "SLSA_BUILD_LEVEL_2"
        ResourceURI := "name://the-resource" } }

/-- The scenario statement with the policy level `SLSA_LX`, whose trailing
character is no digit. -/
def nonDigitLevelStatement : Statement :=
  { scenarioStatement with
    Predicate := .decodes { scenarioPredicate with PolicyLevel := "SLSA_LX" } }

/-- The scenario statement with the verifier ID `v1`, which has no slash. -/
def slashlessVerifierStatement : Statement :=
  { scenarioStatement with
    Predicate := .decodes { scenarioPredicate with Verifier := { ID := "v1" } } }

/-- A verifier over envelopes that are their own statement, whose signature
check fails on every envelope. -/
def rejectingVerifier : VsaVerifier Unit Statement Unit :=
  { verifier := fun _ _ _ => some (.other "no valid signature")
    envelope := scenarioStatement }

/-- A verifier over envelopes that are their own statement, whose signature
check accepts every envelope. -/
def acceptingVerifier : VsaVerifier Unit Statement Unit :=
  { verifier := fun _ _ _ => none
    envelope := scenarioStatement }

/-- A sample `IsAuthoritativeFor`: a verifier, given by its ID prefix, is
authoritative for the names that start with it (as the GHA verifier is for
`https://github.com/`). -/
def samplePrefixAuthority (verifier name : String) : Bool := HasPrefix name verifier

/-- A sample registry of two verifiers, each given by its ID prefix. -/
def sampleRegistry : List (String × String) :=
  [("GHA", "https://github.com/"), ("GCB", "https://cloudbuild.googleapis.com/")]

/-- A sample `ParseBuilderID`: `name@version`, or a name without version. -/
def sampleParseBuilderID (id : String) (_needVersion : Bool) : Except Err (String × String) :=
  match Split id '@' with
  | [name, version] => .ok (name, version)
  | _ => .ok (id, "")

/-- Sample collaborators of the GHA verifier over strings: the certificate
is its own workflow information, the envelope its own payload. Every
certificate but `untrusted` is signed by the delegator workflow (BYOB), the
source repository always matches, and the provenance declares the builder
`https://github.com/org/builder@v1`. The attestation `unreadable` has no
payload. -/
def sampleGha : GhaCollaborators String String String String Unit String String Unit :=
  { GetWorkflowInfoFromCertificate := fun cert => .ok cert
    VerifyBuilderIdentity := fun workflowInfo _ _ =>
      if workflowInfo = "untrusted" then (none, false, some .UntrustedReusableWorkflow)
      else (some "https://github.com/delegator@refs/tags/v1", true, none)
    VerifyCertficateSourceRepository := fun _ _ => none
    BuilderIDString := fun builder => builder
    VerifyProvenance := fun _ opts _ _ =>
      if opts.ExpectedBuilderID = "https://github.com/org/builder@v1" then none
      else some .MismatchBuilderID
    builderID := fun _ _ => .ok "https://github.com/org/builder@v1"
    DecodePayload := fun env => .ok env
    SubjectHosted := fun _ => some .HostedGitHub
    TrustedBuilderIDNew := fun id _ => .ok id
    VerifyNpmPackageProvenance := fun _ _ _ _ _ => none
    httpsGithubCom := "https://github.com/"
    GenericLowPermsDelegatorBuilderID :=
      "slsa-framework/slsa-github-generator/.github/workflows/delegator_lowperms.yml"
    NpmCLILegacyBuilderID := "https://github.com/actions/runner"
    NpmCLIHostedBuilderID := "https://github.com/actions/runner/github-hosted"
    NpmCLISelfHostedBuilderID := "https://github.com/actions/runner/self-hosted"
    TrustedRootSingleton := .ok ()
    RunCosignImageVerification := fun image _ => .ok (Split image ',')
    AttPayload := fun att =>
      if att = "unreadable" then .error (.other "no payload") else .ok att
    EnvelopeFromBytes := fun pyld => .ok pyld
    AttCert := fun att => .ok att
    defaultContainerTrustedReusableWorkflows := () }

/-- The sample collaborators with a certificate whose source repository is
not the expected one. -/
def sampleGhaSourceMismatch :
    GhaCollaborators String String String String Unit String String Unit :=
  { sampleGha with VerifyCertficateSourceRepository := fun _ _ => some .MismatchSource }

/-- Sample provenance options. -/
def sampleProvenanceOpts : ProvenanceOpts :=
  { ExpectedSourceURI := "github.com/org/repo"
    ExpectedBuilderID := ""
    ExpectedBranch := none
    ExpectedTag := none
    ExpectedVersionedTag := none
    ExpectedDigest := "123"
    ExpectedWorkflowInputs := []
    ExpectedPackageName := none
    ExpectedPackageVersion := none }

/-! ## Auxiliary facts -/

/-- What `FromStatement` keeps of the decoded predicate: everything but the
policy level. -/
theorem FromStatement_ok_fields {statement : Statement} {vsa : VsaPredicate}
    (h : FromStatement statement = .ok vsa) :
    statement.PredicateType = PredicateVsa ∧
    ∃ p, statement.Predicate = .decodes p ∧ vsa.Verifier = p.Verifier ∧
      vsa.VerificationResult = p.VerificationResult ∧ vsa.ResourceURI = p.ResourceURI := by
  unfold FromStatement at h
  split at h
  · exact absurd h (by simp)
  · rename_i hpt
    refine ⟨by simpa using hpt, ?_⟩
    split at h
    · exact absurd h (by simp)
    · exact absurd h (by simp)
    · rename_i p hp
      refine ⟨p, hp, ?_⟩
      split at h
      · cases h; exact ⟨rfl, rfl, rfl⟩
      · split at h
        · cases h; exact ⟨rfl, rfl, rfl⟩
        · exact absurd h (by simp)

/-! ## Verify: signature first -/

/-- C1: `Verify` is signature-first. If the DSSE signature check returns an
error then `Verify` returns that error and no verifier ID, whatever
extracting the statement from the envelope would give (so the statement is
neither extracted nor checked); and `Verify` returns a verifier ID only when
the signature check succeeded. -/
theorem Verify_signature_first {Ctx Env Enc : Type} (v : VsaVerifier Ctx Env Enc)
    (ctx : Ctx) (vsaOpts : VsaOpts) (verifierOpts : VerifierOpts) (encoding : Enc) :
    (∀ err, v.verifySignature ctx encoding = some err →
      ∀ extract : Env → Except Err Statement,
        v.Verify extract ctx vsaOpts verifierOpts encoding = .error err) ∧
    (∀ (extract : Env → Except Err Statement) (id : TrustedVerifierID),
      v.Verify extract ctx vsaOpts verifierOpts encoding = .ok id →
        v.verifySignature ctx encoding = none) := by
  constructor
  · intro err herr extract
    simp [VsaVerifier.Verify, herr]
  · intro extract id hok
    cases hsig : v.verifySignature ctx encoding with
    | none => rfl
    | some err => simp [VsaVerifier.Verify, hsig] at hok

/-- Witness of C1: a rejected signature is the result of `Verify` although
the statement would pass every check, and an accepted verification has a
verified signature. -/
theorem Verify_signature_first_witness :
    rejectingVerifier.Verify Except.ok () scenarioVsaOpts scenarioVerifierOpts () =
        .error (.other "no valid signature") ∧
      acceptingVerifier.verifySignature () () = none :=
  ⟨(Verify_signature_first rejectingVerifier () scenarioVsaOpts scenarioVerifierOpts ()).1
      (.other "no valid signature") rfl Except.ok,
    (Verify_signature_first acceptingVerifier () scenarioVsaOpts scenarioVerifierOpts ()).2
      Except.ok ⟨"https://the.trusted.verifier", "v0.1"⟩ (by decide)⟩

/-! ## verifyPayload: the verification result -/

/-- C2: `verifyPayload` never succeeds for a predicate whose
`verification_result` is not exactly `PASSED`; and when the predicate type,
the level form, the verifier ID and the subject digest all pass, the error
is `VsaResultFailure`. -/
theorem verifyPayload_result_not_passed (statement : Statement) (p : VsaPredicate)
    (vsaOpts : VsaOpts) (verifierOpts : VerifierOpts)
    (hp : statement.Predicate = .decodes p) (hr : p.VerificationResult ≠ "PASSED") :
    (∀ id, verifyPayload statement vsaOpts verifierOpts ≠ .ok id) ∧
    (∀ vsaPredicate trustedVerifier,
      FromStatement statement = .ok vsaPredicate →
      TrustedVerifierIDNew vsaPredicate.Verifier.ID = .ok trustedVerifier →
      trustedVerifier.Matches verifierOpts.ExpectedID false = .ok () →
      verifySubject statement vsaOpts.ExpectedDigest = .ok () →
      verifyPayload statement vsaOpts verifierOpts = .error .VsaResultFailure) := by
  have key : ∀ vsaPredicate, FromStatement statement = .ok vsaPredicate →
      vsaPredicate.VerificationResult ≠ "PASSED" := by
    intro vsaPredicate hfs
    obtain ⟨_, q, hq, _, hres, _⟩ := FromStatement_ok_fields hfs
    rw [hp] at hq
    cases hq
    rw [hres]; exact hr
  constructor
  · intro id hok
    unfold verifyPayload at hok
    split at hok
    · exact absurd hok (by simp)
    · rename_i vsaPredicate hfs
      have hne := key vsaPredicate hfs
      split at hok
      · exact absurd hok (by simp)
      · split at hok
        · exact absurd hok (by simp)
        · split at hok
          · exact absurd hok (by simp)
          · simp [hne] at hok
  · intro vsaPredicate trustedVerifier hfs hnew hmatch hsub
    have hne := key vsaPredicate hfs
    simp [verifyPayload, hfs, hnew, hmatch, hsub, hne]

/-- Witness of C2: the scenario VSA with result `FAILED`. -/
theorem verifyPayload_result_not_passed_witness :
    verifyPayload
        { scenarioStatement with
          Predicate := .decodes { scenarioPredicate with VerificationResult := "FAILED" } }
        scenarioVsaOpts scenarioVerifierOpts = .error .VsaResultFailure :=
  (verifyPayload_result_not_passed
      { scenarioStatement with
        Predicate := .decodes { scenarioPredicate with VerificationResult := "FAILED" } }
      { scenarioPredicate with VerificationResult := "FAILED" }
      scenarioVsaOpts scenarioVerifierOpts rfl (by decide)).2
    { scenarioPredicate with VerificationResult := "FAILED", PolicyLevel := "SLSA_BUILD_LEVEL_2" }
    ⟨"https://the.trusted.verifier", "v0.1"⟩ (by decide) (by decide) (by decide) (by decide)

/-! ## verifySubject -/

/-- The loop of `verifySubject` when every subject carries a sha256 digest:
it succeeds exactly when some digest is the expected one, and fails with
`MismatchHash` otherwise. -/
theorem verifySubjectLoop_all_sha256 (expectedHash : String) (subjects : List Subject)
    (hall : ∀ s ∈ subjects, (s.Digest.lookup "sha256").isSome = true) :
    (verifySubjectLoop expectedHash subjects = .ok () ↔
      ∃ s ∈ subjects, s.Digest.lookup "sha256" = some expectedHash) ∧
    ((¬ ∃ s ∈ subjects, s.Digest.lookup "sha256" = some expectedHash) →
      verifySubjectLoop expectedHash subjects = .error .MismatchHash) := by
  induction subjects with
  | nil => simp [verifySubjectLoop]
  | cons subject rest ih =>
    have hrest : ∀ s ∈ rest, (s.Digest.lookup "sha256").isSome = true :=
      fun s hs => hall s (List.mem_cons_of_mem _ hs)
    obtain ⟨ih1, ih2⟩ := ih hrest
    have hhead := hall subject (List.mem_cons_self _ _)
    cases hd : subject.Digest.lookup "sha256" with
    | none => simp [hd] at hhead
    | some hash =>
      by_cases heq : hash = expectedHash
      · subst heq
        simp [verifySubjectLoop, hd]
      · have hne : some hash ≠ some expectedHash := fun h => heq (Option.some.inj h)
        simp only [verifySubjectLoop, hd, beq_iff_eq, heq, if_false, List.mem_cons,
          exists_eq_or_imp, hne, false_or]
        exact ⟨ih1, ih2⟩

/-- C3: for every statement in which every subject carries a sha256 digest,
`verifySubject` succeeds iff some subject has the expected sha256 digest, and
otherwise (an empty subject list included) fails with `MismatchHash`. -/
theorem verifySubject_all_sha256 (statement : Statement) (expected : String)
    (hall : ∀ s ∈ statement.Subject, (s.Digest.lookup "sha256").isSome = true) :
    (verifySubject statement expected = .ok () ↔
      ∃ s ∈ statement.Subject, s.Digest.lookup "sha256" = some expected) ∧
    ((¬ ∃ s ∈ statement.Subject, s.Digest.lookup "sha256" = some expected) →
      verifySubject statement expected = .error .MismatchHash) :=
  verifySubjectLoop_all_sha256 expected statement.Subject hall

/-- Witness of C3: a second subject carries the expected digest, and no
subject carries another one. -/
theorem verifySubject_all_sha256_witness :
    verifySubject
        { scenarioStatement with
          Subject := [{ Name := "a", Digest := [("sha512", "9"), ("sha256", "123")] },
                      { Name := "b", Digest := [("sha256", "456")] }] } "456" = .ok () ∧
      verifySubject { scenarioStatement with Subject := [] } "456" = .error .MismatchHash :=
  ⟨(verifySubject_all_sha256
      { scenarioStatement with
        Subject := [{ Name := "a", Digest := [("sha512", "9"), ("sha256", "123")] },
                    { Name := "b", Digest := [("sha256", "456")] }] } "456"
      (by decide)).1.2 (by decide),
    (verifySubject_all_sha256 { scenarioStatement with Subject := [] } "456"
      (by decide)).2 (by decide)⟩

/-! ## VerifyLevels -/

/-- The two track names differ. -/
theorem track_build_ne_source : ("build" : String) ≠ "source" := by decide

/-- The result of `VerifyLevels` on a single expected level, for a predicate whose policy
level parses. -/
theorem VerifyLevels_singleton (p : VsaPredicate) (pl e : Level)
    (hparse : LevelFromString p.PolicyLevel = .ok pl) :
    (p.VerifyLevels [e] = .ok () ↔ e.Track = pl.Track ∧ e.value ≤ pl.value) ∧
    (¬ (e.Track = pl.Track ∧ e.value ≤ pl.value) →
      p.VerifyLevels [e] = .error .MismatchVsaLevel) := by
  have hbs := track_build_ne_source
  have hsb : ("source" : String) ≠ "build" := fun h => hbs h.symm
  cases pl with
  | BuildLevel a =>
    cases e with
    | BuildLevel b =>
      by_cases hlt : a < b
      · simp [VsaPredicate.VerifyLevels, hparse, Level.Track, Level.LowerThan, Level.value, hlt]
      · simp [VsaPredicate.VerifyLevels, hparse, Level.Track, Level.LowerThan, Level.value, hlt]
        exact not_lt.mp hlt
    | SourceLevel b =>
      simp [VsaPredicate.VerifyLevels, hparse, Level.Track, hsb]
  | SourceLevel a =>
    cases e with
    | BuildLevel b =>
      simp [VsaPredicate.VerifyLevels, hparse, Level.Track, hbs]
    | SourceLevel b =>
      by_cases hlt : a < b
      · simp [VsaPredicate.VerifyLevels, hparse, Level.Track, Level.LowerThan, Level.value, hlt]
      · simp [VsaPredicate.VerifyLevels, hparse, Level.Track, Level.LowerThan, Level.value, hlt]
        exact not_lt.mp hlt

/-- C4: for every predicate whose policy level parses as a level `pl` in
0..3 and every expected-level list holding exactly one level `e`,
`VerifyLevels` returns ok iff `e` is on the track of `pl` and `e ≤ pl`, in
the order of the integers that the levels hold (the order that `LowerThan`
compares in); in every other case it fails with `MismatchVsaLevel`. For an
expected level that holds a non-negative integer this is the order of the
values of `ToInt()`. -/
theorem VerifyLevels_accepts_lower (p : VsaPredicate) (pl e : Level)
    (hparse : LevelFromString p.PolicyLevel = .ok pl)
    (hrange : 0 ≤ pl.value ∧ pl.value ≤ 3) :
    (p.VerifyLevels [e] = .ok () ↔ e.Track = pl.Track ∧ e.value ≤ pl.value) ∧
    (¬ (e.Track = pl.Track ∧ e.value ≤ pl.value) →
      p.VerifyLevels [e] = .error .MismatchVsaLevel) ∧
    (0 ≤ e.value → e.value < 2 ^ 63 → (e.value ≤ pl.value ↔ e.ToInt ≤ pl.ToInt)) := by
  obtain ⟨h1, h2⟩ := VerifyLevels_singleton p pl e hparse
  refine ⟨h1, h2, ?_⟩
  intro he0 he63
  obtain ⟨hp0, hp3⟩ := hrange
  have hpl : (pl.ToInt : Int) = pl.value := by
    cases pl <;> simp only [Level.ToInt, Level.value] at hp0 hp3 ⊢ <;> omega
  have hel : (e.ToInt : Int) = e.value := by
    cases e <;> simp only [Level.ToInt, Level.value] at he0 he63 ⊢ <;> omega
  constructor
  · intro h
    have : (e.ToInt : Int) ≤ (pl.ToInt : Int) := by rw [hpl, hel]; exact h
    exact Int.ofNat_le.mp this
  · intro h
    have : (e.ToInt : Int) ≤ (pl.ToInt : Int) := Int.ofNat_le.mpr h
    rw [hpl, hel] at this
    exact this

/-- Witness of C4: predicate level 2 against expected build level 1 (ok),
against expected build level 3 (mismatch), and against an expected build
level that holds -1 (ok). -/
theorem VerifyLevels_accepts_lower_witness :
    VsaPredicate.VerifyLevels { scenarioPredicate with PolicyLevel := "SLSA_BUILD_LEVEL_2" }
        [.BuildLevel 1] = .ok () ∧
      VsaPredicate.VerifyLevels { scenarioPredicate with PolicyLevel := "SLSA_BUILD_LEVEL_2" }
        [.BuildLevel 3] = .error .MismatchVsaLevel ∧
      VsaPredicate.VerifyLevels { scenarioPredicate with PolicyLevel := "SLSA_BUILD_LEVEL_2" }
        [.BuildLevel (-1)] = .ok () :=
  ⟨(VerifyLevels_accepts_lower { scenarioPredicate with PolicyLevel := "SLSA_BUILD_LEVEL_2" }
      (.BuildLevel 2) (.BuildLevel 1) (by decide) (by decide)).1.2 (by decide),
    (VerifyLevels_accepts_lower { scenarioPredicate with PolicyLevel := "SLSA_BUILD_LEVEL_2" }
      (.BuildLevel 2) (.BuildLevel 3) (by decide) (by decide)).2.1 (by decide),
    (VerifyLevels_accepts_lower { scenarioPredicate with PolicyLevel := "SLSA_BUILD_LEVEL_2" }
      (.BuildLevel 2) (.BuildLevel (-1)) (by decide) (by decide)).1.2 (by decide)⟩

/-- C5: for every predicate whose policy level parses, `VerifyLevels` fails
with `InvalidVsaLevel` whenever the expected-level list does not hold exactly
one level (it is empty, or holds two or more levels on the same or on
different tracks), whatever the levels are. -/
theorem VerifyLevels_needs_one_level (p : VsaPredicate) (pl : Level)
    (expectedLevels : List Level)
    (hparse : LevelFromString p.PolicyLevel = .ok pl)
    (hlen : expectedLevels.length ≠ 1) :
    p.VerifyLevels expectedLevels = .error .InvalidVsaLevel := by
  simp [VsaPredicate.VerifyLevels, hparse, hlen]

/-- Witness of C5: no level, two levels of one track and two levels of
different tracks. -/
theorem VerifyLevels_needs_one_level_witness :
    VsaPredicate.VerifyLevels { scenarioPredicate with PolicyLevel := "SLSA_BUILD_LEVEL_1" }
        [] = .error .InvalidVsaLevel ∧
      VsaPredicate.VerifyLevels { scenarioPredicate with PolicyLevel := "SLSA_BUILD_LEVEL_1" }
        [.BuildLevel 1, .BuildLevel 3] = .error .InvalidVsaLevel ∧
      VsaPredicate.VerifyLevels { scenarioPredicate with PolicyLevel := "SLSA_BUILD_LEVEL_1" }
        [.BuildLevel 1, .SourceLevel 1] = .error .InvalidVsaLevel :=
  ⟨VerifyLevels_needs_one_level _ (.BuildLevel 1) [] (by decide) (by decide),
    VerifyLevels_needs_one_level _ (.BuildLevel 1) [.BuildLevel 1, .BuildLevel 3]
      (by decide) (by decide),
    VerifyLevels_needs_one_level _ (.BuildLevel 1) [.BuildLevel 1, .SourceLevel 1]
      (by decide) (by decide)⟩

/-! ## verifyPayload: the resource URI -/

/-- The function `FromStatement` commutes with a change of the decoded predicate's
resource URI. -/
theorem FromStatement_set_ResourceURI (statement : Statement) (p : VsaPredicate)
    (ru : String) (hp : statement.Predicate = .decodes p) :
    FromStatement { statement with Predicate := .decodes { p with ResourceURI := ru } } =
      match FromStatement statement with
      | .error e => .error e
      | .ok vsa => .ok { vsa with ResourceURI := ru } := by
  simp only [FromStatement, hp]
  split_ifs <;> rfl

/-- C6: in `verifyPayload`, when every earlier check passes and the caller
supplied `ExpectedResourceURI`, verification succeeds iff it equals the
predicate's `resource_uri` and otherwise fails with `MismatchVsaResourceURI`;
when the caller supplied none, the predicate's `resource_uri` has no
influence on the result. -/
theorem verifyPayload_resource_uri (statement : Statement) (vsaOpts : VsaOpts)
    (verifierOpts : VerifierOpts) :
    (∀ vsaPredicate trustedVerifier uri,
      FromStatement statement = .ok vsaPredicate →
      TrustedVerifierIDNew vsaPredicate.Verifier.ID = .ok trustedVerifier →
      trustedVerifier.Matches verifierOpts.ExpectedID false = .ok () →
      verifySubject statement vsaOpts.ExpectedDigest = .ok () →
      vsaPredicate.VerificationResult = "PASSED" →
      vsaPredicate.VerifyLevels vsaOpts.ExpectedLevels = .ok () →
      vsaOpts.ExpectedResourceURI = some uri →
        (verifyPayload statement vsaOpts verifierOpts = .ok trustedVerifier ↔
          uri = vsaPredicate.ResourceURI) ∧
        (uri ≠ vsaPredicate.ResourceURI →
          verifyPayload statement vsaOpts verifierOpts = .error .MismatchVsaResourceURI)) ∧
    (vsaOpts.ExpectedResourceURI = none →
      ∀ p ru, statement.Predicate = .decodes p →
        verifyPayload { statement with Predicate := .decodes { p with ResourceURI := ru } }
            vsaOpts verifierOpts =
          verifyPayload statement vsaOpts verifierOpts) := by
  constructor
  · intro vsaPredicate trustedVerifier uri hfs hnew hmatch hsub hres hlev huri
    by_cases heq : uri = vsaPredicate.ResourceURI
    · simp [verifyPayload, hfs, hnew, hmatch, hsub, hres, hlev, huri, heq]
    · simp [verifyPayload, hfs, hnew, hmatch, hsub, hres, hlev, huri, heq]
  · intro hnone p ru hp
    have hfs := FromStatement_set_ResourceURI statement p ru hp
    unfold verifyPayload
    rw [hfs]
    cases hres : FromStatement statement with
    | error e => rfl
    | ok vsa =>
      simp only [hnone, verifySubject, VsaPredicate.VerifyLevels]

/-- Witness of C6: the scenario VSA against its own resource URI and against
another one, and without an expected resource URI. -/
theorem verifyPayload_resource_uri_witness :
    verifyPayload scenarioStatement scenarioVsaOpts scenarioVerifierOpts =
        .ok ⟨"https://the.trusted.verifier", "v0.1"⟩ ∧
      verifyPayload scenarioStatement
          { scenarioVsaOpts with ExpectedResourceURI := some "name://the-resource-different" }
          scenarioVerifierOpts = .error .MismatchVsaResourceURI ∧
      verifyPayload
          { scenarioStatement with
            Predicate := .decodes { scenarioPredicate with ResourceURI := "name://other" } }
          { scenarioVsaOpts with ExpectedResourceURI := none } scenarioVerifierOpts =
        verifyPayload scenarioStatement
          { scenarioVsaOpts with ExpectedResourceURI := none } scenarioVerifierOpts :=
  ⟨((verifyPayload_resource_uri scenarioStatement scenarioVsaOpts scenarioVerifierOpts).1
      { scenarioPredicate with PolicyLevel := "SLSA_BUILD_LEVEL_2" }
      ⟨"https://the.trusted.verifier", "v0.1"⟩ "name://the-resource"
      (by decide) (by decide) (by decide) (by decide) (by decide) (by decide) rfl).1.2
      (by decide),
    ((verifyPayload_resource_uri scenarioStatement
      { scenarioVsaOpts with ExpectedResourceURI := some "name://the-resource-different" }
      scenarioVerifierOpts).1
      { scenarioPredicate with PolicyLevel := "SLSA_BUILD_LEVEL_2" }
      ⟨"https://the.trusted.verifier", "v0.1"⟩ "name://the-resource-different"
      (by decide) (by decide) (by decide) (by decide) (by decide) (by decide) rfl).2
      (by decide),
    (verifyPayload_resource_uri scenarioStatement
      { scenarioVsaOpts with ExpectedResourceURI := none } scenarioVerifierOpts).2 rfl
      scenarioPredicate "name://other" rfl⟩

/-! ## Matching a verifier ID -/

/-- C7: for every `TrustedVerifierID` `b` and every expected string `e` that
`ParseVerifierID(e, false)` parses to `(n, v)`, `b.Matches(e, false)`
succeeds iff `n` is the name of `b` and `v` is empty or the version of `b`;
in every other case it fails with `MismatchVerifierID`. -/
theorem Matches_name_and_version (b : TrustedVerifierID) (e n v : String)
    (hparse : ParseVerifierID e false = .ok (n, v)) :
    (b.Matches e false = .ok () ↔ n = b.name ∧ (v = "" ∨ v = b.version)) ∧
    (¬ (n = b.name ∧ (v = "" ∨ v = b.version)) →
      b.Matches e false = .error .MismatchVerifierID) := by
  by_cases hn : n = b.name
  · by_cases hv : v = ""
    · simp [TrustedVerifierID.Matches, hparse, hn, hv]
    · by_cases hv2 : v = b.version
      · simp [TrustedVerifierID.Matches, hparse, hn, hv2]
      · simp [TrustedVerifierID.Matches, hparse, hn, hv, hv2]
  · simp [TrustedVerifierID.Matches, hparse, hn]

/-- Witness of C7: a name-only expected ID matches, a full expected ID with
another version does not. -/
theorem Matches_name_and_version_witness :
    TrustedVerifierID.Matches ⟨"https://the.trusted.verifier", "v0.1"⟩
        "https://the.trusted.verifier" false = .ok () ∧
      TrustedVerifierID.Matches ⟨"https://the.trusted.verifier", "v0.1"⟩
        "https://the.trusted.verifier/v0.2" false = .error .MismatchVerifierID :=
  ⟨(Matches_name_and_version ⟨"https://the.trusted.verifier", "v0.1"⟩
      "https://the.trusted.verifier" "https://the.trusted.verifier" "" (by decide)).1.2
      (by decide),
    (Matches_name_and_version ⟨"https://the.trusted.verifier", "v0.1"⟩
      "https://the.trusted.verifier/v0.2" "https://the.trusted.verifier" "v0.2"
      (by decide)).2 (by decide)⟩

/-! ## FromStatement -/

/-- C8: `FromStatement` fails with `InvalidPredicate` for every statement
whose predicate type is not exactly the VSA v0.2 URI, whatever the predicate
holds: the check comes before decoding and level normalisation. -/
theorem FromStatement_wrong_predicate_type (statement : Statement)
    (htype : statement.PredicateType ≠ "https://slsa.dev/verification_summary/v0.2") :
    FromStatement statement = .error .InvalidPredicate := by
  have h : statement.PredicateType ≠ PredicateVsa := htype
  simp [FromStatement, h]

/-- Witness of C8: the scenario statement with a letter appended to its
predicate type. -/
theorem FromStatement_wrong_predicate_type_witness :
    FromStatement
        { scenarioStatement with
          PredicateType := "https://slsa.dev/verification_summary/v0.2A" } =
      .error .InvalidPredicate :=
  FromStatement_wrong_predicate_type _ (by decide)

/-- The result of `FromStatement` on a statement of the VSA predicate type whose predicate
decodes: only the level normalisation is left. -/
theorem FromStatement_decodes (statement : Statement) (p : VsaPredicate)
    (htype : statement.PredicateType = PredicateVsa)
    (hp : statement.Predicate = .decodes p) :
    FromStatement statement =
      if HasPrefix p.PolicyLevel "SLSA_L" && len p.PolicyLevel == len "SLSA_L" + 1 then
        .ok { p with PolicyLevel := ReplaceAll p.PolicyLevel "SLSA_L" "SLSA_BUILD_LEVEL_" }
      else if HasPrefix p.PolicyLevel "SLSA_LEVEL_" &&
          len p.PolicyLevel == len "SLSA_LEVEL_" + 1 then
        .ok { p with PolicyLevel := ReplaceAll p.PolicyLevel "SLSA_LEVEL_" "SLSA_BUILD_LEVEL_" }
      else .error .InvalidVsaLevel := by
  unfold FromStatement
  rw [if_neg (by simp [htype])]
  simp only [hp]

/-- A string that has the prefix `pre` and is one byte longer than `pre` is
`pre` followed by one character. -/
theorem eq_append_singleton_of_HasPrefix (s pre : String)
    (hpre : HasPrefix s pre = true) (hlen : len s = len pre + 1) :
    ∃ c : Char, s = pre ++ String.singleton c := by
  obtain ⟨t, ht⟩ := List.isPrefixOf_iff_prefix.mp hpre
  have hsize : String.utf8Len s.data = String.utf8Len pre.data + 1 := hlen
  rw [← ht, String.utf8Len_append] at hsize
  have ht1 : String.utf8Len t = 1 := by omega
  match t, ht, ht1 with
  | [], _, h1 => simp at h1
  | [c], ht, _ =>
    refine ⟨c, ?_⟩
    apply String.ext
    simp [← ht, String.singleton]
  | c :: d :: r, _, h1 =>
    have hc := Char.utf8Size_pos c
    have hd := Char.utf8Size_pos d
    simp only [String.utf8Len_cons] at h1
    omega

/-- C10: on a statement of the VSA predicate type whose predicate decodes,
`FromStatement` fails with `InvalidVsaLevel` for every `policy_level` that is
neither `SLSA_L` followed by exactly one character nor `SLSA_LEVEL_` followed
by exactly one character; in particular for the v1.0 form
`SLSA_BUILD_LEVEL_n` and for the string `INVALID`. -/
theorem FromStatement_rejects_other_levels (statement : Statement) (p : VsaPredicate)
    (htype : statement.PredicateType = PredicateVsa)
    (hp : statement.Predicate = .decodes p) :
    ((¬ ∃ c : Char, p.PolicyLevel = "SLSA_L" ++ String.singleton c) →
      (¬ ∃ c : Char, p.PolicyLevel = "SLSA_LEVEL_" ++ String.singleton c) →
      FromStatement statement = .error .InvalidVsaLevel) ∧
    (∀ n : Nat, n ≤ 3 → p.PolicyLevel = "SLSA_BUILD_LEVEL_" ++ toString n →
      FromStatement statement = .error .InvalidVsaLevel) ∧
    (p.PolicyLevel = "INVALID" → FromStatement statement = .error .InvalidVsaLevel) := by
  rw [FromStatement_decodes statement p htype hp]
  refine ⟨?_, ?_, ?_⟩
  · intro h1 h2
    have c1 : ¬ ((HasPrefix p.PolicyLevel "SLSA_L" &&
        len p.PolicyLevel == len "SLSA_L" + 1) = true) := by
      intro h
      simp only [Bool.and_eq_true, beq_iff_eq] at h
      exact h1 (eq_append_singleton_of_HasPrefix _ _ h.1 h.2)
    have c2 : ¬ ((HasPrefix p.PolicyLevel "SLSA_LEVEL_" &&
        len p.PolicyLevel == len "SLSA_LEVEL_" + 1) = true) := by
      intro h
      simp only [Bool.and_eq_true, beq_iff_eq] at h
      exact h2 (eq_append_singleton_of_HasPrefix _ _ h.1 h.2)
    rw [if_neg c1, if_neg c2]
  · intro n hn h
    rw [h]
    interval_cases n <;> rw [if_neg (by decide), if_neg (by decide)]
  · intro h
    rw [h, if_neg (by decide), if_neg (by decide)]

/-- Witness of C10: the scenario VSA with policy level `SLSA_BUILD_LEVEL_2`,
with policy level `INVALID`, and with policy level `SLSA_BUILD` (by its
form). -/
theorem FromStatement_rejects_other_levels_witness :
    FromStatement
        { scenarioStatement with
          Predicate := .decodes { scenarioPredicate with PolicyLevel := "SLSA_BUILD_LEVEL_2" } } =
        .error .InvalidVsaLevel ∧
      FromStatement
        { scenarioStatement with
          Predicate := .decodes { scenarioPredicate with PolicyLevel := "INVALID" } } =
        .error .InvalidVsaLevel ∧
      FromStatement
        { scenarioStatement with
          Predicate := .decodes { scenarioPredicate with PolicyLevel := "SLSA_BUILD" } } =
        .error .InvalidVsaLevel :=
  ⟨(FromStatement_rejects_other_levels
      { scenarioStatement with
        Predicate := .decodes { scenarioPredicate with PolicyLevel := "SLSA_BUILD_LEVEL_2" } }
      { scenarioPredicate with PolicyLevel := "SLSA_BUILD_LEVEL_2" } rfl rfl).2.1 2
      (by decide) (by decide),
    (FromStatement_rejects_other_levels
      { scenarioStatement with
        Predicate := .decodes { scenarioPredicate with PolicyLevel := "INVALID" } }
      { scenarioPredicate with PolicyLevel := "INVALID" } rfl rfl).2.2 rfl,
    (FromStatement_rejects_other_levels
      { scenarioStatement with
        Predicate := .decodes { scenarioPredicate with PolicyLevel := "SLSA_BUILD" } }
      { scenarioPredicate with PolicyLevel := "SLSA_BUILD" } rfl rfl).1
      (fun ⟨c, h⟩ =>
        absurd (show (("SLSA_BUILD" : String).data.get? 5) = some 'L' from
          (congrArg (fun s : String => s.data.get? 5) h).trans rfl) (by decide))
      (fun ⟨c, h⟩ =>
        absurd (show (("SLSA_BUILD" : String).data.get? 5) = some 'L' from
          (congrArg (fun s : String => s.data.get? 5) h).trans rfl) (by decide))⟩

/-- C9, as stated, fails: on the VSA v0.2 predicate type with policy level
`SLSA_BUILD_LEVEL_2`, `FromStatement` does not succeed; it returns
`InvalidVsaLevel`. -/
theorem FromStatement_build_level_form_counterexample :
    FromStatement buildLevelFormStatement = .error .InvalidVsaLevel ∧
      ¬ ∃ vsa, FromStatement buildLevelFormStatement = .ok vsa ∧
        vsa.PolicyLevel = "SLSA_BUILD_LEVEL_2" := by
  have herr : FromStatement buildLevelFormStatement = .error .InvalidVsaLevel := by decide
  refine ⟨herr, ?_⟩
  rintro ⟨vsa, h, _⟩
  rw [herr] at h
  cases h

/-- C9 (amended): for every level digit `n` in 0..3, on a statement of the
VSA v0.2 predicate type whose predicate decodes, `FromStatement` succeeds on
the policy levels `SLSA_Ln` and `SLSA_LEVEL_n` and yields the predicate with
policy level `SLSA_BUILD_LEVEL_n`, every other field unchanged; on the
policy level `SLSA_BUILD_LEVEL_n` it fails with `InvalidVsaLevel`. -/
theorem FromStatement_normalises_legacy_levels (statement : Statement) (p : VsaPredicate)
    (n : Nat) (hn : n ≤ 3)
    (htype : statement.PredicateType = "https://slsa.dev/verification_summary/v0.2")
    (hp : statement.Predicate = .decodes p) :
    (p.PolicyLevel = "SLSA_L" ++ toString n →
      FromStatement statement =
        .ok { p with PolicyLevel := "SLSA_BUILD_LEVEL_" ++ toString n }) ∧
    (p.PolicyLevel = "SLSA_LEVEL_" ++ toString n →
      FromStatement statement =
        .ok { p with PolicyLevel := "SLSA_BUILD_LEVEL_" ++ toString n }) ∧
    (p.PolicyLevel = "SLSA_BUILD_LEVEL_" ++ toString n →
      FromStatement statement = .error .InvalidVsaLevel) := by
  rw [FromStatement_decodes statement p htype hp]
  refine ⟨?_, ?_, ?_⟩
  · intro h
    rw [h]
    interval_cases n
    · rw [if_pos (by decide), show ReplaceAll ("SLSA_L" ++ toString 0) "SLSA_L"
        "SLSA_BUILD_LEVEL_" = "SLSA_BUILD_LEVEL_" ++ toString 0 from by decide]
    · rw [if_pos (by decide), show ReplaceAll ("SLSA_L" ++ toString 1) "SLSA_L"
        "SLSA_BUILD_LEVEL_" = "SLSA_BUILD_LEVEL_" ++ toString 1 from by decide]
    · rw [if_pos (by decide), show ReplaceAll ("SLSA_L" ++ toString 2) "SLSA_L"
        "SLSA_BUILD_LEVEL_" = "SLSA_BUILD_LEVEL_" ++ toString 2 from by decide]
    · rw [if_pos (by decide), show ReplaceAll ("SLSA_L" ++ toString 3) "SLSA_L"
        "SLSA_BUILD_LEVEL_" = "SLSA_BUILD_LEVEL_" ++ toString 3 from by decide]
  · intro h
    rw [h]
    interval_cases n
    · rw [if_neg (by decide), if_pos (by decide),
        show ReplaceAll ("SLSA_LEVEL_" ++ toString 0) "SLSA_LEVEL_"
          "SLSA_BUILD_LEVEL_" = "SLSA_BUILD_LEVEL_" ++ toString 0 from by decide]
    · rw [if_neg (by decide), if_pos (by decide),
        show ReplaceAll ("SLSA_LEVEL_" ++ toString 1) "SLSA_LEVEL_"
          "SLSA_BUILD_LEVEL_" = "SLSA_BUILD_LEVEL_" ++ toString 1 from by decide]
    · rw [if_neg (by decide), if_pos (by decide),
        show ReplaceAll ("SLSA_LEVEL_" ++ toString 2) "SLSA_LEVEL_"
          "SLSA_BUILD_LEVEL_" = "SLSA_BUILD_LEVEL_" ++ toString 2 from by decide]
    · rw [if_neg (by decide), if_pos (by decide),
        show ReplaceAll ("SLSA_LEVEL_" ++ toString 3) "SLSA_LEVEL_"
          "SLSA_BUILD_LEVEL_" = "SLSA_BUILD_LEVEL_" ++ toString 3 from by decide]
  · intro h
    rw [h]
    interval_cases n <;> rw [if_neg (by decide), if_neg (by decide)]

/-- Witness of C9 (amended): the three forms of level 2. -/
theorem FromStatement_normalises_legacy_levels_witness :
    FromStatement
        { scenarioStatement with
          Predicate := .decodes { scenarioPredicate with PolicyLevel := "SLSA_L2" } } =
        .ok { scenarioPredicate with PolicyLevel := "SLSA_BUILD_LEVEL_2" } ∧
      FromStatement scenarioStatement =
        .ok { scenarioPredicate with PolicyLevel := "SLSA_BUILD_LEVEL_2" } ∧
      FromStatement
        { scenarioStatement with
          Predicate := .decodes { scenarioPredicate with PolicyLevel := "SLSA_BUILD_LEVEL_2" } } =
        .error .InvalidVsaLevel :=
  ⟨(FromStatement_normalises_legacy_levels
      { scenarioStatement with
        Predicate := .decodes { scenarioPredicate with PolicyLevel := "SLSA_L2" } }
      { scenarioPredicate with PolicyLevel := "SLSA_L2" } 2 (by decide) rfl rfl).1
      (by decide),
    (FromStatement_normalises_legacy_levels scenarioStatement scenarioPredicate 2
      (by decide) rfl rfl).2.1 (by decide),
    (FromStatement_normalises_legacy_levels
      { scenarioStatement with
        Predicate := .decodes { scenarioPredicate with PolicyLevel := "SLSA_BUILD_LEVEL_2" } }
      { scenarioPredicate with PolicyLevel := "SLSA_BUILD_LEVEL_2" } 2 (by decide) rfl rfl).2.2
      (by decide)⟩

/-! ## Levels: string codec and ordering -/

/-- C14: level parsing round-trip. For every `n` in 0..3 and each track,
`LevelFromString` on the `ToString` of the level `n` of that track succeeds
and returns that level (same track, same numeric value). -/
theorem LevelFromString_ToString_roundtrip (n : Int) (h0 : 0 ≤ n) (h3 : n ≤ 3) :
    (LevelFromString (Level.BuildLevel n).ToString = .ok (.BuildLevel n) ∧
      (Level.BuildLevel n).Track = "build" ∧ (Level.BuildLevel n).ToInt = n) ∧
    (LevelFromString (Level.SourceLevel n).ToString = .ok (.SourceLevel n) ∧
      (Level.SourceLevel n).Track = "source" ∧ (Level.SourceLevel n).ToInt = n) := by
  interval_cases n <;> decide

/-- Witness of C14: level 2 of both tracks. -/
theorem LevelFromString_ToString_roundtrip_witness :
    LevelFromString "SLSA_BUILD_LEVEL_2" = .ok (.BuildLevel 2) ∧
      LevelFromString "SLSA_SOURCE_LEVEL_2" = .ok (.SourceLevel 2) :=
  ⟨(LevelFromString_ToString_roundtrip 2 (by decide) (by decide)).1.1,
    (LevelFromString_ToString_roundtrip 2 (by decide) (by decide)).2.1⟩

/-- C15: level ordering. For all `N`, `M` in 0..3, `LowerThan` between two
build levels, and between two source levels, returns a boolean, which is
true iff `N < M`. -/
theorem LowerThan_same_track (N M : Int) (hN : 0 ≤ N ∧ N ≤ 3) (hM : 0 ≤ M ∧ M ≤ 3) :
    ((Level.BuildLevel N).LowerThan (.BuildLevel M) ≠ none ∧
      ((Level.BuildLevel N).LowerThan (.BuildLevel M) = some true ↔ N < M)) ∧
    ((Level.SourceLevel N).LowerThan (.SourceLevel M) ≠ none ∧
      ((Level.SourceLevel N).LowerThan (.SourceLevel M) = some true ↔ N < M)) := by
  have _ := hN
  have _ := hM
  simp [Level.LowerThan]

/-- Witness of C15: build level 1 is lower than build level 2, and source
level 2 is not lower than source level 2. -/
theorem LowerThan_same_track_witness :
    (Level.BuildLevel 1).LowerThan (.BuildLevel 2) = some true ∧
      (Level.SourceLevel 2).LowerThan (.SourceLevel 2) ≠ some true :=
  ⟨(LowerThan_same_track 1 2 (by decide) (by decide)).1.2.2 (by decide),
    fun h => absurd ((LowerThan_same_track 2 2 (by decide) (by decide)).2.2.1 h) (by decide)⟩

/-- C16, evaluated on the code: a cross-track comparison does not return
false. The type assertion yields a nil pointer and its dereference panics,
for every build level `a` and every source level `b`, in both directions. -/
theorem LowerThan_cross_track_panics (a b : Int) :
    (Level.BuildLevel a).LowerThan (.SourceLevel b) = none ∧
      (Level.SourceLevel b).LowerThan (.BuildLevel a) = none ∧
      (Level.BuildLevel a).LowerThan (.SourceLevel b) ≠ some false ∧
      (Level.SourceLevel b).LowerThan (.BuildLevel a) ≠ some false := by
  simp [Level.LowerThan]

/-- C17, evaluated on the code: the level strings with digit 4 are accepted,
by `BuildLevelFromString`, `SourceLevelFromString` and `LevelFromString`, and
yield level 4; digit 5 is the first one rejected. -/
theorem parseLevel_accepts_level_4 :
    BuildLevelFromString "SLSA_BUILD_LEVEL_4" = .ok (.BuildLevel 4) ∧
      SourceLevelFromString "SLSA_SOURCE_LEVEL_4" = .ok (.SourceLevel 4) ∧
      LevelFromString "SLSA_BUILD_LEVEL_4" = .ok (.BuildLevel 4) ∧
      LevelFromString "SLSA_SOURCE_LEVEL_4" = .ok (.SourceLevel 4) ∧
      LevelFromString "SLSA_BUILD_LEVEL_5" = .error .invalidLevel ∧
      LevelFromString "SLSA_SOURCE_LEVEL_5" = .error .invalidLevel := by
  decide

/-! ## LevelsFromArray -/

/-- The errors of `Atoi` are the two `strconv` errors. -/
theorem Atoi_error_kind {s : String} {e : Err} (h : Atoi s = .error e) :
    e = .strconvErrSyntax ∨ e = .strconvErrRange := by
  unfold Atoi at h
  dsimp only at h
  split_ifs at h <;> cases h <;> simp

/-- The errors of `parseLevel` are the track mismatch, the two `strconv`
errors and the invalid level. -/
theorem parseLevel_error_kind {levelStr pre : String} {e : Err}
    (h : parseLevel levelStr pre = .error e) :
    e = .errVsaMismatchTrack ∨ e = .strconvErrSyntax ∨ e = .strconvErrRange ∨
      e = .invalidLevel := by
  unfold parseLevel at h
  split at h
  · cases h; exact Or.inl rfl
  · split at h
    · rename_i e2 hat
      cases h
      rcases Atoi_error_kind hat with h1 | h1
      · exact Or.inr (Or.inl h1)
      · exact Or.inr (Or.inr (Or.inl h1))
    · split at h
      · cases h; exact Or.inr (Or.inr (Or.inr rfl))
      · cases h

/-- A successful `parseLevel` has seen the prefix. -/
theorem parseLevel_ok_HasPrefix {levelStr pre : String} {n : Int}
    (h : parseLevel levelStr pre = .ok n) : HasPrefix levelStr pre = true := by
  unfold parseLevel at h
  split at h
  · cases h
  · rename_i hc
    simp only [Bool.or_eq_true, Bool.not_eq_true', not_or] at hc
    simpa using hc.1

/-- Without the prefix `parseLevel` reports a track mismatch. -/
theorem parseLevel_no_prefix {levelStr pre : String}
    (h : HasPrefix levelStr pre = false) :
    parseLevel levelStr pre = .error .errVsaMismatchTrack := by
  simp [parseLevel, h]

/-- No string has both track prefixes. -/
theorem not_both_track_prefixes (s : String)
    (hb : HasPrefix s "SLSA_BUILD_LEVEL_" = true) :
    HasPrefix s "SLSA_SOURCE_LEVEL_" = false := by
  cases hs : HasPrefix s "SLSA_SOURCE_LEVEL_" with
  | false => rfl
  | true =>
    have h1 := List.prefix_iff_eq_take.mp (List.isPrefixOf_iff_prefix.mp hb)
    have h2 := List.prefix_iff_eq_take.mp (List.isPrefixOf_iff_prefix.mp hs)
    have h3 : ("SLSA_BUILD_LEVEL_" : String).data.take 6 =
        ("SLSA_SOURCE_LEVEL_" : String).data.take 6 := by
      conv_lhs => rw [h1]
      conv_rhs => rw [h2]
      rw [List.take_take, List.take_take]
      rfl
    exact absurd h3 (by decide)

/-- The level strings are parsed by `LevelsFromArray` as by
`LevelFromString`: an entry yields the level `l` exactly when
`LevelFromString` yields `l` on the trimmed entry. -/
theorem levelsFromArrayEntry_ok_iff (value : String) (l : Level) :
    levelsFromArrayEntry value = .ok l ↔ LevelFromString (TrimSpace value) = .ok l := by
  unfold levelsFromArrayEntry LevelFromString
  simp only
  cases hb : HasPrefix (TrimSpace value) "SLSA_BUILD_LEVEL_" with
  | true =>
    have hs := not_both_track_prefixes _ hb
    simp only [if_true]
    cases hbl : BuildLevelFromString (TrimSpace value) with
    | ok bl => simp
    | error berr =>
      have hsl : SourceLevelFromString (TrimSpace value) = .error .errVsaMismatchTrack := by
        simp [SourceLevelFromString, parseLevel_no_prefix hs]
      simp only [hsl]
      split_ifs <;> simp
  | false =>
    have hbl : BuildLevelFromString (TrimSpace value) = .error .errVsaMismatchTrack := by
      simp [BuildLevelFromString, parseLevel_no_prefix hb]
    simp only [hbl, Bool.false_eq_true, if_false]
    cases hs : HasPrefix (TrimSpace value) "SLSA_SOURCE_LEVEL_" with
    | true =>
      simp only [if_true]
      cases hsl : SourceLevelFromString (TrimSpace value) with
      | ok sl => simp
      | error serr => simp only [bne_self_eq_false, Bool.false_eq_true, if_false]; split_ifs <;> simp
    | false =>
      have hsl : SourceLevelFromString (TrimSpace value) = .error .errVsaMismatchTrack := by
        simp [SourceLevelFromString, parseLevel_no_prefix hs]
      simp [hsl]

/-- An entry never fails with the duplicate-track error. -/
theorem levelsFromArrayEntry_error_kind {value : String} {e : Err}
    (h : levelsFromArrayEntry value = .error e) : e ≠ .errVsaDuplicateTrack := by
  unfold levelsFromArrayEntry at h
  simp only at h
  split at h
  · cases h
  · rename_i berr hbl
    have hk : berr ≠ .errVsaDuplicateTrack := by
      unfold BuildLevelFromString at hbl
      split at hbl
      · rename_i e2 hp
        cases hbl
        rcases parseLevel_error_kind hp with h1 | h1 | h1 | h1 <;> simp [h1]
      · cases hbl
    split at h
    · cases h; exact hk
    · split at h
      · cases h
      · rename_i serr hsl
        have hk2 : serr ≠ .errVsaDuplicateTrack := by
          unfold SourceLevelFromString at hsl
          split at hsl
          · rename_i e2 hp
            cases hsl
            rcases parseLevel_error_kind hp with h1 | h1 | h1 | h1 <;> simp [h1]
          · cases hsl
        split at h
        · cases h; exact hk2
        · cases h; simp

/-- The first loop succeeds with `levels` exactly when every entry, in order,
parses to the level at the same position. -/
theorem levelsFromArrayParse_ok_iff (values : List String) (levels : List Level) :
    levelsFromArrayParse values = .ok levels ↔
      List.Forall₂ (fun v l => LevelFromString (TrimSpace v) = .ok l) values levels := by
  induction values generalizing levels with
  | nil =>
    cases levels with
    | nil => simp [levelsFromArrayParse]
    | cons l ls => simp [levelsFromArrayParse]
  | cons v vs ih =>
    unfold levelsFromArrayParse
    cases hv : levelsFromArrayEntry v with
    | error e =>
      simp only
      constructor
      · intro h; cases h
      · intro h
        cases h with
        | cons h1 _ =>
          rw [← levelsFromArrayEntry_ok_iff, hv] at h1
          cases h1
    | ok l =>
      simp only
      have hl := (levelsFromArrayEntry_ok_iff v l).mp hv
      cases hvs : levelsFromArrayParse vs with
      | error e =>
        simp only
        constructor
        · intro h; cases h
        · intro h
          cases h with
          | cons _ h2 =>
            rw [← ih, hvs] at h2
            cases h2
      | ok ls =>
        simp only
        constructor
        · intro h
          cases h
          exact List.Forall₂.cons hl ((ih ls).mp hvs)
        · intro h
          cases h with
          | cons h1 h2 =>
            rw [hl] at h1
            cases h1
            rw [← ih, hvs] at h2
            cases h2
            rfl

/-- The first loop never fails with the duplicate-track error. -/
theorem levelsFromArrayParse_error_kind {values : List String} {e : Err}
    (h : levelsFromArrayParse values = .error e) : e ≠ .errVsaDuplicateTrack := by
  induction values with
  | nil => simp [levelsFromArrayParse] at h
  | cons v vs ih =>
    unfold levelsFromArrayParse at h
    split at h
    · rename_i e2 hv
      cases h
      exact levelsFromArrayEntry_error_kind hv
    · split at h
      · rename_i e2 hvs
        cases h
        exact ih hvs
      · cases h

/-- The second loop: it succeeds when no level is on a track already marked
and no two levels share a track, and fails with the duplicate-track error
otherwise. -/
theorem levelsFromArrayTracks_spec (tracks : List (String × Bool)) (levels : List Level) :
    (levelsFromArrayTracks tracks levels = .ok () ↔
      (∀ l ∈ levels, (tracks.lookup l.Track).getD false = false) ∧
        (levels.map Level.Track).Nodup) ∧
    (levelsFromArrayTracks tracks levels = .ok () ∨
      levelsFromArrayTracks tracks levels = .error .errVsaDuplicateTrack) := by
  induction levels generalizing tracks with
  | nil => simp [levelsFromArrayTracks]
  | cons level rest ih =>
    unfold levelsFromArrayTracks
    simp only
    cases hseen : (tracks.lookup level.Track).getD false with
    | true => simp [hseen]
    | false =>
      simp only [Bool.false_eq_true, if_false]
      obtain ⟨ih1, ih2⟩ := ih ((level.Track, true) :: tracks)
      refine ⟨?_, ih2⟩
      rw [ih1]
      have hlook : ∀ l : Level,
          (((level.Track, true) :: tracks).lookup l.Track).getD false = false ↔
            (l.Track ≠ level.Track ∧ (tracks.lookup l.Track).getD false = false) := by
        intro l
        by_cases hl : l.Track = level.Track
        · simp [List.lookup, hl]
        · have hl2 : (l.Track == level.Track) = false := by simpa using hl
          simp [List.lookup, hl, hl2]
      simp only [hlook, List.mem_cons, forall_eq_or_imp, hseen, List.map_cons,
        List.nodup_cons, List.mem_map, not_exists, not_and, true_and]
      constructor
      · rintro ⟨h1, h2⟩
        exact ⟨fun l hl => (h1 l hl).2, fun l hl heq => (h1 l hl).1 heq, h2⟩
      · rintro ⟨h1, h2, h3⟩
        exact ⟨fun l hl => ⟨fun heq => h2 l hl heq, h1 l hl⟩, h3⟩

/-- Initially no track is marked. -/
theorem initial_tracks_unmarked (l : Level) :
    (([("build", false), ("source", false)] : List (String × Bool)).lookup l.Track).getD false =
      false := by
  cases l <;> rfl

/-- The result of `LevelsFromArray` in terms of its first loop. -/
theorem LevelsFromArray_of_parse_ok {values : List String} {levels : List Level}
    (h : levelsFromArrayParse values = .ok levels) :
    LevelsFromArray values =
      if (levels.map Level.Track).Nodup then .ok levels else .error .errVsaDuplicateTrack := by
  obtain ⟨h1, h2⟩ := levelsFromArrayTracks_spec [("build", false), ("source", false)] levels
  unfold LevelsFromArray
  simp only [h]
  by_cases hnd : (levels.map Level.Track).Nodup
  · have hok := h1.mpr ⟨fun l _ => initial_tracks_unmarked l, hnd⟩
    simp [hok, hnd]
  · have hne : levelsFromArrayTracks [("build", false), ("source", false)] levels ≠ .ok () :=
      fun hok => hnd (h1.mp hok).2
    rcases h2 with h2 | h2
    · exact absurd h2 hne
    · simp [h2, hnd]

/-- A list of levels with pairwise different tracks has at most two
entries. -/
theorem length_le_two_of_nodup_tracks (levels : List Level)
    (h : (levels.map Level.Track).Nodup) : levels.length ≤ 2 := by
  have hsub : levels.map Level.Track ⊆ ["build", "source"] := by
    intro t ht
    obtain ⟨l, _, rfl⟩ := List.mem_map.mp ht
    cases l <;> simp [Level.Track]
  have := (List.subperm_of_subset h hsub).length_le
  simpa using this

/-- Related lists are related index by index. -/
theorem forall₂_getElem {α β : Type} {R : α → β → Prop} {xs : List α} {ys : List β}
    (h : List.Forall₂ R xs ys) :
    ∀ (i : Nat) (hx : i < xs.length) (hy : i < ys.length), R xs[i] ys[i] := by
  induction h with
  | nil => intro i hx; simp at hx
  | cons hab _ ih =>
    intro i hx hy
    cases i with
    | zero => simpa using hab
    | succ j =>
      simp only [List.getElem_cons_succ]
      exact ih j _ _

/-- C18: `LevelsFromArray` fails with the duplicate-track error iff every
entry, after trimming white space, parses as a level and two entries share a
track (their levels equal or not); hence every successful result holds at
most one level per track and has at most two entries. -/
theorem LevelsFromArray_duplicate_track (values : List String) :
    (LevelsFromArray values = .error .errVsaDuplicateTrack ↔
      ∃ levels,
        List.Forall₂ (fun v l => LevelFromString (TrimSpace v) = .ok l) values levels ∧
          ¬ (levels.map Level.Track).Nodup) ∧
    (∀ result, LevelsFromArray values = .ok result →
      (result.map Level.Track).Nodup ∧ result.length ≤ 2) := by
  cases hparse : levelsFromArrayParse values with
  | error e =>
    have hres : LevelsFromArray values = .error e := by
      simp [LevelsFromArray, hparse]
    have hk := levelsFromArrayParse_error_kind hparse
    rw [hres]
    refine ⟨⟨fun h => ?_, fun h => ?_⟩, fun result h => by cases h⟩
    · cases h; exact absurd rfl hk
    · obtain ⟨levels, hall, _⟩ := h
      rw [← levelsFromArrayParse_ok_iff, hparse] at hall
      cases hall
  | ok levels =>
    rw [LevelsFromArray_of_parse_ok hparse]
    by_cases hnd : (levels.map Level.Track).Nodup
    · rw [if_pos hnd]
      refine ⟨⟨fun h => (by cases h), fun h => ?_⟩, fun result h => ?_⟩
      · obtain ⟨levels2, hall, hdup⟩ := h
        rw [← levelsFromArrayParse_ok_iff, hparse] at hall
        cases hall
        exact absurd hnd hdup
      · cases h
        exact ⟨hnd, length_le_two_of_nodup_tracks _ hnd⟩
    · rw [if_neg hnd]
      refine ⟨⟨fun _ => ⟨levels, (levelsFromArrayParse_ok_iff _ _).mp hparse, hnd⟩,
        fun _ => rfl⟩, fun result h => by cases h⟩

/-- Witness of C18: two build levels are a duplicate track; a build level
and a source level are not. -/
theorem LevelsFromArray_duplicate_track_witness :
    LevelsFromArray ["SLSA_BUILD_LEVEL_1", "SLSA_BUILD_LEVEL_2"] =
        .error .errVsaDuplicateTrack ∧
      (([Level.BuildLevel 2, Level.SourceLevel 2].map Level.Track).Nodup ∧
        [Level.BuildLevel 2, Level.SourceLevel 2].length ≤ 2) :=
  ⟨(LevelsFromArray_duplicate_track ["SLSA_BUILD_LEVEL_1", "SLSA_BUILD_LEVEL_2"]).1.mpr
      ⟨[.BuildLevel 1, .BuildLevel 2],
        List.Forall₂.cons (by decide) (List.Forall₂.cons (by decide) List.Forall₂.nil),
        by decide⟩,
    (LevelsFromArray_duplicate_track ["SLSA_BUILD_LEVEL_2", "SLSA_SOURCE_LEVEL_2"]).2
      [.BuildLevel 2, .SourceLevel 2] (by decide)⟩

/-- C19: whenever `LevelsFromArray(values)` succeeds, the result has the
length of `values` and, at every index, holds the level that
`LevelFromString` returns on the trimmed entry at that index; the empty list
yields the empty result. -/
theorem LevelsFromArray_preserves_order (values : List String) :
    (∀ result, LevelsFromArray values = .ok result →
      result.length = values.length ∧
        ∀ (i : Nat) (hv : i < values.length) (hr : i < result.length),
          LevelFromString (TrimSpace values[i]) = .ok result[i]) ∧
    LevelsFromArray [] = .ok [] := by
  refine ⟨fun result h => ?_, by decide⟩
  cases hparse : levelsFromArrayParse values with
  | error e => simp [LevelsFromArray, hparse] at h
  | ok levels =>
    rw [LevelsFromArray_of_parse_ok hparse] at h
    split_ifs at h
    cases h
    have hall := (levelsFromArrayParse_ok_iff _ _).mp hparse
    exact ⟨hall.length_eq.symm, forall₂_getElem hall⟩

/-- Witness of C19: a source level followed by a build level, with white
space around the second entry. -/
theorem LevelsFromArray_preserves_order_witness :
    [Level.SourceLevel 1, Level.BuildLevel 2].length =
        ["SLSA_SOURCE_LEVEL_1", " SLSA_BUILD_LEVEL_2\n"].length ∧
      LevelFromString (TrimSpace " SLSA_BUILD_LEVEL_2\n") = .ok (Level.BuildLevel 2) :=
  ⟨((LevelsFromArray_preserves_order ["SLSA_SOURCE_LEVEL_1", " SLSA_BUILD_LEVEL_2\n"]).1
      [.SourceLevel 1, .BuildLevel 2] (by decide)).1,
    ((LevelsFromArray_preserves_order ["SLSA_SOURCE_LEVEL_1", " SLSA_BUILD_LEVEL_2\n"]).1
      [.SourceLevel 1, .BuildLevel 2] (by decide)).2 1 (by decide) (by decide)⟩

/-! ## FromStatement: the form of the normalised level -/

/-- Replacing `old` in `old` followed by one character: the worker. -/
theorem replaceAllAux_append_singleton (old new : List Char) (c : Char) (fuel : Nat)
    (hold : 2 ≤ old.length) (hfuel : 2 ≤ fuel) :
    replaceAllAux old new fuel (old ++ [c]) = new ++ [c] := by
  obtain ⟨f, rfl⟩ : ∃ f, fuel = f + 2 := ⟨fuel - 2, by omega⟩
  match old, hold with
  | a :: b :: r, _ =>
    have hpre : (a :: b :: r).isPrefixOf (a :: (b :: r ++ [c])) = true :=
      List.isPrefixOf_iff_prefix.mpr ⟨[c], rfl⟩
    have hdrop : (a :: (b :: r ++ [c])).drop (a :: b :: r).length = [c] := by
      simp
    have hno : (a :: b :: r).isPrefixOf [c] = false := by
      simp [List.isPrefixOf]
    have hrest : replaceAllAux (a :: b :: r) new (f + 1) [c] = [c] := by
      rw [replaceAllAux, hno]
      cases f <;> simp [replaceAllAux]
    show replaceAllAux (a :: b :: r) new (f + 1 + 1) (a :: (b :: r ++ [c])) = new ++ [c]
    rw [replaceAllAux, hpre, if_pos rfl, hdrop, hrest]

/-- Replacing `pre` in `pre` followed by one character. -/
theorem ReplaceAll_append_singleton (pre new : String) (c : Char)
    (hpre : 2 ≤ pre.data.length) :
    ReplaceAll (pre ++ String.singleton c) pre new = new ++ String.singleton c := by
  apply String.ext
  have hdata : (pre ++ String.singleton c).data = pre.data ++ [c] := by
    simp [String.singleton]
  simp only [ReplaceAll, hdata]
  rw [replaceAllAux_append_singleton _ _ _ _ hpre
    (by rw [List.length_append, List.length_singleton]; omega)]
  simp [String.singleton]

/-- The prefix of a string built by appending. -/
theorem HasPrefix_append (pre t : String) : HasPrefix (pre ++ t) pre = true := by
  unfold HasPrefix
  exact List.isPrefixOf_iff_prefix.mpr ⟨t.data, by simp⟩

/-- The byte length of a string followed by one character. -/
theorem len_append_singleton (pre : String) (c : Char) :
    len (pre ++ String.singleton c) = len pre + c.utf8Size := by
  show String.utf8Len (pre ++ String.singleton c).data = String.utf8Len pre.data + c.utf8Size
  simp [String.singleton]

/-- The normaliser on the two legacy forms with a one-byte trailing
character `c`: the result has the policy level `SLSA_BUILD_LEVEL_c`. -/
theorem FromStatement_legacy_form (statement : Statement) (p : VsaPredicate) (c : Char)
    (htype : statement.PredicateType = PredicateVsa)
    (hp : statement.Predicate = .decodes p) (hc : c.utf8Size = 1)
    (hform : p.PolicyLevel = "SLSA_L" ++ String.singleton c ∨
      p.PolicyLevel = "SLSA_LEVEL_" ++ String.singleton c) :
    FromStatement statement =
      .ok { p with PolicyLevel := "SLSA_BUILD_LEVEL_" ++ String.singleton c } := by
  rw [FromStatement_decodes statement p htype hp]
  rcases hform with h | h
  · have c1 : (HasPrefix p.PolicyLevel "SLSA_L" &&
        len p.PolicyLevel == len "SLSA_L" + 1) = true := by
      rw [h, HasPrefix_append, len_append_singleton, hc]
      simp
    rw [if_pos c1, h, ReplaceAll_append_singleton _ _ _ (by decide)]
  · have c1 : ¬ ((HasPrefix p.PolicyLevel "SLSA_L" &&
        len p.PolicyLevel == len "SLSA_L" + 1) = true) := by
      rw [h, len_append_singleton, hc]
      have hne : (len "SLSA_LEVEL_" + 1 == len "SLSA_L" + 1) = false := by decide
      rw [hne, Bool.and_false]
      exact Bool.false_ne_true
    have c2 : (HasPrefix p.PolicyLevel "SLSA_LEVEL_" &&
        len p.PolicyLevel == len "SLSA_LEVEL_" + 1) = true := by
      rw [h, HasPrefix_append, len_append_singleton, hc]
      simp
    rw [if_neg c1, if_pos c2, h, ReplaceAll_append_singleton _ _ _ (by decide)]

/-- A string that has the prefix `pre` and is one byte longer than `pre` is
`pre` followed by one character of one byte. -/
theorem eq_append_one_byte_of_HasPrefix (s pre : String)
    (hpre : HasPrefix s pre = true) (hlen : len s = len pre + 1) :
    ∃ c : Char, c.utf8Size = 1 ∧ s = pre ++ String.singleton c := by
  obtain ⟨c, hs⟩ := eq_append_singleton_of_HasPrefix s pre hpre hlen
  refine ⟨c, ?_, hs⟩
  rw [hs, len_append_singleton] at hlen
  omega

/-- A successful `FromStatement` has read one of the two legacy forms. -/
theorem FromStatement_ok_form {statement : Statement} {vsa : VsaPredicate}
    (h : FromStatement statement = .ok vsa) :
    ∃ p c, statement.Predicate = .decodes p ∧ c.utf8Size = 1 ∧
      (p.PolicyLevel = "SLSA_L" ++ String.singleton c ∨
        p.PolicyLevel = "SLSA_LEVEL_" ++ String.singleton c) ∧
      vsa = { p with PolicyLevel := "SLSA_BUILD_LEVEL_" ++ String.singleton c } := by
  obtain ⟨htype, p, hp, _⟩ := FromStatement_ok_fields h
  have hdec := FromStatement_decodes statement p htype hp
  have hform : ∃ c : Char, c.utf8Size = 1 ∧
      (p.PolicyLevel = "SLSA_L" ++ String.singleton c ∨
        p.PolicyLevel = "SLSA_LEVEL_" ++ String.singleton c) := by
    rw [hdec] at h
    split_ifs at h with c1 c2
    · simp only [Bool.and_eq_true, beq_iff_eq] at c1
      obtain ⟨c, hc, hs⟩ := eq_append_one_byte_of_HasPrefix _ _ c1.1 c1.2
      exact ⟨c, hc, Or.inl hs⟩
    · simp only [Bool.and_eq_true, beq_iff_eq] at c2
      obtain ⟨c, hc, hs⟩ := eq_append_one_byte_of_HasPrefix _ _ c2.1 c2.2
      exact ⟨c, hc, Or.inr hs⟩
  obtain ⟨c, hc, hf⟩ := hform
  refine ⟨p, c, hp, hc, hf, ?_⟩
  rw [FromStatement_legacy_form statement p c htype hp hc hf] at h
  cases h
  rfl

/-- The decimal digit of a level in 0..3 is one character of one byte, and
the canonical build-level string with that digit parses to the level. -/
theorem level_digit (n : Nat) (hn : n ≤ 3) :
    ∃ c : Char, c.utf8Size = 1 ∧ toString n = String.singleton c ∧
      LevelFromString ("SLSA_BUILD_LEVEL_" ++ String.singleton c) =
        .ok (.BuildLevel (n : Int)) := by
  interval_cases n
  · exact ⟨'0', by decide, by decide, by decide⟩
  · exact ⟨'1', by decide, by decide, by decide⟩
  · exact ⟨'2', by decide, by decide, by decide⟩
  · exact ⟨'3', by decide, by decide, by decide⟩

/-- C11, as stated, fails: `FromStatement` succeeds on the policy level
`SLSA_LX`, the result has the policy level `SLSA_BUILD_LEVEL_X`, which is
not of the form `SLSA_BUILD_LEVEL_n` with a digit `n`, and `LevelFromString`
fails on it. -/
theorem FromStatement_non_digit_level_counterexample :
    (∃ vsa, FromStatement nonDigitLevelStatement = .ok vsa ∧
        vsa.PolicyLevel = "SLSA_BUILD_LEVEL_X" ∧
        LevelFromString vsa.PolicyLevel = .error .strconvErrSyntax) ∧
      ¬ ∀ vsa, FromStatement nonDigitLevelStatement = .ok vsa →
        ∃ n : Nat, n ≤ 3 ∧ vsa.PolicyLevel = "SLSA_BUILD_LEVEL_" ++ toString n ∧
          LevelFromString vsa.PolicyLevel = .ok (.BuildLevel (n : Int)) := by
  have hok : FromStatement nonDigitLevelStatement =
      .ok { scenarioPredicate with PolicyLevel := "SLSA_BUILD_LEVEL_X" } := by decide
  refine ⟨⟨_, hok, rfl, by decide⟩, fun hall => ?_⟩
  obtain ⟨n, _, _, hlev⟩ := hall _ hok
  have herr : LevelFromString "SLSA_BUILD_LEVEL_X" = .error .strconvErrSyntax := by decide
  rw [show ({ scenarioPredicate with PolicyLevel := "SLSA_BUILD_LEVEL_X" } :
    VsaPredicate).PolicyLevel = "SLSA_BUILD_LEVEL_X" from rfl, herr] at hlev
  cases hlev

/-- C11 (amended): whenever `FromStatement` succeeds, the decoded
`policy_level` is `SLSA_L` or `SLSA_LEVEL_` followed by exactly one
character `c` of one byte, and the returned policy level is
`SLSA_BUILD_LEVEL_` followed by `c`; when `c` is the digit of a level `n` in
0..3, `LevelFromString` on it succeeds and yields the build level `n`. The
normaliser does not check `c`. -/
theorem FromStatement_ok_policy_level (statement : Statement) (vsa : VsaPredicate)
    (h : FromStatement statement = .ok vsa) :
    ∃ p c, statement.Predicate = .decodes p ∧ c.utf8Size = 1 ∧
      (p.PolicyLevel = "SLSA_L" ++ String.singleton c ∨
        p.PolicyLevel = "SLSA_LEVEL_" ++ String.singleton c) ∧
      vsa.PolicyLevel = "SLSA_BUILD_LEVEL_" ++ String.singleton c ∧
      ∀ n : Nat, n ≤ 3 → String.singleton c = toString n →
        LevelFromString vsa.PolicyLevel = .ok (.BuildLevel (n : Int)) ∧
          (Level.BuildLevel (n : Int)).Track = "build" := by
  obtain ⟨p, c, hp, hc, hform, hvsa⟩ := FromStatement_ok_form h
  refine ⟨p, c, hp, hc, hform, by rw [hvsa], ?_⟩
  intro n hn hdigit
  obtain ⟨d, _, hd, hlev⟩ := level_digit n hn
  rw [hvsa]
  show LevelFromString ("SLSA_BUILD_LEVEL_" ++ String.singleton c) = _ ∧ _
  rw [hdigit, hd]
  exact ⟨hlev, rfl⟩

/-- Witness of C11 (amended): the scenario VSA, of level `SLSA_LEVEL_2`. -/
theorem FromStatement_ok_policy_level_witness :
    ∃ p c, scenarioStatement.Predicate = .decodes p ∧ c.utf8Size = 1 ∧
      (p.PolicyLevel = "SLSA_L" ++ String.singleton c ∨
        p.PolicyLevel = "SLSA_LEVEL_" ++ String.singleton c) ∧
      ({ scenarioPredicate with PolicyLevel := "SLSA_BUILD_LEVEL_2" } :
        VsaPredicate).PolicyLevel = "SLSA_BUILD_LEVEL_" ++ String.singleton c ∧
      ∀ n : Nat, n ≤ 3 → String.singleton c = toString n →
        LevelFromString ({ scenarioPredicate with PolicyLevel := "SLSA_BUILD_LEVEL_2" } :
            VsaPredicate).PolicyLevel = .ok (.BuildLevel (n : Int)) ∧
          (Level.BuildLevel (n : Int)).Track = "build" :=
  FromStatement_ok_policy_level scenarioStatement
    { scenarioPredicate with PolicyLevel := "SLSA_BUILD_LEVEL_2" } (by decide)

/-! ## verifyPayload: completeness and the returned verifier ID -/

/-- C12: completeness of `verifyPayload`. When the predicate type is the VSA
v0.2 URI, the policy level is a legacy form `SLSA_Ln` or `SLSA_LEVEL_n` with
`n` in 0..3, the predicate's verifier ID is versioned (it parses to
`trustedVerifier`) and matches the expected verifier ID, every subject has a
sha256 digest and one of them is the expected digest, the verification
result is `PASSED`, the single expected level is a build level `e ≤ n`, and
the expected resource URI is absent or equal, then `verifyPayload` returns
ok with the `TrustedVerifierID` parsed from the predicate. -/
theorem verifyPayload_complete (statement : Statement) (p : VsaPredicate)
    (vsaOpts : VsaOpts) (verifierOpts : VerifierOpts) (trustedVerifier : TrustedVerifierID)
    (n : Nat) (e : Int)
    (htype : statement.PredicateType = "https://slsa.dev/verification_summary/v0.2")
    (hp : statement.Predicate = .decodes p)
    (hn : n ≤ 3)
    (hlevel : p.PolicyLevel = "SLSA_L" ++ toString n ∨
      p.PolicyLevel = "SLSA_LEVEL_" ++ toString n)
    (hid : TrustedVerifierIDNew p.Verifier.ID = .ok trustedVerifier)
    (hmatch : trustedVerifier.Matches verifierOpts.ExpectedID false = .ok ())
    (hall : ∀ s ∈ statement.Subject, (s.Digest.lookup "sha256").isSome = true)
    (hsome : ∃ s ∈ statement.Subject, s.Digest.lookup "sha256" = some vsaOpts.ExpectedDigest)
    (hres : p.VerificationResult = "PASSED")
    (hexp : vsaOpts.ExpectedLevels = [.BuildLevel e]) (he : e ≤ (n : Int))
    (huri : vsaOpts.ExpectedResourceURI = none ∨
      vsaOpts.ExpectedResourceURI = some p.ResourceURI) :
    verifyPayload statement vsaOpts verifierOpts = .ok trustedVerifier := by
  obtain ⟨c, hc, hd, hlev⟩ := level_digit n hn
  rw [hd] at hlevel
  have hfs := FromStatement_legacy_form statement p c htype hp hc hlevel
  have hsub : verifySubject statement vsaOpts.ExpectedDigest = .ok () :=
    (verifySubjectLoop_all_sha256 _ _ hall).1.mpr hsome
  have hlevels : ∀ q : VsaPredicate,
      q.PolicyLevel = "SLSA_BUILD_LEVEL_" ++ String.singleton c →
        q.VerifyLevels vsaOpts.ExpectedLevels = .ok () := by
    intro q hq
    rw [hexp]
    exact (VerifyLevels_singleton q (.BuildLevel (n : Int)) (.BuildLevel e)
      (by rw [hq]; exact hlev)).1.mpr ⟨rfl, he⟩
  unfold verifyPayload
  simp only [hfs, hid, hmatch, hsub, hres]
  rw [hlevels _ rfl]
  rcases huri with hu | hu
  · simp [hu]
  · simp [hu]

/-- Witness of C12: level `SLSA_LEVEL_2`, verifier
`https://the.trusted.verifier/v0.1`, digest `123`, expected build level 1,
resource `name://the-resource`. -/
theorem verifyPayload_complete_witness :
    verifyPayload scenarioStatement scenarioVsaOpts scenarioVerifierOpts =
      .ok ⟨"https://the.trusted.verifier", "v0.1"⟩ :=
  verifyPayload_complete scenarioStatement scenarioPredicate scenarioVsaOpts
    scenarioVerifierOpts ⟨"https://the.trusted.verifier", "v0.1"⟩ 2 1 rfl rfl (by decide)
    (Or.inr (by decide)) (by decide) (by decide) (by decide)
    ⟨{ Name := "", Digest := [("sha256", "123")] }, by decide, by decide⟩ rfl rfl (by decide)
    (Or.inr rfl)

/-- C13, evaluated on the code: on a VSA whose verifier ID is `v1` (no
slash), with the expected verifier ID `v1`, `verifyPayload` succeeds and
returns the name `""` and the version `v1`; `String()` of it is `/v1`, not
the predicate's verifier ID. -/
theorem verifyPayload_String_slashless_verifier :
    verifyPayload slashlessVerifierStatement scenarioVsaOpts { ExpectedID := "v1" } =
        .ok ⟨"", "v1"⟩ ∧
      TrustedVerifierID.String ⟨"", "v1"⟩ = "/v1" ∧
      TrustedVerifierID.String ⟨"", "v1"⟩ ≠ "v1" := by
  decide

/-! ## Split and Join -/

/-- The characters of the accumulating loop of `String.intercalate`. -/
theorem intercalate_go_data (sep acc : String) (parts : List String) :
    (String.intercalate.go acc sep parts).data =
      acc.data ++ joinTail sep.data (parts.map String.data) := by
  induction parts generalizing acc with
  | nil => simp [String.intercalate.go, joinTail]
  | cons a rest ih =>
    rw [String.intercalate.go, ih]
    simp [joinTail, List.append_assoc]

/-- The characters of `Join`. -/
theorem Join_data (parts : List String) (sep : String) :
    (Join parts sep).data = joinChars sep.data (parts.map String.data) := by
  cases parts with
  | nil => rfl
  | cons a rest =>
    show (String.intercalate.go a sep rest).data = _
    rw [intercalate_go_data]
    rfl

/-- Splitting never yields the empty list. -/
theorem splitChars_ne_nil (sep : Char) (cs : List Char) : splitChars sep cs ≠ [] := by
  cases cs with
  | nil => simp [splitChars]
  | cons c cs =>
    unfold splitChars
    split_ifs
    · simp
    · split <;> simp

/-- Splitting a separator-free part followed by the separator. -/
theorem splitChars_append_sep (sep : Char) (p rest : List Char) (hp : sep ∉ p) :
    splitChars sep (p ++ sep :: rest) = p :: splitChars sep rest := by
  induction p with
  | nil => simp [splitChars]
  | cons c p ih =>
    have hc : c ≠ sep := fun h => hp (by simp [h])
    have hp2 : sep ∉ p := fun h => hp (List.mem_cons_of_mem _ h)
    show splitChars sep (c :: (p ++ sep :: rest)) = _
    rw [splitChars, if_neg hc, ih hp2]

/-- Splitting a separator-free part. -/
theorem splitChars_of_not_mem (sep : Char) (p : List Char) (hp : sep ∉ p) :
    splitChars sep p = [p] := by
  induction p with
  | nil => rfl
  | cons c p ih =>
    have hc : c ≠ sep := fun h => hp (by simp [h])
    have hp2 : sep ∉ p := fun h => hp (List.mem_cons_of_mem _ h)
    rw [splitChars, if_neg hc, ih hp2]

/-- Splitting undoes joining separator-free parts. -/
theorem splitChars_joinChars (sep : Char) (parts : List (List Char)) (hne : parts ≠ [])
    (hfree : ∀ p ∈ parts, sep ∉ p) : splitChars sep (joinChars [sep] parts) = parts := by
  induction parts with
  | nil => exact absurd rfl hne
  | cons p rest ih =>
    cases rest with
    | nil =>
      simp only [joinChars, joinTail, List.append_nil]
      exact splitChars_of_not_mem sep p (hfree p (List.mem_cons_self _ _))
    | cons q rest =>
      have hrest := ih (by simp) (fun r hr => hfree r (List.mem_cons_of_mem _ hr))
      have hj : joinChars [sep] (p :: q :: rest) = p ++ sep :: joinChars [sep] (q :: rest) := by
        simp [joinChars, joinTail]
      rw [hj, splitChars_append_sep sep p _ (hfree p (List.mem_cons_self _ _)), hrest]

/-- Joining undoes splitting, and the parts are separator-free. -/
theorem joinChars_splitChars (sep : Char) (cs : List Char) :
    joinChars [sep] (splitChars sep cs) = cs ∧ ∀ p ∈ splitChars sep cs, sep ∉ p := by
  induction cs with
  | nil => simp [splitChars, joinChars, joinTail]
  | cons c cs ih =>
    obtain ⟨ih1, ih2⟩ := ih
    have hne := splitChars_ne_nil sep cs
    match hs : splitChars sep cs, hne with
    | q :: qs, _ =>
      rw [hs] at ih1 ih2
      by_cases hc : c = sep
      · rw [splitChars, if_pos hc, hs]
        refine ⟨?_, ?_⟩
        · have : joinChars [sep] ([] :: q :: qs) = sep :: joinChars [sep] (q :: qs) := by
            simp [joinChars, joinTail]
          rw [this, ih1, hc]
        · intro p hp
          rcases List.mem_cons.mp hp with h | h
          · simp [h]
          · exact ih2 p h
      · rw [splitChars, if_neg hc, hs]
        refine ⟨?_, ?_⟩
        · have : joinChars [sep] ((c :: q) :: qs) = c :: joinChars [sep] (q :: qs) := by
            simp [joinChars]
          rw [this, ih1]
        · intro p hp
          rcases List.mem_cons.mp hp with h | h
          · rw [h]
            intro hmem
            rcases List.mem_cons.mp hmem with h2 | h2
            · exact hc h2.symm
            · exact ih2 q (List.mem_cons_self _ _) h2
          · exact ih2 p (List.mem_cons_of_mem _ h)

/-- The function `Split` undoes `Join` on slash-free parts. -/
theorem Split_Join (parts : List String) (hne : parts ≠ [])
    (hfree : ∀ s ∈ parts, '/' ∉ s.data) : Split (Join parts "/") '/' = parts := by
  unfold Split
  rw [Join_data]
  show (splitChars '/' (joinChars ['/'] (parts.map String.data))).map String.mk = parts
  rw [splitChars_joinChars '/' _ (by simpa using hne)
    (by
      intro p hp
      obtain ⟨s, hs, rfl⟩ := List.mem_map.mp hp
      exact hfree s hs)]
  rw [List.map_map]
  have hcomp : (String.mk ∘ String.data) = fun s : String => s := rfl
  rw [hcomp, List.map_id']

/-- Every string is the `Join` of the slash-free parts that `Split` yields,
and there is at least one part. -/
theorem Join_Split (id : String) :
    Join (Split id '/') "/" = id ∧ (∀ s ∈ Split id '/', '/' ∉ s.data) ∧ Split id '/' ≠ [] := by
  obtain ⟨h1, h2⟩ := joinChars_splitChars '/' id.data
  refine ⟨?_, ?_, ?_⟩
  · apply String.ext
    rw [Join_data]
    show joinChars ['/'] ((Split id '/').map String.data) = id.data
    unfold Split
    rw [List.map_map]
    have hcomp : (String.data ∘ String.mk) = fun cs : List Char => cs := rfl
    rw [hcomp, List.map_id', h1]
  · intro s hs
    unfold Split at hs
    obtain ⟨p, hp, rfl⟩ := List.mem_map.mp hs
    exact h2 p hp
  · unfold Split
    simpa using splitChars_ne_nil '/' id.data

/-! ## ParseVerifierID with a required version -/

/-- The function `ParseVerifierID` with a required version, on an ID given by
its slash-separated segments. -/
theorem ParseVerifierID_true_of_segments (id : String) (segments : List String)
    (last : String) (hid : id = Join (segments ++ [last]) "/")
    (hfree : ∀ s ∈ segments ++ [last], '/' ∉ s.data) :
    ParseVerifierID id true =
      if last = "" ∨ HasPrefix last "v" = false then .error .InvalidFormat
      else .ok (Join segments "/", last) := by
  have hsplit : Split id '/' = segments ++ [last] := by
    rw [hid]
    exact Split_Join _ (by simp) hfree
  unfold ParseVerifierID
  simp only [hsplit, List.getLast?_append, List.getLast?_singleton, List.dropLast_concat]
  have hlen : ¬ (segments ++ [last]).length < 1 := by simp
  rw [if_neg hlen]
  by_cases h1 : last = ""
  · simp [h1]
  · cases h2 : HasPrefix last "v" with
    | false => simp [h1, h2]
    | true => simp [h1, h2]

/-- C20: for every string `id`, written as its slash-free segments joined by
`/` (there is such a decomposition, with a last segment), the function
`ParseVerifierID(id, true)` fails with `InvalidFormat` iff the last segment
is empty or does not start with `v`; otherwise it succeeds and returns
`(name, version)` where `version` is the last segment and `name` is the
remaining segments joined by `/`. -/
theorem ParseVerifierID_needVersion (id : String) :
    (∃ segments last, id = Join (segments ++ [last]) "/" ∧
      ∀ s ∈ segments ++ [last], '/' ∉ s.data) ∧
    (∀ segments last, id = Join (segments ++ [last]) "/" →
      (∀ s ∈ segments ++ [last], '/' ∉ s.data) →
        (ParseVerifierID id true = .error .InvalidFormat ↔
          (last = "" ∨ HasPrefix last "v" = false)) ∧
        (¬ (last = "" ∨ HasPrefix last "v" = false) →
          ParseVerifierID id true = .ok (Join segments "/", last)) ∧
        (∀ name version, ParseVerifierID id true = .ok (name, version) →
          version = last ∧ name = Join segments "/")) := by
  constructor
  · obtain ⟨hjoin, hfree, hne⟩ := Join_Split id
    refine ⟨(Split id '/').dropLast, (Split id '/').getLast hne, ?_, ?_⟩
    · rw [List.dropLast_append_getLast hne, hjoin]
    · rw [List.dropLast_append_getLast hne]
      exact hfree
  · intro segments last hid hfree
    rw [ParseVerifierID_true_of_segments id segments last hid hfree]
    by_cases h : last = "" ∨ HasPrefix last "v" = false
    · rw [if_pos h]
      exact ⟨⟨fun _ => h, fun _ => rfl⟩, fun hn => absurd h hn,
        fun name version hok => (by cases hok)⟩
    · rw [if_neg h]
      refine ⟨⟨fun hok => (by cases hok), fun hn => absurd hn h⟩, fun _ => rfl, ?_⟩
      intro name version hok
      cases hok
      exact ⟨rfl, rfl⟩

/-- Witness of C20: the versioned ID of the scenario, and the same ID
without its version. -/
theorem ParseVerifierID_needVersion_witness :
    ParseVerifierID "https://the.trusted.verifier/v0.1" true =
        .ok ("https://the.trusted.verifier", "v0.1") ∧
      ParseVerifierID "https://the.trusted.verifier" true = .error .InvalidFormat :=
  ⟨((ParseVerifierID_needVersion "https://the.trusted.verifier/v0.1").2
      ["https:", "", "the.trusted.verifier"] "v0.1" (by decide) (by decide)).2.1 (by decide),
    ((ParseVerifierID_needVersion "https://the.trusted.verifier").2
      ["https:", ""] "the.trusted.verifier" (by decide) (by decide)).1.mpr (by decide)⟩

/-! ## Matching a verifier ID against a Git reference -/

/-- C21: ref matching. For every `TrustedVerifierID` `b` with name `name` and
version `refs/tags/` followed by a non-empty `v`, and every expected string
`e` that `ParseVerifierID(e, false)` parses to `(name, v)`,
`b.Matches(e, true)` succeeds while `b.Matches(e, false)` fails with
`MismatchVerifierID`. -/
theorem Matches_ref (name v e : String) (hv : v ≠ "")
    (hparse : ParseVerifierID e false = .ok (name, v)) :
    TrustedVerifierID.Matches ⟨name, "refs/tags/" ++ v⟩ e true = .ok () ∧
      TrustedVerifierID.Matches ⟨name, "refs/tags/" ++ v⟩ e false =
        .error .MismatchVerifierID := by
  have hne : v ≠ "refs/tags/" ++ v := by
    intro h
    have hl := congrArg String.length h
    rw [String.length_append] at hl
    have h10 : ("refs/tags/" : String).length = 10 := by decide
    omega
  simp [TrustedVerifierID.Matches, hparse, hv, hne]

/-- Witness of C21: the verifier `a` at `refs/tags/v1` against the expected
ID `a/v1`. -/
theorem Matches_ref_witness :
    TrustedVerifierID.Matches ⟨"a", "refs/tags/v1"⟩ "a/v1" true = .ok () ∧
      TrustedVerifierID.Matches ⟨"a", "refs/tags/v1"⟩ "a/v1" false =
        .error .MismatchVerifierID :=
  Matches_ref "a" "v1" "a/v1" (by decide) (by decide)

/-! ## Dispatch -/

/-- Without a required version `ParseVerifierID` never fails. -/
theorem ParseVerifierID_false_ok (id : String) :
    ∃ name version, ParseVerifierID id false = .ok (name, version) := by
  obtain ⟨_, _, hne⟩ := Join_Split id
  have hlen : ¬ (Split id '/').length < 1 := by
    have := List.length_pos.mpr hne
    omega
  unfold ParseVerifierID
  simp only [hlen, if_false, Bool.false_and, Bool.false_eq_true]
  split_ifs
  · exact ⟨_, _, rfl⟩
  · exact ⟨_, _, rfl⟩

/-- The first element found by `find?` among the values of a registry. -/
theorem find?_registry_some {V : Type} {p : V → Bool} {registry : List (String × V)} {v : V}
    (h : (registry.map Prod.snd).find? p = some v) :
    v ∈ registry.map Prod.snd ∧ p v = true :=
  ⟨List.mem_of_find?_eq_some h, List.find?_some h⟩

/-- C22: VSA dispatch has no default. With `name` the name that
`ParseVerifierID(ExpectedID, false)` yields, `getVsaVerifier` returns a
verifier iff the expected ID is non-empty and some registered verifier is
authoritative for `name`; the verifier returned is registered and
authoritative for `name`; in every other case, an empty expected ID
included, it fails with `VsaVerifierNotSupported`. -/
theorem getVsaVerifier_no_default {V : Type} (IsAuthoritativeFor : V → String → Bool)
    (VsaVerifiers : List (String × V)) (verifierOpts : VerifierOpts) :
    ∃ name version, ParseVerifierID verifierOpts.ExpectedID false = .ok (name, version) ∧
      ((∃ v, getVsaVerifier IsAuthoritativeFor VsaVerifiers verifierOpts = .ok v) ↔
        (verifierOpts.ExpectedID ≠ "" ∧
          ∃ v ∈ VsaVerifiers.map Prod.snd, IsAuthoritativeFor v name = true)) ∧
      (∀ v, getVsaVerifier IsAuthoritativeFor VsaVerifiers verifierOpts = .ok v →
        v ∈ VsaVerifiers.map Prod.snd ∧ IsAuthoritativeFor v name = true) ∧
      (¬ (verifierOpts.ExpectedID ≠ "" ∧
          ∃ v ∈ VsaVerifiers.map Prod.snd, IsAuthoritativeFor v name = true) →
        getVsaVerifier IsAuthoritativeFor VsaVerifiers verifierOpts =
          .error .VsaVerifierNotSupported) := by
  obtain ⟨name, version, hparse⟩ := ParseVerifierID_false_ok verifierOpts.ExpectedID
  refine ⟨name, version, hparse, ?_⟩
  by_cases hid : verifierOpts.ExpectedID = ""
  · have hres : getVsaVerifier IsAuthoritativeFor VsaVerifiers verifierOpts =
        .error .VsaVerifierNotSupported := by
      simp [getVsaVerifier, hid]
    rw [hres]
    refine ⟨⟨fun h => ?_, fun h => absurd hid h.1⟩, fun v h => (by cases h), fun _ => rfl⟩
    obtain ⟨v, hv⟩ := h
    cases hv
  · cases hfind : (VsaVerifiers.map Prod.snd).find?
        (fun v => IsAuthoritativeFor v name) with
    | none =>
      have hres : getVsaVerifier IsAuthoritativeFor VsaVerifiers verifierOpts =
          .error .VsaVerifierNotSupported := by
        simp only [getVsaVerifier, hparse, hfind]
        simp [hid]
      have hnone : ¬ ∃ v ∈ VsaVerifiers.map Prod.snd, IsAuthoritativeFor v name = true := by
        rintro ⟨v, hv, hauth⟩
        have := List.find?_eq_none.mp hfind v hv
        simp [hauth] at this
      rw [hres]
      refine ⟨⟨fun h => ?_, fun h => absurd h.2 hnone⟩, fun v h => (by cases h), fun _ => rfl⟩
      obtain ⟨v, hv⟩ := h
      cases hv
    | some w =>
      have hres : getVsaVerifier IsAuthoritativeFor VsaVerifiers verifierOpts = .ok w := by
        simp only [getVsaVerifier, hparse, hfind]
        simp [hid]
      obtain ⟨hmem, hauth⟩ := find?_registry_some hfind
      rw [hres]
      refine ⟨⟨fun _ => ⟨hid, w, hmem, hauth⟩, fun _ => ⟨w, rfl⟩⟩, ?_, ?_⟩
      · intro v hv
        cases hv
        exact ⟨hmem, hauth⟩
      · intro hno
        exact absurd ⟨hid, w, hmem, hauth⟩ hno

/-- Witness of C22: in the sample registry the expected ID
`https://github.com/org/verifier/v1` is dispatched, and the empty expected ID
is not. -/
theorem getVsaVerifier_no_default_witness :
    (∃ name version,
      ParseVerifierID "https://github.com/org/verifier/v1" false = .ok (name, version) ∧
      ((∃ v, getVsaVerifier samplePrefixAuthority sampleRegistry
          { ExpectedID := "https://github.com/org/verifier/v1" } = .ok v) ↔
        (("https://github.com/org/verifier/v1" : String) ≠ "" ∧
          ∃ v ∈ sampleRegistry.map Prod.snd, samplePrefixAuthority v name = true)) ∧
      (∀ v, getVsaVerifier samplePrefixAuthority sampleRegistry
          { ExpectedID := "https://github.com/org/verifier/v1" } = .ok v →
        v ∈ sampleRegistry.map Prod.snd ∧ samplePrefixAuthority v name = true) ∧
      (¬ (("https://github.com/org/verifier/v1" : String) ≠ "" ∧
          ∃ v ∈ sampleRegistry.map Prod.snd, samplePrefixAuthority v name = true) →
        getVsaVerifier samplePrefixAuthority sampleRegistry
          { ExpectedID := "https://github.com/org/verifier/v1" } =
          .error .VsaVerifierNotSupported)) ∧
      getVsaVerifier samplePrefixAuthority sampleRegistry { ExpectedID := "" } =
        .error .VsaVerifierNotSupported :=
  ⟨getVsaVerifier_no_default samplePrefixAuthority sampleRegistry
      { ExpectedID := "https://github.com/org/verifier/v1" },
    (getVsaVerifier_no_default samplePrefixAuthority sampleRegistry
      { ExpectedID := "" }).elim fun _ h => h.elim fun _ h2 =>
        h2.2.2.2 (fun hh => hh.1 rfl)⟩

/-- C23: for every registry and every non-empty expected builder ID that
parses to the name `name`, `getProvenanceVerifier` returns a registered
verifier that is authoritative for `name` whenever one exists, and fails
with `BuilderVerifierNotSupported` when none is; whatever it returns is a
registered verifier authoritative for `name` (never the nil interface, and
the GHA default only if it is authoritative itself). -/
theorem getProvenanceVerifier_dispatch {V : Type} (IsAuthoritativeFor : V → String → Bool)
    (ParseBuilderID : String → Bool → Except Err (String × String)) (BuilderName : String)
    (ProvenanceVerifiers : List (String × V)) (builderOpts : BuilderOpts)
    (expectedID name version : String)
    (hid : builderOpts.ExpectedID = some expectedID) (hne : expectedID ≠ "")
    (hparse : ParseBuilderID expectedID false = .ok (name, version)) :
    ((∃ v ∈ ProvenanceVerifiers.map Prod.snd, IsAuthoritativeFor v name = true) →
      ∃ v, getProvenanceVerifier IsAuthoritativeFor ParseBuilderID BuilderName
          ProvenanceVerifiers builderOpts = .ok (some v) ∧
        v ∈ ProvenanceVerifiers.map Prod.snd ∧ IsAuthoritativeFor v name = true) ∧
    ((¬ ∃ v ∈ ProvenanceVerifiers.map Prod.snd, IsAuthoritativeFor v name = true) →
      getProvenanceVerifier IsAuthoritativeFor ParseBuilderID BuilderName
        ProvenanceVerifiers builderOpts = .error .BuilderVerifierNotSupported) ∧
    (∀ r, getProvenanceVerifier IsAuthoritativeFor ParseBuilderID BuilderName
        ProvenanceVerifiers builderOpts = .ok r →
      ∃ v, r = some v ∧ v ∈ ProvenanceVerifiers.map Prod.snd ∧
        IsAuthoritativeFor v name = true) := by
  cases hfind : (ProvenanceVerifiers.map Prod.snd).find?
      (fun v => IsAuthoritativeFor v name) with
  | none =>
    have hres : getProvenanceVerifier IsAuthoritativeFor ParseBuilderID BuilderName
        ProvenanceVerifiers builderOpts = .error .BuilderVerifierNotSupported := by
      simp only [getProvenanceVerifier, hid, hparse, hfind]
      simp [hne]
    have hnone : ¬ ∃ v ∈ ProvenanceVerifiers.map Prod.snd,
        IsAuthoritativeFor v name = true := by
      rintro ⟨v, hv, hauth⟩
      have := List.find?_eq_none.mp hfind v hv
      simp [hauth] at this
    rw [hres]
    exact ⟨fun h => absurd h hnone, fun _ => rfl, fun r h => (by cases h)⟩
  | some w =>
    have hres : getProvenanceVerifier IsAuthoritativeFor ParseBuilderID BuilderName
        ProvenanceVerifiers builderOpts = .ok (some w) := by
      simp only [getProvenanceVerifier, hid, hparse, hfind]
      simp [hne]
    obtain ⟨hmem, hauth⟩ := find?_registry_some hfind
    rw [hres]
    refine ⟨fun _ => ⟨w, rfl, hmem, hauth⟩, fun hno => absurd ⟨w, hmem, hauth⟩ hno, ?_⟩
    intro r hr
    cases hr
    exact ⟨w, rfl, hmem, hauth⟩

/-- Witness of C23: in the sample registry a Cloud Build builder ID is
dispatched to the Cloud Build verifier, not to the GHA default, and a builder
ID of another host is not supported. -/
theorem getProvenanceVerifier_dispatch_witness :
    (∃ v, getProvenanceVerifier samplePrefixAuthority sampleParseBuilderID "GHA"
        sampleRegistry
        { ExpectedID := some "https://cloudbuild.googleapis.com/GoogleHostedWorker@v0.2" } =
          .ok (some v) ∧
        v ∈ sampleRegistry.map Prod.snd ∧
        samplePrefixAuthority v "https://cloudbuild.googleapis.com/GoogleHostedWorker" = true) ∧
      getProvenanceVerifier samplePrefixAuthority sampleParseBuilderID "GHA" sampleRegistry
        { ExpectedID := some "https://example.com/builder@v1" } =
        .error .BuilderVerifierNotSupported :=
  ⟨(getProvenanceVerifier_dispatch samplePrefixAuthority sampleParseBuilderID "GHA"
      sampleRegistry
      { ExpectedID := some "https://cloudbuild.googleapis.com/GoogleHostedWorker@v0.2" }
      "https://cloudbuild.googleapis.com/GoogleHostedWorker@v0.2"
      "https://cloudbuild.googleapis.com/GoogleHostedWorker" "v0.2" rfl (by decide)
      (by decide)).1 ⟨"https://cloudbuild.googleapis.com/", by decide, by decide⟩,
    (getProvenanceVerifier_dispatch samplePrefixAuthority sampleParseBuilderID "GHA"
      sampleRegistry { ExpectedID := some "https://example.com/builder@v1" }
      "https://example.com/builder@v1" "https://example.com/builder" "v1" rfl (by decide)
      (by decide)).2.1 (by decide)⟩

/-- Registering a verifier under a name makes the map yield it for that
name. -/
theorem lookup_RegisterVerifier {V : Type} (registry : List (String × V)) (name : String)
    (verifier : V) : (RegisterVerifier registry name verifier).lookup name = some verifier := by
  simp [RegisterVerifier, List.lookup]

/-- C24: when the caller supplies no expected builder ID (a nil pointer or
the empty string), `getProvenanceVerifier` returns without error what the
registry holds under the GHA name, in particular the verifier registered
under that name, whatever `IsAuthoritativeFor` and `ParseBuilderID` would
answer and whatever else is registered. -/
theorem getProvenanceVerifier_default {V : Type} (IsAuthoritativeFor : V → String → Bool)
    (ParseBuilderID : String → Bool → Except Err (String × String)) (BuilderName : String)
    (ProvenanceVerifiers : List (String × V)) (builderOpts : BuilderOpts)
    (hid : builderOpts.ExpectedID = none ∨ builderOpts.ExpectedID = some "") :
    getProvenanceVerifier IsAuthoritativeFor ParseBuilderID BuilderName ProvenanceVerifiers
        builderOpts = .ok (ProvenanceVerifiers.lookup BuilderName) ∧
    (∀ (others : List (String × V)) (gha : V),
      ProvenanceVerifiers = RegisterVerifier others BuilderName gha →
        getProvenanceVerifier IsAuthoritativeFor ParseBuilderID BuilderName
          ProvenanceVerifiers builderOpts = .ok (some gha)) ∧
    (∀ (auth : V → String → Bool) (parse : String → Bool → Except Err (String × String)),
      getProvenanceVerifier auth parse BuilderName ProvenanceVerifiers builderOpts =
        getProvenanceVerifier IsAuthoritativeFor ParseBuilderID BuilderName
          ProvenanceVerifiers builderOpts) := by
  have hres : ∀ (auth : V → String → Bool)
      (parse : String → Bool → Except Err (String × String)),
      getProvenanceVerifier auth parse BuilderName ProvenanceVerifiers builderOpts =
        .ok (ProvenanceVerifiers.lookup BuilderName) := by
    intro auth parse
    rcases hid with h | h <;> simp [getProvenanceVerifier, h]
  refine ⟨hres _ _, ?_, fun auth parse => by rw [hres, hres]⟩
  intro others gha hreg
  rw [hres, hreg, lookup_RegisterVerifier]

/-- Witness of C24: in the sample registry a nil expected builder ID and an
empty one yield the verifier registered under `GHA`. -/
theorem getProvenanceVerifier_default_witness :
    getProvenanceVerifier samplePrefixAuthority sampleParseBuilderID "GHA" sampleRegistry
        { ExpectedID := none } = .ok (some "https://github.com/") ∧
      getProvenanceVerifier samplePrefixAuthority sampleParseBuilderID "GHA" sampleRegistry
        { ExpectedID := some "" } = .ok (some "https://github.com/") :=
  ⟨(getProvenanceVerifier_default samplePrefixAuthority sampleParseBuilderID "GHA"
      sampleRegistry { ExpectedID := none } (Or.inl rfl)).1,
    (getProvenanceVerifier_default samplePrefixAuthority sampleParseBuilderID "GHA"
      sampleRegistry { ExpectedID := some "" } (Or.inr rfl)).1⟩

/-! ## Workflow inputs -/

/-- Splitting yields one part more than there are separators. -/
theorem length_splitChars (sep : Char) (cs : List Char) :
    (splitChars sep cs).length = cs.count sep + 1 := by
  induction cs with
  | nil => rfl
  | cons c cs ih =>
    by_cases hc : c = sep
    · rw [splitChars, if_pos hc, List.length_cons, ih, hc, List.count_cons_self]
    · have hne := splitChars_ne_nil sep cs
      have hcount : (c :: cs).count sep = cs.count sep :=
        List.count_cons_of_ne (Ne.symm hc) cs
      rw [splitChars, if_neg hc, hcount, ← ih]
      match hs : splitChars sep cs, hne with
      | q :: qs, _ => rfl

/-- The parts of `key=value` when neither side holds the separator. -/
theorem Split_key_value (key value : String) (sep : Char) (hk : sep ∉ key.data)
    (hv : sep ∉ value.data) :
    Split (key ++ String.singleton sep ++ value) sep = [key, value] := by
  unfold Split
  have hdata : (key ++ String.singleton sep ++ value).data = key.data ++ sep :: value.data := by
    simp [String.singleton]
  rw [hdata, splitChars_append_sep sep _ _ hk, splitChars_of_not_mem sep _ hv]
  rfl

/-- Reading a map after an assignment. -/
theorem lookup_mapSet (m : List (String × String)) (key value k : String) :
    (mapSet m key value).lookup k = if k = key then some value else m.lookup k := by
  unfold mapSet
  by_cases hk : k = key
  · simp [List.lookup, hk]
  · have hb : (k == key) = false := by simpa using hk
    simp only [List.lookup, hb, if_neg hk]
    induction m with
    | nil => rfl
    | cons entry rest ih =>
      obtain ⟨a, b⟩ := entry
      by_cases ha : a = key
      · subst ha
        simp [List.filter, List.lookup, hb, ih]
      · have hne : (a != key) = true := by simpa using ha
        simp only [List.filter, hne, List.lookup]
        cases hka : (k == a) with
        | true => rfl
        | false => exact ih

/-- C28: `workflowInputs.Set(value)` succeeds iff `value` holds exactly one
`=`; on success the map returned by `AsMap` binds the text before `=` to the
text after it and every other key reads as before; otherwise `Set` fails
with `InvalidFormat` and the receiver is unchanged. -/
theorem workflowInputs_Set (i : workflowInputs) (value : String) :
    ((i.Set value).1 = none ↔ value.data.count '=' = 1) ∧
    (value.data.count '=' ≠ 1 →
      (i.Set value).1 = some .InvalidFormat ∧ (i.Set value).2 = i) ∧
    (∀ k v : String, value = k ++ "=" ++ v → '=' ∉ k.data → '=' ∉ v.data →
      (i.Set value).1 = none ∧ mapGet (i.Set value).2.AsMap k = some v ∧
        ∀ other, other ≠ k → mapGet (i.Set value).2.AsMap other = mapGet i.AsMap other) := by
  have hlen : (Split value '=').length = value.data.count '=' + 1 := by
    unfold Split
    rw [List.length_map, length_splitChars]
  refine ⟨?_, ?_, ?_⟩
  · unfold workflowInputs.Set
    simp only [hlen]
    by_cases hc : value.data.count '=' = 1
    · simp [hc]
    · have : ¬ (value.data.count '=' + 1 = 2) := by omega
      simp [hc, this]
  · intro hc
    unfold workflowInputs.Set
    simp only [hlen]
    simp [hc]
  · intro k v hval hk hv
    have hsplit : Split value '=' = [k, v] := by
      rw [hval]
      exact Split_key_value k v '=' hk hv
    unfold workflowInputs.Set workflowInputs.AsMap
    simp only [hsplit]
    refine ⟨by simp, ?_, ?_⟩
    · simp [mapGet, lookup_mapSet]
    · intro other hother
      cases hkv : i.kv with
      | none => simp [mapGet, lookup_mapSet, hother]
      | some m => simp [mapGet, lookup_mapSet, hother]

/-- Witness of C28: a repeated key is overwritten and another key is kept;
a value with two `=` is rejected and leaves the receiver as it was. -/
theorem workflowInputs_Set_witness :
    mapGet (workflowInputs.Set { kv := some [("a", "1"), ("b", "2")] } "a=3").2.AsMap "a" =
        some "3" ∧
      mapGet (workflowInputs.Set { kv := some [("a", "1"), ("b", "2")] } "a=3").2.AsMap "b" =
        mapGet (workflowInputs.AsMap { kv := some [("a", "1"), ("b", "2")] }) "b" ∧
      ((workflowInputs.Set { kv := none } "a=b=c").1 = some .InvalidFormat ∧
        (workflowInputs.Set { kv := none } "a=b=c").2 = { kv := none }) :=
  ⟨((workflowInputs_Set { kv := some [("a", "1"), ("b", "2")] } "a=3").2.2 "a" "3"
      (by decide) (by decide) (by decide)).2.1,
    ((workflowInputs_Set { kv := some [("a", "1"), ("b", "2")] } "a=3").2.2 "a" "3"
      (by decide) (by decide) (by decide)).2.2 "b" (by decide),
    (workflowInputs_Set { kv := none } "a=b=c").2.1 (by decide)⟩

/-! ## verifyEnvAndCert: the delegator corner case -/

section GhaFacts

variable {Env Cert WorkflowInfo BuilderID Builders Att Bytes Root : Type}

/-- C25, as stated, fails: the certificate is signed by the delegator
workflow (BYOB), the caller supplies no expected builder ID, and the source
repository of the certificate is not the expected one; `verifyEnvAndCert`
fails with `MismatchSource`, not with `InvalidBuilderID`. -/
theorem verifyEnvAndCert_byob_counterexample :
    sampleGhaSourceMismatch.VerifyBuilderIdentity "cert" { ExpectedID := none } () =
        (some "https://github.com/delegator@refs/tags/v1", true, none) ∧
      (verifyEnvAndCert sampleGhaSourceMismatch "envelope" "cert" sampleProvenanceOpts
        { ExpectedID := none } ()).1 = .error .MismatchSource ∧
      (verifyEnvAndCert sampleGhaSourceMismatch "envelope" "cert" sampleProvenanceOpts
        { ExpectedID := none } ()).1 ≠ .error .InvalidBuilderID := by
  decide

/-- C25 (amended): in `verifyEnvAndCert`, whenever builder-identity
verification reports a BYOB (delegator) signing identity and the caller
supplied no expected builder ID (nil or empty), verification fails and the
provenance is never checked (the result does not depend on
`VerifyProvenance`); when moreover the source repository check of the
certificate passes, the error is `InvalidBuilderID`. When a BYOB identity is
reported with a non-empty expected ID and the source repository check
passes, the provenance is verified against the caller's expected builder ID:
the result depends on `VerifyProvenance` only through its answer for the
options whose `ExpectedBuilderID` is the caller's, and an error there is the
result. -/
theorem verifyEnvAndCert_byob
    (C : GhaCollaborators Env Cert WorkflowInfo BuilderID Builders Att Bytes Root)
    (env : Env) (cert : Cert) (provenanceOpts : ProvenanceOpts) (builderOpts : BuilderOpts)
    (defaultBuilders : Builders) (workflowInfo : WorkflowInfo) (delegator : BuilderID)
    (hinfo : C.GetWorkflowInfoFromCertificate cert = .ok workflowInfo)
    (hbyob : C.VerifyBuilderIdentity workflowInfo builderOpts defaultBuilders =
      (some delegator, true, none)) :
    ((builderOpts.ExpectedID = none ∨ builderOpts.ExpectedID = some "") →
      ∀ f : Env → ProvenanceOpts → BuilderID → Bool → Option Err,
        (∃ err, (verifyEnvAndCert { C with VerifyProvenance := f } env cert provenanceOpts
          builderOpts defaultBuilders).1 = .error err) ∧
        verifyEnvAndCert { C with VerifyProvenance := f } env cert provenanceOpts
          builderOpts defaultBuilders =
          verifyEnvAndCert C env cert provenanceOpts builderOpts defaultBuilders) ∧
    (C.VerifyCertficateSourceRepository workflowInfo provenanceOpts.ExpectedSourceURI = none →
      ((builderOpts.ExpectedID = none ∨ builderOpts.ExpectedID = some "") →
        (verifyEnvAndCert C env cert provenanceOpts builderOpts defaultBuilders).1 =
          .error .InvalidBuilderID) ∧
      (∀ expectedID, builderOpts.ExpectedID = some expectedID → expectedID ≠ "" →
        (∀ f g : Env → ProvenanceOpts → BuilderID → Bool → Option Err,
          f env { provenanceOpts with ExpectedBuilderID := expectedID } delegator true =
            g env { provenanceOpts with ExpectedBuilderID := expectedID } delegator true →
          verifyEnvAndCert { C with VerifyProvenance := f } env cert provenanceOpts
              builderOpts defaultBuilders =
            verifyEnvAndCert { C with VerifyProvenance := g } env cert provenanceOpts
              builderOpts defaultBuilders) ∧
        (∀ err, C.VerifyProvenance env
            { provenanceOpts with ExpectedBuilderID := expectedID } delegator true = some err →
          (verifyEnvAndCert C env cert provenanceOpts builderOpts defaultBuilders).1 =
            .error err) ∧
        (verifyEnvAndCert C env cert provenanceOpts builderOpts
          defaultBuilders).2.ExpectedBuilderID = expectedID)) := by
  refine ⟨?_, ?_⟩
  · intro hid f
    cases hsrc : C.VerifyCertficateSourceRepository workflowInfo
        provenanceOpts.ExpectedSourceURI with
    | some err =>
      rcases hid with h | h <;> simp [verifyEnvAndCert, hinfo, hbyob, hsrc]
    | none =>
      rcases hid with h | h <;> simp [verifyEnvAndCert, hinfo, hbyob, hsrc, h]
  · intro hsrc
    refine ⟨?_, ?_⟩
    · intro hid
      rcases hid with h | h <;> simp [verifyEnvAndCert, hinfo, hbyob, hsrc, h]
    · intro expectedID hid hne
      refine ⟨?_, ?_, ?_⟩
      · intro f g hfg
        simp [verifyEnvAndCert, hinfo, hbyob, hsrc, hid, hne, hfg]
      · intro err herr
        simp [verifyEnvAndCert, hinfo, hbyob, hsrc, hid, hne, herr]
      · simp only [verifyEnvAndCert, hinfo, hbyob, hsrc, hid]
        have hcond : (true && (some expectedID == none || some expectedID == some "")) =
            false := by simp [hne]
        rw [hcond]
        simp only [Bool.false_eq_true, if_false, if_true, Option.getD_some]
        cases C.VerifyProvenance env
            { provenanceOpts with ExpectedBuilderID := expectedID } delegator true with
        | some err => rfl
        | none =>
          cases C.builderID env delegator with
          | error err => rfl
          | ok verified =>
            cases C.DecodePayload env with
            | error err => rfl
            | ok r => rfl

/-- Witness of C25 (amended): with the sample collaborators, no expected
builder ID gives `InvalidBuilderID`; with the expected builder ID
`https://github.com/org/builder@v1` the provenance is checked against it. -/
theorem verifyEnvAndCert_byob_witness :
    (verifyEnvAndCert sampleGha "envelope" "cert" sampleProvenanceOpts
        { ExpectedID := none } ()).1 = .error .InvalidBuilderID ∧
      (verifyEnvAndCert sampleGha "envelope" "cert" sampleProvenanceOpts
        { ExpectedID := some "https://github.com/org/builder@v1" } ()).2.ExpectedBuilderID =
        "https://github.com/org/builder@v1" :=
  ⟨((verifyEnvAndCert_byob sampleGha "envelope" "cert" sampleProvenanceOpts
      { ExpectedID := none } () "cert" "https://github.com/delegator@refs/tags/v1"
      rfl (by decide)).2 rfl).1 (Or.inl rfl),
    (((verifyEnvAndCert_byob sampleGha "envelope" "cert" sampleProvenanceOpts
      { ExpectedID := some "https://github.com/org/builder@v1" } () "cert"
      "https://github.com/delegator@refs/tags/v1" rfl (by decide)).2 rfl).2
      "https://github.com/org/builder@v1" rfl (by decide)).2.2⟩

/-! ## verifyNpmEnvAndCert: a signing identity that is not the delegator -/

/-- C26, as stated, fails: the signing identity is not the delegator
workflow, the expected builder ID is none of the three npm CLI builders, and
the source repository of the certificate is not the expected one;
`verifyNpmEnvAndCert` fails with `MismatchSource`, not with `NotSupported`. -/
theorem verifyNpmEnvAndCert_non_byob_counterexample :
    sampleGhaSourceMismatch.VerifyBuilderIdentity "untrusted"
        { ExpectedID := some (sampleGhaSourceMismatch.httpsGithubCom ++
          sampleGhaSourceMismatch.GenericLowPermsDelegatorBuilderID) } () =
        (none, false, some .UntrustedReusableWorkflow) ∧
      (verifyNpmEnvAndCert sampleGhaSourceMismatch "envelope" "untrusted" sampleProvenanceOpts
        (some { ExpectedID := some "https://example.com/other-builder" }) ()).1 =
        .error .MismatchSource ∧
      (verifyNpmEnvAndCert sampleGhaSourceMismatch "envelope" "untrusted" sampleProvenanceOpts
        (some { ExpectedID := some "https://example.com/other-builder" }) ()).1 ≠
        .error .NotSupported := by
  decide

/-- The condition under which the switch of `verifyNpmEnvAndCert` is passed
implies the condition of the claim. -/
theorem npmHostingSwitch_none
    (C : GhaCollaborators Env Cert WorkflowInfo BuilderID Builders Att Bytes Root)
    (expectedID : String) (hosted : Hosted) (h : npmHostingSwitch C expectedID hosted = none) :
    ((expectedID = C.NpmCLILegacyBuilderID ∨ expectedID = C.NpmCLIHostedBuilderID) ∧
        hosted = .HostedGitHub) ∨
      (expectedID = C.NpmCLISelfHostedBuilderID ∧ hosted = .HostedSelf) := by
  unfold npmHostingSwitch at h
  split_ifs at h with h1 h2 h3 h4
  · exact Or.inl ⟨h1, by simpa using h2⟩
  · exact Or.inr ⟨h3, by simpa using h4⟩

/-- The function `verifyNpmEnvAndCert` when the workflow information is read
and no trusted builder ID is reported, with no error or with the error
`UntrustedReusableWorkflow`. -/
theorem verifyNpmEnvAndCert_non_byob_eq
    (C : GhaCollaborators Env Cert WorkflowInfo BuilderID Builders Att Bytes Root)
    (env : Env) (cert : Cert) (provenanceOpts : ProvenanceOpts)
    (builderOpts : Option BuilderOpts) (defaultBuilders : Builders)
    (workflowInfo : WorkflowInfo) (byob : Bool) (err : Option Err)
    (hinfo : C.GetWorkflowInfoFromCertificate cert = .ok workflowInfo)
    (hident : C.VerifyBuilderIdentity workflowInfo
      { ExpectedID := some (C.httpsGithubCom ++ C.GenericLowPermsDelegatorBuilderID) }
      defaultBuilders = (none, byob, err))
    (herr : err = none ∨ err = some .UntrustedReusableWorkflow) :
    verifyNpmEnvAndCert C env cert provenanceOpts builderOpts defaultBuilders =
      match C.VerifyCertficateSourceRepository workflowInfo
          provenanceOpts.ExpectedSourceURI with
      | some e => (.error e, provenanceOpts)
      | none =>
        match builderOpts.bind (fun opts => opts.ExpectedID) with
        | none => (.error (.other "builder ID is empty"), provenanceOpts)
        | some expectedID =>
          match C.SubjectHosted workflowInfo with
          | none => (.error .NotSupported, provenanceOpts)
          | some hosted =>
            match npmHostingSwitch C expectedID hosted with
            | some e => (.error e, provenanceOpts)
            | none =>
              match C.TrustedBuilderIDNew expectedID false with
              | .error e => (.error e, provenanceOpts)
              | .ok trusted =>
                match C.VerifyNpmPackageProvenance env workflowInfo
                    { provenanceOpts with ExpectedBuilderID := expectedID } trusted false with
                | some e => (.error e, { provenanceOpts with ExpectedBuilderID := expectedID })
                | none => (.ok trusted, { provenanceOpts with ExpectedBuilderID := expectedID }) := by
  unfold verifyNpmEnvAndCert
  simp only [hinfo, hident]
  rcases herr with h | h <;> subst h <;> rfl

/-- C26 (amended): in `verifyNpmEnvAndCert`, when the signing identity is not
the trusted delegator workflow (no trusted builder ID is reported),
verification proceeds to the provenance checks only if the expected builder
ID is `NpmCLILegacy` or `NpmCLIHosted` and the runner is GitHub-hosted, or
the expected builder ID is `NpmCLISelfHosted` and the runner is self-hosted:
otherwise it fails without consulting `VerifyNpmPackageProvenance`. When the
source repository check of the certificate passes and an expected builder ID
is supplied, an unknown hosting status fails with `NotSupported`, any other
expected builder ID fails with `NotSupported`, and a hosting mismatch fails
with `MismatchBuilderID`. -/
theorem verifyNpmEnvAndCert_non_byob
    (C : GhaCollaborators Env Cert WorkflowInfo BuilderID Builders Att Bytes Root)
    (env : Env) (cert : Cert) (provenanceOpts : ProvenanceOpts)
    (builderOpts : Option BuilderOpts) (defaultBuilders : Builders)
    (workflowInfo : WorkflowInfo) (byob : Bool) (err : Option Err)
    (hinfo : C.GetWorkflowInfoFromCertificate cert = .ok workflowInfo)
    (hident : C.VerifyBuilderIdentity workflowInfo
      { ExpectedID := some (C.httpsGithubCom ++ C.GenericLowPermsDelegatorBuilderID) }
      defaultBuilders = (none, byob, err))
    (herr : err = none ∨ err = some .UntrustedReusableWorkflow)
    (hself : C.NpmCLISelfHostedBuilderID ≠ C.NpmCLILegacyBuilderID ∧
      C.NpmCLISelfHostedBuilderID ≠ C.NpmCLIHostedBuilderID) :
    ((¬ ∃ expectedID hosted,
        builderOpts.bind (fun opts => opts.ExpectedID) = some expectedID ∧
        C.SubjectHosted workflowInfo = some hosted ∧
        (((expectedID = C.NpmCLILegacyBuilderID ∨ expectedID = C.NpmCLIHostedBuilderID) ∧
            hosted = .HostedGitHub) ∨
          (expectedID = C.NpmCLISelfHostedBuilderID ∧ hosted = .HostedSelf))) →
      (∃ e, (verifyNpmEnvAndCert C env cert provenanceOpts builderOpts defaultBuilders).1 =
        .error e) ∧
      ∀ f : Env → WorkflowInfo → ProvenanceOpts → BuilderID → Bool → Option Err,
        verifyNpmEnvAndCert { C with VerifyNpmPackageProvenance := f } env cert provenanceOpts
            builderOpts defaultBuilders =
          verifyNpmEnvAndCert C env cert provenanceOpts builderOpts defaultBuilders) ∧
    (C.VerifyCertficateSourceRepository workflowInfo provenanceOpts.ExpectedSourceURI = none →
      ∀ expectedID, builderOpts.bind (fun opts => opts.ExpectedID) = some expectedID →
        (C.SubjectHosted workflowInfo = none →
          (verifyNpmEnvAndCert C env cert provenanceOpts builderOpts defaultBuilders).1 =
            .error .NotSupported) ∧
        (expectedID ≠ C.NpmCLILegacyBuilderID → expectedID ≠ C.NpmCLIHostedBuilderID →
          expectedID ≠ C.NpmCLISelfHostedBuilderID →
          (verifyNpmEnvAndCert C env cert provenanceOpts builderOpts defaultBuilders).1 =
            .error .NotSupported) ∧
        (∀ hosted, C.SubjectHosted workflowInfo = some hosted →
          ((expectedID = C.NpmCLILegacyBuilderID ∨ expectedID = C.NpmCLIHostedBuilderID) →
            hosted ≠ .HostedGitHub →
            (verifyNpmEnvAndCert C env cert provenanceOpts builderOpts defaultBuilders).1 =
              .error .MismatchBuilderID) ∧
          (expectedID = C.NpmCLISelfHostedBuilderID → hosted ≠ .HostedSelf →
            (verifyNpmEnvAndCert C env cert provenanceOpts builderOpts defaultBuilders).1 =
              .error .MismatchBuilderID))) := by
  have hself2 := hself
  have heq := verifyNpmEnvAndCert_non_byob_eq C env cert provenanceOpts builderOpts
    defaultBuilders workflowInfo byob err hinfo hident herr
  refine ⟨?_, ?_⟩
  · intro hcond
    have hind : ∀ f : Env → WorkflowInfo → ProvenanceOpts → BuilderID → Bool → Option Err,
        verifyNpmEnvAndCert { C with VerifyNpmPackageProvenance := f } env cert provenanceOpts
            builderOpts defaultBuilders =
          verifyNpmEnvAndCert C env cert provenanceOpts builderOpts defaultBuilders ∧
        ∃ e, (verifyNpmEnvAndCert C env cert provenanceOpts builderOpts defaultBuilders).1 =
          .error e := by
      intro f
      rw [verifyNpmEnvAndCert_non_byob_eq { C with VerifyNpmPackageProvenance := f } env cert
        provenanceOpts builderOpts defaultBuilders workflowInfo byob err hinfo hident herr,
        heq]
      cases hsrc : C.VerifyCertficateSourceRepository workflowInfo
          provenanceOpts.ExpectedSourceURI with
      | some e => exact ⟨rfl, e, rfl⟩
      | none =>
        cases hid : builderOpts.bind (fun opts => opts.ExpectedID) with
        | none => exact ⟨rfl, _, rfl⟩
        | some expectedID =>
          cases hhosted : C.SubjectHosted workflowInfo with
          | none => exact ⟨rfl, _, rfl⟩
          | some hosted =>
            cases hswitch : npmHostingSwitch C expectedID hosted with
            | none =>
              exact absurd ⟨expectedID, hosted, hid, hhosted,
                npmHostingSwitch_none C expectedID hosted hswitch⟩ hcond
            | some e =>
              have hswitch2 : npmHostingSwitch { C with VerifyNpmPackageProvenance := f }
                  expectedID hosted = some e := hswitch
              simp only [hswitch2, hswitch]
              exact ⟨trivial, e, rfl⟩
    exact ⟨(hind (fun _ _ _ _ _ => none)).2, fun f => (hind f).1⟩
  · intro hsrc expectedID hid
    rw [heq]
    simp only [hsrc, hid]
    refine ⟨?_, ?_, ?_⟩
    · intro hhosted
      simp only [hhosted]
    · intro h1 h2 h3
      cases hhosted : C.SubjectHosted workflowInfo with
      | none => rfl
      | some hosted =>
        have hswitch : npmHostingSwitch C expectedID hosted = some .NotSupported := by
          simp [npmHostingSwitch, h1, h2, h3]
        simp only [hswitch]
    · intro hosted hhosted
      refine ⟨?_, ?_⟩
      · intro h1 h2
        have hswitch : npmHostingSwitch C expectedID hosted = some .MismatchBuilderID := by
          simp [npmHostingSwitch, h1, h2]
        simp only [hhosted, hswitch]
      · intro h1 h2
        have h3 : ¬ (expectedID = C.NpmCLILegacyBuilderID ∨
            expectedID = C.NpmCLIHostedBuilderID) := by
          rw [h1]
          exact fun h => h.elim hself2.1 hself2.2
        have hswitch : npmHostingSwitch C expectedID hosted = some .MismatchBuilderID := by
          unfold npmHostingSwitch
          rw [if_neg h3, if_pos h1]
          simp [h2]
        simp only [hhosted, hswitch]

/-- Witness of C26 (amended): with the sample collaborators and a
GitHub-hosted runner, another expected builder ID is not supported and the
self-hosted npm CLI builder is a mismatch. -/
theorem verifyNpmEnvAndCert_non_byob_witness :
    (verifyNpmEnvAndCert sampleGha "envelope" "untrusted" sampleProvenanceOpts
        (some { ExpectedID := some "https://example.com/other-builder" }) ()).1 =
        .error .NotSupported ∧
      (verifyNpmEnvAndCert sampleGha "envelope" "untrusted" sampleProvenanceOpts
        (some { ExpectedID := some "https://github.com/actions/runner/self-hosted" }) ()).1 =
        .error .MismatchBuilderID :=
  ⟨((verifyNpmEnvAndCert_non_byob sampleGha "envelope" "untrusted" sampleProvenanceOpts
      (some { ExpectedID := some "https://example.com/other-builder" }) () "untrusted" false
      (some .UntrustedReusableWorkflow) rfl (by decide) (Or.inr rfl) (by decide)).2 rfl
      "https://example.com/other-builder" rfl).2.1 (by decide) (by decide) (by decide),
    (((verifyNpmEnvAndCert_non_byob sampleGha "envelope" "untrusted" sampleProvenanceOpts
      (some { ExpectedID := some "https://github.com/actions/runner/self-hosted" }) ()
      "untrusted" false (some .UntrustedReusableWorkflow) rfl (by decide) (Or.inr rfl)
      (by decide)).2 rfl "https://github.com/actions/runner/self-hosted" rfl).2.2
      .HostedGitHub rfl).2 rfl (by decide)⟩

/-! ## VerifyImage -/

/-- The result of `verifyEnvAndCert` does not depend on the incoming
`ExpectedBuilderID`, and the call changes no other field of the options. -/
theorem verifyEnvAndCert_ExpectedBuilderID
    (C : GhaCollaborators Env Cert WorkflowInfo BuilderID Builders Att Bytes Root)
    (env : Env) (cert : Cert) (opts : ProvenanceOpts) (builderOpts : BuilderOpts)
    (defaultBuilders : Builders) (incoming : String) :
    (verifyEnvAndCert C env cert { opts with ExpectedBuilderID := incoming } builderOpts
        defaultBuilders).1 =
      (verifyEnvAndCert C env cert opts builderOpts defaultBuilders).1 ∧
    ∃ outgoing, (verifyEnvAndCert C env cert { opts with ExpectedBuilderID := incoming }
        builderOpts defaultBuilders).2 = { opts with ExpectedBuilderID := outgoing } := by
  unfold verifyEnvAndCert
  cases C.GetWorkflowInfoFromCertificate cert with
  | error err => exact ⟨rfl, incoming, rfl⟩
  | ok workflowInfo =>
    dsimp only
    rcases C.VerifyBuilderIdentity workflowInfo builderOpts defaultBuilders with
      ⟨verified, byob, err⟩
    cases err with
    | some err => exact ⟨rfl, incoming, rfl⟩
    | none =>
      dsimp only
      cases C.VerifyCertficateSourceRepository workflowInfo opts.ExpectedSourceURI with
      | some err => exact ⟨rfl, incoming, rfl⟩
      | none =>
        cases verified with
        | none => exact ⟨rfl, incoming, rfl⟩
        | some verified =>
          dsimp only
          cases byob with
          | false =>
            simp only [Bool.false_and, Bool.false_eq_true, if_false]
            cases C.VerifyProvenance env
                { opts with ExpectedBuilderID := C.BuilderIDString verified } verified false with
            | some err => exact ⟨trivial, _, rfl⟩
            | none =>
              dsimp only
              cases C.DecodePayload env with
              | error err => exact ⟨trivial, _, rfl⟩
              | ok r => exact ⟨trivial, _, rfl⟩
          | true =>
            simp only [Bool.true_and, if_true]
            cases hexp : (builderOpts.ExpectedID == none || builderOpts.ExpectedID == some "") with
            | true => exact ⟨trivial, _, rfl⟩
            | false =>
              simp only [Bool.false_eq_true, if_false]
              cases C.VerifyProvenance env
                  { opts with ExpectedBuilderID := builderOpts.ExpectedID.getD "" }
                  verified true with
              | some err => exact ⟨trivial, _, rfl⟩
              | none =>
                dsimp only
                cases C.builderID env verified with
                | error err => exact ⟨trivial, _, rfl⟩
                | ok inner =>
                  dsimp only
                  cases C.DecodePayload env with
                  | error err => exact ⟨trivial, _, rfl⟩
                  | ok r => exact ⟨trivial, _, rfl⟩

/-- The loop of `VerifyImage` returns the verdict over the outcomes of the
attestations, taken under the caller's options. -/
theorem verifyImageLoop_verdict
    (C : GhaCollaborators Env Cert WorkflowInfo BuilderID Builders Att Bytes Root)
    (builderOpts : BuilderOpts) (opts : ProvenanceOpts) (atts : List Att) :
    ∀ (incoming : String) (errs : List Err),
      (verifyImageLoop C builderOpts atts { opts with ExpectedBuilderID := incoming } errs).1 =
        imageVerdict errs (atts.filterMap (attestationOutcome C builderOpts opts)) := by
  induction atts with
  | nil =>
    intro incoming errs
    cases errs <;> rfl
  | cons att rest ih =>
    intro incoming errs
    rw [List.filterMap_cons]
    unfold verifyImageLoop attestationOutcome
    cases C.AttPayload att with
    | error e => exact ih incoming errs
    | ok pyld =>
      dsimp only
      cases C.EnvelopeFromBytes pyld with
      | error e => exact ih incoming errs
      | ok env =>
        dsimp only
        cases C.AttCert att with
        | error e => exact ih incoming errs
        | ok cert =>
          dsimp only
          obtain ⟨h1, outgoing, h2⟩ := verifyEnvAndCert_ExpectedBuilderID C env cert opts
            builderOpts C.defaultContainerTrustedReusableWorkflows incoming
          rcases hx : verifyEnvAndCert C env cert { opts with ExpectedBuilderID := incoming }
            builderOpts C.defaultContainerTrustedReusableWorkflows with ⟨res, after⟩
          rw [hx] at h1 h2
          dsimp only at h1 h2
          rw [← h1, h2]
          cases res with
          | ok verified => rfl
          | error err =>
            dsimp only
            rw [ih outgoing (errs ++ [err])]
            rfl

/-- The verdict is the first success when only errors precede it. -/
theorem imageVerdict_first_ok {R : Type} (before after : List (Except Err R)) (verified : R)
    (hbefore : ∀ o ∈ before, ∃ e, o = .error e) :
    ∀ errs, imageVerdict errs (before ++ .ok verified :: after) = .ok verified := by
  induction before with
  | nil => intro errs; rfl
  | cons o rest ih =>
    intro errs
    obtain ⟨e, rfl⟩ := hbefore _ (List.mem_cons_self _ _)
    exact ih (fun o ho => hbefore o (List.mem_cons_of_mem _ ho)) (errs ++ [e])

/-- The verdict over errors only, after a first error, is that first
error. -/
theorem imageVerdict_all_errors {R : Type} (results : List (Except Err R))
    (hall : ∀ o ∈ results, ∃ e, o = .error e) :
    ∀ first others, imageVerdict (first :: others) results = .error first := by
  induction results with
  | nil => intro first others; rfl
  | cons o rest ih =>
    intro first others
    obtain ⟨e, rfl⟩ := hall _ (List.mem_cons_self _ _)
    exact ih (fun o ho => hall o (List.mem_cons_of_mem _ ho)) first (others ++ [e])

/-- The outcomes of attestations of which none succeeds are errors. -/
theorem filterMap_outcomes_errors {R : Type} (outcome : Att → Option (Except Err R))
    (atts : List Att) (hnone : ∀ a ∈ atts, ∀ r, outcome a ≠ some (.ok r)) :
    ∀ o ∈ atts.filterMap outcome, ∃ e, o = .error e := by
  intro o ho
  obtain ⟨a, ha, hoa⟩ := List.mem_filterMap.mp ho
  cases o with
  | error e => exact ⟨e, rfl⟩
  | ok r => exact absurd hoa (hnone a ha r)

/-- Skipped attestations leave no outcome. -/
theorem filterMap_outcomes_skipped {R : Type} (outcome : Att → Option (Except Err R))
    (atts : List Att) (hskip : ∀ a ∈ atts, outcome a = none) :
    atts.filterMap outcome = [] := by
  induction atts with
  | nil => rfl
  | cons a rest ih =>
    rw [List.filterMap_cons, hskip a (List.mem_cons_self _ _)]
    exact ih (fun b hb => hskip b (List.mem_cons_of_mem _ hb))

/-- C27: `VerifyImage` over the ordered list of fetched attestations returns
the payload and builder ID of the first attestation whose verification
succeeds; if none succeeds and at least one attestation failed verification,
the error returned has the kind of the first such failure; if no attestation
reached verification (the list is empty, or all were unreadable and
skipped), it fails with `NoValidSignature`. -/
theorem VerifyImage_first_success_or_first_error
    (C : GhaCollaborators Env Cert WorkflowInfo BuilderID Builders Att Bytes Root)
    (artifactImage : String) (provenanceOpts : ProvenanceOpts) (builderOpts : BuilderOpts)
    (trustedRoot : Root) (atts : List Att)
    (hroot : C.TrustedRootSingleton = .ok trustedRoot)
    (hfetch : C.RunCosignImageVerification artifactImage trustedRoot = .ok atts) :
    (∀ before att after verified, atts = before ++ att :: after →
      (∀ a ∈ before, ∀ r, attestationOutcome C builderOpts provenanceOpts a ≠ some (.ok r)) →
      attestationOutcome C builderOpts provenanceOpts att = some (.ok verified) →
      (VerifyImage C artifactImage provenanceOpts builderOpts).1 = .ok verified) ∧
    ((∀ a ∈ atts, ∀ r, attestationOutcome C builderOpts provenanceOpts a ≠ some (.ok r)) →
      ∀ before att after err, atts = before ++ att :: after →
        (∀ a ∈ before, attestationOutcome C builderOpts provenanceOpts a = none) →
        attestationOutcome C builderOpts provenanceOpts att = some (.error err) →
        (VerifyImage C artifactImage provenanceOpts builderOpts).1 = .error err) ∧
    ((∀ a ∈ atts, attestationOutcome C builderOpts provenanceOpts a = none) →
      (VerifyImage C artifactImage provenanceOpts builderOpts).1 =
        .error .NoValidSignature) := by
  have hres : (VerifyImage C artifactImage provenanceOpts builderOpts).1 =
      imageVerdict [] (atts.filterMap (attestationOutcome C builderOpts provenanceOpts)) := by
    unfold VerifyImage
    simp only [hroot, hfetch]
    exact verifyImageLoop_verdict C builderOpts provenanceOpts atts
      provenanceOpts.ExpectedBuilderID []
  rw [hres]
  refine ⟨?_, ?_, ?_⟩
  · intro before att after verified hatts hbefore hatt
    rw [hatts, List.filterMap_append, List.filterMap_cons, hatt]
    exact imageVerdict_first_ok _ _ verified
      (filterMap_outcomes_errors _ before hbefore) []
  · intro hnone before att after err hatts hbefore hatt
    have hafter : ∀ a ∈ after, ∀ r,
        attestationOutcome C builderOpts provenanceOpts a ≠ some (.ok r) := by
      intro a ha
      exact hnone a (by rw [hatts]; simp [ha])
    rw [hatts, List.filterMap_append, List.filterMap_cons, hatt,
      filterMap_outcomes_skipped _ before hbefore]
    exact imageVerdict_all_errors _ (filterMap_outcomes_errors _ after hafter) err []
  · intro hskip
    rw [filterMap_outcomes_skipped _ atts hskip]
    rfl

/-- Witness of C27: with the sample collaborators and the attestations
`unreadable`, `untrusted`, `cert`, `cert2` and no expected builder ID, the
first failure that reached verification decides; with the expected builder
ID of the provenance the third attestation is the first success; an
unreadable attestation alone gives `NoValidSignature`. -/
theorem VerifyImage_first_success_or_first_error_witness :
    (VerifyImage sampleGha "unreadable,untrusted,cert,cert2" sampleProvenanceOpts
        { ExpectedID := none }).1 = .error .UntrustedReusableWorkflow ∧
      (VerifyImage sampleGha "unreadable,untrusted,cert,cert2" sampleProvenanceOpts
        { ExpectedID := some "https://github.com/org/builder@v1" }).1 =
        .ok ("cert", "https://github.com/org/builder@v1") ∧
      (VerifyImage sampleGha "unreadable" sampleProvenanceOpts { ExpectedID := none }).1 =
        .error .NoValidSignature :=
  ⟨(VerifyImage_first_success_or_first_error sampleGha "unreadable,untrusted,cert,cert2"
      sampleProvenanceOpts { ExpectedID := none } ()
      ["unreadable", "untrusted", "cert", "cert2"] rfl (by decide)).2.1
      (by
        intro a ha r h
        have hcases : a = "unreadable" ∨ a = "untrusted" ∨ a = "cert" ∨ a = "cert2" := by
          simpa using ha
        have h1 : attestationOutcome sampleGha { ExpectedID := none } sampleProvenanceOpts
            "unreadable" = none := by decide
        have h2 : attestationOutcome sampleGha { ExpectedID := none } sampleProvenanceOpts
            "untrusted" = some (.error .UntrustedReusableWorkflow) := by decide
        have h3 : attestationOutcome sampleGha { ExpectedID := none } sampleProvenanceOpts
            "cert" = some (.error .InvalidBuilderID) := by decide
        have h4 : attestationOutcome sampleGha { ExpectedID := none } sampleProvenanceOpts
            "cert2" = some (.error .InvalidBuilderID) := by decide
        rcases hcases with rfl | rfl | rfl | rfl
        · rw [h1] at h; cases h
        · rw [h2] at h; cases h
        · rw [h3] at h; cases h
        · rw [h4] at h; cases h)
      ["unreadable"] "untrusted" ["cert", "cert2"] .UntrustedReusableWorkflow rfl
      (by decide) (by decide),
    (VerifyImage_first_success_or_first_error sampleGha "unreadable,untrusted,cert,cert2"
      sampleProvenanceOpts { ExpectedID := some "https://github.com/org/builder@v1" } ()
      ["unreadable", "untrusted", "cert", "cert2"] rfl (by decide)).1
      ["unreadable", "untrusted"] "cert" ["cert2"]
      ("cert", "https://github.com/org/builder@v1") rfl
      (by
        intro a ha r h
        have hcases : a = "unreadable" ∨ a = "untrusted" := by simpa using ha
        have h1 : attestationOutcome sampleGha
            { ExpectedID := some "https://github.com/org/builder@v1" } sampleProvenanceOpts
            "unreadable" = none := by decide
        have h2 : attestationOutcome sampleGha
            { ExpectedID := some "https://github.com/org/builder@v1" } sampleProvenanceOpts
            "untrusted" = some (.error .UntrustedReusableWorkflow) := by decide
        rcases hcases with rfl | rfl
        · rw [h1] at h; cases h
        · rw [h2] at h; cases h)
      (by decide),
    (VerifyImage_first_success_or_first_error sampleGha "unreadable" sampleProvenanceOpts
      { ExpectedID := none } () ["unreadable"] rfl (by decide)).2.2 (by decide)⟩

end GhaFacts

/-! ## GCB: build type and versioned tag -/

/-- C29: for the builder `GoogleHostedWorker` of Cloud Build,
`validateBuildType` succeeds exactly for these pairs: version `v0.2` with
the build type `https://cloudbuild.googleapis.com/GoogleHostedWorker@v0.2`;
version `v0.3` with `CloudBuildYaml@v0.1` or `CloudBuildSteps@v0.1`; no
version with `https://cloud.google.com/build/gcb-buildtypes/google-worker/v1`.
Versions `v0.1` and `v1` fail with `InvalidBuilderID`, another build type
fails with `InvalidRecipe` for `v0.2` and `v0.3` and with `InvalidBuildType`
for the builder without version. -/
theorem validateBuildType_pairs (version buildType : String) :
    (validateBuildType ⟨"https://cloudbuild.googleapis.com/GoogleHostedWorker", version⟩
        buildType = .ok () ↔
      (version = "v0.2" ∧
          buildType = "https://cloudbuild.googleapis.com/GoogleHostedWorker@v0.2") ∨
        (version = "v0.3" ∧
          (buildType = "https://cloudbuild.googleapis.com/CloudBuildYaml@v0.1" ∨
            buildType = "https://cloudbuild.googleapis.com/CloudBuildSteps@v0.1")) ∨
        (version = "" ∧
          buildType = "https://cloud.google.com/build/gcb-buildtypes/google-worker/v1")) ∧
    ((version = "v0.1" ∨ version = "v1") →
      validateBuildType ⟨"https://cloudbuild.googleapis.com/GoogleHostedWorker", version⟩
        buildType = .error .InvalidBuilderID) ∧
    (version = "v0.2" →
      buildType ≠ "https://cloudbuild.googleapis.com/GoogleHostedWorker@v0.2" →
      validateBuildType ⟨"https://cloudbuild.googleapis.com/GoogleHostedWorker", version⟩
        buildType = .error .InvalidRecipe) ∧
    (version = "v0.3" →
      buildType ≠ "https://cloudbuild.googleapis.com/CloudBuildYaml@v0.1" →
      buildType ≠ "https://cloudbuild.googleapis.com/CloudBuildSteps@v0.1" →
      validateBuildType ⟨"https://cloudbuild.googleapis.com/GoogleHostedWorker", version⟩
        buildType = .error .InvalidRecipe) ∧
    (version = "" →
      buildType ≠ "https://cloud.google.com/build/gcb-buildtypes/google-worker/v1" →
      validateBuildType ⟨"https://cloudbuild.googleapis.com/GoogleHostedWorker", version⟩
        buildType = .error .InvalidBuildType) := by
  have hstr : TrustedBuilderID.String
      ⟨"https://cloudbuild.googleapis.com/GoogleHostedWorker", "v0.2"⟩ =
      "https://cloudbuild.googleapis.com/GoogleHostedWorker@v0.2" := by decide
  have h23 : ("v0.2" : String) ≠ "v0.3" := by decide
  have h2e : ("v0.2" : String) ≠ "" := by decide
  have h3e : ("v0.3" : String) ≠ "" := by decide
  have h12 : ("v0.1" : String) ≠ "v0.2" := by decide
  have h13 : ("v0.1" : String) ≠ "v0.3" := by decide
  have h1e : ("v0.1" : String) ≠ "" := by decide
  have hv2 : ("v1" : String) ≠ "v0.2" := by decide
  have hv3 : ("v1" : String) ≠ "v0.3" := by decide
  have hve : ("v1" : String) ≠ "" := by decide
  refine ⟨?_, ?_, ?_, ?_, ?_⟩
  · by_cases hA : version = "v0.2"
    · subst hA
      by_cases hb : buildType = "https://cloudbuild.googleapis.com/GoogleHostedWorker@v0.2"
      · simp [validateBuildType, hstr, hb]
      · simp [validateBuildType, hstr, hb, h23, h2e]
    · by_cases hB : version = "v0.3"
      · subst hB
        by_cases hb : buildType = "https://cloudbuild.googleapis.com/CloudBuildYaml@v0.1" ∨
            buildType = "https://cloudbuild.googleapis.com/CloudBuildSteps@v0.1"
        · simp [validateBuildType, hb, h23.symm, h3e]
        · simp [validateBuildType, hb, h23.symm, h3e]
      · by_cases hC : version = ""
        · subst hC
          by_cases hb : buildType =
              "https://cloud.google.com/build/gcb-buildtypes/google-worker/v1"
          · simp [validateBuildType, hb, h2e.symm, h3e.symm]
          · simp [validateBuildType, hb, h2e.symm, h3e.symm]
        · simp [validateBuildType, hA, hB, hC]
  · rintro (h | h) <;> subst h
    · simp [validateBuildType, h12, h13, h1e]
    · simp [validateBuildType, hv2, hv3, hve]
  · intro hv hb
    subst hv
    simp [validateBuildType, hstr, hb]
  · intro hv hb1 hb2
    subst hv
    simp [validateBuildType, h23.symm, hb1, hb2]
  · intro hv hb
    subst hv
    simp [validateBuildType, h2e.symm, h3e.symm, hb]

/-- Witness of C29: the cases of `Test_validateBuildType` for an invalid
builder version, an invalid recipe and an invalid build type. -/
theorem validateBuildType_pairs_witness :
    validateBuildType ⟨"https://cloudbuild.googleapis.com/GoogleHostedWorker", "v0.1"⟩
        "https://cloudbuild.googleapis.com/GoogleHostedWorker@v0.1" =
        .error .InvalidBuilderID ∧
      validateBuildType ⟨"https://cloudbuild.googleapis.com/GoogleHostedWorker", "v0.2"⟩
        "https://cloudbuild.googleapis.com/CloudBuildYaml@v0.1" = .error .InvalidRecipe ∧
      validateBuildType ⟨"https://cloudbuild.googleapis.com/GoogleHostedWorker", ""⟩
        "https://cloud.google.com/build/gcb-buildtypes/google-worker/v0" =
        .error .InvalidBuildType :=
  ⟨(validateBuildType_pairs "v0.1"
      "https://cloudbuild.googleapis.com/GoogleHostedWorker@v0.1").2.1 (Or.inl rfl),
    (validateBuildType_pairs "v0.2"
      "https://cloudbuild.googleapis.com/CloudBuildYaml@v0.1").2.2.1 rfl (by decide),
    (validateBuildType_pairs ""
      "https://cloud.google.com/build/gcb-buildtypes/google-worker/v0").2.2.2.2 rfl
      (by decide)⟩

/-- A component of the query is a wildcard when missing and has to be the
component of the provenance tag when present. -/
theorem component_check (query tag : Option Nat) :
    (query.isSome && query != tag) = false ↔ ∀ x, query = some x → tag = some x := by
  cases query with
  | none => simp
  | some q =>
    cases tag with
    | none => simp
    | some t =>
      simp only [Option.isSome_some, Bool.true_and, bne_eq_false_iff_eq, Option.some.injEq]
      constructor
      · intro h x hx
        rw [← hx, h]
      · intro h
        exact (h q rfl).symm

/-- C30: `VerifyVersionedTag(expected)` succeeds iff the `TAG_NAME` of the
provenance is a string that is a semantic version, the query is a semantic
version, and every component (major, minor, patch) present in the query
equals the corresponding component of the provenance tag, missing components
of the query being wildcards. Against the tag `v33.0.4` the queries
`v33.0.4`, `v33.0` and `v33` succeed while `v33.1`, `v33.1.0`, `v34`,
`v34.0.4`, `v32` and `v32.0.4` fail with `MismatchVersionedTag`; an absent or
non-string `TAG_NAME` fails with `MismatchVersionedTag`. -/
theorem VerifyVersionedTag_components (tag : TagName) (expected : String) :
    (VerifyVersionedTag tag expected = .ok () ↔
      ∃ provenanceTag M m p eM em ep,
        tag = .str provenanceTag ∧ parseSemver provenanceTag = some (M, m, p) ∧
        parseSemver expected = some (eM, em, ep) ∧ eM = M ∧
        (∀ x, em = some x → m = some x) ∧ (∀ x, ep = some x → p = some x)) ∧
    ((∀ query ∈ ["v33.0.4", "v33.0", "v33"],
        VerifyVersionedTag (.str "v33.0.4") query = .ok ()) ∧
      (∀ query ∈ ["v33.1", "v33.1.0", "v34", "v34.0.4", "v32", "v32.0.4"],
        VerifyVersionedTag (.str "v33.0.4") query = .error .MismatchVersionedTag)) ∧
    (VerifyVersionedTag .absent expected = .error .MismatchVersionedTag ∧
      VerifyVersionedTag .notString expected = .error .MismatchVersionedTag) := by
  refine ⟨?_, ⟨by decide, by decide⟩, rfl, rfl⟩
  cases tag with
  | absent =>
    constructor
    · intro h; cases h
    · rintro ⟨t, _, _, _, _, _, _, ht, _⟩; cases ht
  | notString =>
    constructor
    · intro h; cases h
    · rintro ⟨t, _, _, _, _, _, _, ht, _⟩; cases ht
  | str provenanceTag =>
    cases hp : parseSemver provenanceTag with
    | none =>
      have hres : VerifyVersionedTag (.str provenanceTag) expected =
          .error (.other "invalid semantic version") := by
        simp only [VerifyVersionedTag, hp]
      rw [hres]
      constructor
      · intro h; cases h
      · rintro ⟨t, M, m, p, eM, em, ep, ht, hpt, _⟩
        cases ht
        rw [hp] at hpt
        cases hpt
    | some parsed =>
      obtain ⟨M, m, p⟩ := parsed
      cases he : parseSemver expected with
      | none =>
        have hres : VerifyVersionedTag (.str provenanceTag) expected =
            .error (.other "invalid semantic version") := by
          simp only [VerifyVersionedTag, hp, he]
        rw [hres]
        constructor
        · intro h; cases h
        · rintro ⟨t, M2, m2, p2, eM, em, ep, _, _, hpe, _⟩
          cases hpe
      | some parsedExpected =>
        obtain ⟨eM, em, ep⟩ := parsedExpected
        have hres : VerifyVersionedTag (.str provenanceTag) expected =
            if eM ≠ M then .error .MismatchVersionedTag
            else if em.isSome && em != m then .error .MismatchVersionedTag
            else if ep.isSome && ep != p then .error .MismatchVersionedTag
            else .ok () := by
          simp only [VerifyVersionedTag, hp, he]
        rw [hres]
        constructor
        · intro h
          split_ifs at h with h1 h2 h3
          refine ⟨provenanceTag, M, m, p, eM, em, ep, rfl, hp, rfl, not_not.mp h1, ?_, ?_⟩
          · exact (component_check em m).mp (by simpa using h2)
          · exact (component_check ep p).mp (by simpa using h3)
        · rintro ⟨t, M2, m2, p2, eM2, em2, ep2, ht, hpt, hpe, hM, hm, hpp⟩
          cases ht
          rw [hp] at hpt
          cases hpt
          cases hpe
          have c2 := (component_check em m).mpr hm
          have c3 := (component_check ep p).mpr hpp
          rw [if_neg (not_not.mpr hM), c2, c3]
          rfl

/-- Witness of C30: against the tag `v33.0.4` the query `v33.0` succeeds,
its patch component being a wildcard. -/
theorem VerifyVersionedTag_components_witness :
    VerifyVersionedTag (.str "v33.0.4") "v33.0" = .ok () :=
  (VerifyVersionedTag_components (.str "v33.0.4") "v33.0").1.mpr
    ⟨"v33.0.4", 33, some 0, some 4, 33, some 0, none, rfl, by decide, by decide, rfl,
      fun x hx => hx, fun x hx => (by cases hx)⟩

/-! ## verifySubject: the first decisive subject -/

/-- The loop of `verifySubject` passes over subjects that carry a sha256
digest other than the expected one. -/
theorem verifySubjectLoop_skip (expectedHash : String) (pre rest : List Subject)
    (hpre : ∀ t ∈ pre, ∃ h, t.Digest.lookup "sha256" = some h ∧ h ≠ expectedHash) :
    verifySubjectLoop expectedHash (pre ++ rest) = verifySubjectLoop expectedHash rest := by
  induction pre with
  | nil => rfl
  | cons t pre ih =>
    obtain ⟨h, hl, hne⟩ := hpre t (List.mem_cons_self _ _)
    have hrest := ih (fun u hu => hpre u (List.mem_cons_of_mem _ hu))
    simp [verifySubjectLoop, hl, hne, hrest]

/-- Every subject list either has a first subject that lacks a sha256 digest
or carries the expected one, or consists of subjects with another sha256
digest. -/
theorem subjects_first_decisive (expected : String) (subjects : List Subject) :
    (∃ pre s post, subjects = pre ++ s :: post ∧
      (∀ t ∈ pre, ∃ h, t.Digest.lookup "sha256" = some h ∧ h ≠ expected) ∧
      (s.Digest.lookup "sha256" = none ∨ s.Digest.lookup "sha256" = some expected)) ∨
    (∀ t ∈ subjects, ∃ h, t.Digest.lookup "sha256" = some h ∧ h ≠ expected) := by
  induction subjects with
  | nil => exact Or.inr (fun t ht => absurd ht (List.not_mem_nil t))
  | cons s rest ih =>
    cases hs : s.Digest.lookup "sha256" with
    | none => exact Or.inl ⟨[], s, rest, rfl, fun t ht => absurd ht (List.not_mem_nil t), Or.inl hs⟩
    | some h =>
      by_cases heq : h = expected
      · exact Or.inl ⟨[], s, rest, rfl, fun t ht => absurd ht (List.not_mem_nil t),
          Or.inr (by rw [hs, heq])⟩
      · rcases ih with ⟨pre, u, post, hsplit, hpre, hu⟩ | hall
        · refine Or.inl ⟨s :: pre, u, post, by rw [hsplit]; rfl, ?_, hu⟩
          intro t ht
          rcases List.mem_cons.mp ht with h1 | h1
          · exact ⟨h, by rw [h1, hs], heq⟩
          · exact hpre t h1
        · refine Or.inr ?_
          intro t ht
          rcases List.mem_cons.mp ht with h1 | h1
          · exact ⟨h, by rw [h1, hs], heq⟩
          · exact hall t h1

/-- C31: `verifySubject` is decided by the first subject, in list order, that
lacks a sha256 digest or carries the expected one. With the subjects before
it all carrying another sha256 digest, the result is `InvalidDssePayload` if
it lacks sha256 (whatever follows) and ok if its sha256 is the expected digest
(whatever follows); if every subject carries another sha256 digest the result
is `MismatchHash`; these cases are exhaustive; and a non-empty subject list
without any sha256 digest yields `InvalidDssePayload`. -/
theorem verifySubject_first_decisive (statement : Statement) (expected : String) :
    (∀ pre s post, statement.Subject = pre ++ s :: post →
      (∀ t ∈ pre, ∃ h, t.Digest.lookup "sha256" = some h ∧ h ≠ expected) →
        (s.Digest.lookup "sha256" = none →
          verifySubject statement expected = .error .InvalidDssePayload) ∧
        (s.Digest.lookup "sha256" = some expected →
          verifySubject statement expected = .ok ())) ∧
    ((∀ t ∈ statement.Subject, ∃ h, t.Digest.lookup "sha256" = some h ∧ h ≠ expected) →
      verifySubject statement expected = .error .MismatchHash) ∧
    ((∃ pre s post, statement.Subject = pre ++ s :: post ∧
        (∀ t ∈ pre, ∃ h, t.Digest.lookup "sha256" = some h ∧ h ≠ expected) ∧
        (s.Digest.lookup "sha256" = none ∨ s.Digest.lookup "sha256" = some expected)) ∨
      (∀ t ∈ statement.Subject, ∃ h, t.Digest.lookup "sha256" = some h ∧ h ≠ expected)) ∧
    (statement.Subject ≠ [] →
      (∀ t ∈ statement.Subject, t.Digest.lookup "sha256" = none) →
        verifySubject statement expected = .error .InvalidDssePayload) := by
  refine ⟨?_, ?_, subjects_first_decisive expected statement.Subject, ?_⟩
  · intro pre s post hsplit hpre
    unfold verifySubject
    rw [hsplit, verifySubjectLoop_skip expected pre (s :: post) hpre]
    constructor
    · intro hs
      simp [verifySubjectLoop, hs]
    · intro hs
      simp [verifySubjectLoop, hs]
  · intro hall
    unfold verifySubject
    have h := verifySubjectLoop_skip expected statement.Subject [] hall
    rw [List.append_nil] at h
    rw [h]
    rfl
  · intro hne hall
    unfold verifySubject
    cases hsub : statement.Subject with
    | nil => exact absurd hsub hne
    | cons s rest =>
      have hs := hall s (by rw [hsub]; exact List.mem_cons_self _ _)
      simp [verifySubjectLoop, hs]

/-- Witness of C31, for the expected digest `456`: a subject without sha256
before a matching one gives `InvalidDssePayload`; a matching subject before
one without sha256 gives ok; two subjects with other digests give
`MismatchHash`. -/
theorem verifySubject_first_decisive_witness :
    verifySubject
        { scenarioStatement with
          Subject := [{ Name := "a", Digest := [("sha256", "123")] },
                      { Name := "b", Digest := [("sha512", "456")] },
                      { Name := "c", Digest := [("sha256", "456")] }] } "456" =
        .error .InvalidDssePayload ∧
      verifySubject
        { scenarioStatement with
          Subject := [{ Name := "a", Digest := [("sha256", "123")] },
                      { Name := "c", Digest := [("sha256", "456")] },
                      { Name := "b", Digest := [("sha512", "456")] }] } "456" = .ok () ∧
      verifySubject
        { scenarioStatement with
          Subject := [{ Name := "a", Digest := [("sha256", "123")] },
                      { Name := "d", Digest := [("sha256", "789")] }] } "456" =
        .error .MismatchHash :=
  ⟨((verifySubject_first_decisive
      { scenarioStatement with
        Subject := [{ Name := "a", Digest := [("sha256", "123")] },
                    { Name := "b", Digest := [("sha512", "456")] },
                    { Name := "c", Digest := [("sha256", "456")] }] } "456").1
      [{ Name := "a", Digest := [("sha256", "123")] }]
      { Name := "b", Digest := [("sha512", "456")] }
      [{ Name := "c", Digest := [("sha256", "456")] }] rfl
      (by
        intro t ht
        rw [List.mem_singleton.mp ht]
        exact ⟨"123", by decide, by decide⟩)).1 (by decide),
    ((verifySubject_first_decisive
      { scenarioStatement with
        Subject := [{ Name := "a", Digest := [("sha256", "123")] },
                    { Name := "c", Digest := [("sha256", "456")] },
                    { Name := "b", Digest := [("sha512", "456")] }] } "456").1
      [{ Name := "a", Digest := [("sha256", "123")] }]
      { Name := "c", Digest := [("sha256", "456")] }
      [{ Name := "b", Digest := [("sha512", "456")] }] rfl
      (by
        intro t ht
        rw [List.mem_singleton.mp ht]
        exact ⟨"123", by decide, by decide⟩)).2 (by decide),
    (verifySubject_first_decisive
      { scenarioStatement with
        Subject := [{ Name := "a", Digest := [("sha256", "123")] },
                    { Name := "d", Digest := [("sha256", "789")] }] } "456").2.1
      (by
        intro t ht
        rcases List.mem_cons.mp ht with h1 | h1
        · rw [h1]
          exact ⟨"123", by decide, by decide⟩
        · rw [List.mem_singleton.mp h1]
          exact ⟨"789", by decide, by decide⟩)⟩

/-! ## ParseVerifierID without a required version -/

/-- Every string is the `Join` of slash-free segments, the last of which is
its last segment. -/
theorem segments_of_string (id : String) :
    ∃ segments last, id = Join (segments ++ [last]) "/" ∧
      ∀ s ∈ segments ++ [last], '/' ∉ s.data := by
  obtain ⟨hjoin, hfree, hne⟩ := Join_Split id
  refine ⟨(Split id '/').dropLast, (Split id '/').getLast hne, ?_, ?_⟩
  · rw [List.dropLast_append_getLast hne, hjoin]
  · rw [List.dropLast_append_getLast hne]
    exact hfree

/-- The function `ParseVerifierID` without a required version, on an ID given
by its slash-separated segments. -/
theorem ParseVerifierID_false_of_segments (id : String) (segments : List String)
    (last : String) (hid : id = Join (segments ++ [last]) "/")
    (hfree : ∀ s ∈ segments ++ [last], '/' ∉ s.data) :
    ParseVerifierID id false =
      if HasPrefix last "v" = true then .ok (Join segments "/", last) else .ok (id, "") := by
  have hsplit : Split id '/' = segments ++ [last] := by
    rw [hid]
    exact Split_Join _ (by simp) hfree
  unfold ParseVerifierID
  simp only [hsplit, List.getLast?_append, List.getLast?_singleton, List.dropLast_concat]
  have hlen : ¬ (segments ++ [last]).length < 1 := by simp
  rw [if_neg hlen]
  cases h2 : HasPrefix last "v" with
  | false => simp [h2, hid]
  | true => simp [h2]

/-- What `TrustedVerifierIDNew` accepts: the version is the last segment, it
starts with `v`, and the name is the remaining segments joined by `/`. -/
theorem TrustedVerifierIDNew_ok_segments {id : String} {b : TrustedVerifierID}
    (h : TrustedVerifierIDNew id = .ok b) :
    ∃ segments, id = Join (segments ++ [b.version]) "/" ∧
      (∀ s ∈ segments ++ [b.version], '/' ∉ s.data) ∧
      HasPrefix b.version "v" = true ∧ b.name = Join segments "/" := by
  obtain ⟨segments, last, hid, hfree⟩ := segments_of_string id
  have hp := ParseVerifierID_true_of_segments id segments last hid hfree
  unfold TrustedVerifierIDNew at h
  rw [hp] at h
  by_cases hbad : last = "" ∨ HasPrefix last "v" = false
  · rw [if_pos hbad] at h
    cases h
  · rw [if_neg hbad] at h
    simp only [Except.ok.injEq] at h
    subst h
    refine ⟨segments, hid, hfree, ?_, rfl⟩
    cases hv : HasPrefix last "v" with
    | true => rfl
    | false => exact absurd (Or.inr hv) hbad

/-- A name and the same name followed by a segment that starts with `v` are
different strings. -/
theorem Join_ne_Join_append (segments : List String) (last : String)
    (hfree : ∀ s ∈ segments ++ [last], '/' ∉ s.data) (hv : HasPrefix last "v" = true) :
    Join segments "/" ≠ Join (segments ++ [last]) "/" := by
  intro heq
  cases segments with
  | nil =>
    have h1 : Join ([] ++ [last]) "/" = last := rfl
    have h2 : Join ([] : List String) "/" = "" := rfl
    rw [h1, h2] at heq
    rw [← heq] at hv
    exact absurd hv (by decide)
  | cons s rest =>
    have hs1 := Split_Join (s :: rest) (by simp)
      (fun t ht => hfree t (List.mem_append_left _ ht))
    have hs2 := Split_Join (s :: rest ++ [last]) (by simp) hfree
    rw [heq, hs2] at hs1
    have hlen := congrArg List.length hs1
    simp at hlen

/-! ## Matching a verifier ID against its own name -/

/-- C35, evaluated on the code: the ID `a/v1/v2` is accepted and yields the
name `a/v1` and the version `v2`, but matching the name `a/v1` fails with
`MismatchVerifierID`: its last segment `v1` is taken as a version, which
leaves the name `a`. -/
theorem Matches_own_name_counterexample :
    TrustedVerifierIDNew "a/v1/v2" = .ok ⟨"a/v1", "v2"⟩ ∧
      TrustedVerifierID.Name ⟨"a/v1", "v2"⟩ = "a/v1" ∧
      ParseVerifierID "a/v1" false = .ok ("a", "v1") ∧
      TrustedVerifierID.Matches ⟨"a/v1", "v2"⟩ (TrustedVerifierID.Name ⟨"a/v1", "v2"⟩) false =
        .error .MismatchVerifierID := by
  decide

/-- C35, amended: for every verifier ID accepted by `TrustedVerifierIDNew`,
with `b` the resulting `TrustedVerifierID` and `last` the last `/`-segment of
its name, `b.Matches(b.Name(), false)` succeeds when `last` does not start
with `v`, and fails with `MismatchVerifierID` when it does. -/
theorem Matches_own_name (id : String) (b : TrustedVerifierID) (segments : List String)
    (last : String) (hnew : TrustedVerifierIDNew id = .ok b)
    (hname : b.Name = Join (segments ++ [last]) "/")
    (hfree : ∀ s ∈ segments ++ [last], '/' ∉ s.data) :
    (HasPrefix last "v" = false → b.Matches b.Name false = .ok ()) ∧
    (HasPrefix last "v" = true → b.Matches b.Name false = .error .MismatchVerifierID) := by
  have _ := hnew
  have hp := ParseVerifierID_false_of_segments b.Name segments last hname hfree
  constructor
  · intro hv
    rw [hv] at hp
    unfold TrustedVerifierID.Matches
    rw [hp]
    simp [TrustedVerifierID.Name]
  · intro hv
    rw [if_pos hv] at hp
    have hne : Join segments "/" ≠ b.name := by
      have h := Join_ne_Join_append segments last hfree hv
      rw [← hname] at h
      exact h
    unfold TrustedVerifierID.Matches
    rw [hp]
    simp [hne]

/-- Witness of C35 (amended): the name `https://the.trusted.verifier` of the
scenario's verifier matches itself, the name `a/v1` of `a/v1/v2` does not. -/
theorem Matches_own_name_witness :
    TrustedVerifierID.Matches ⟨"https://the.trusted.verifier", "v0.1"⟩
        (TrustedVerifierID.Name ⟨"https://the.trusted.verifier", "v0.1"⟩) false = .ok () ∧
      TrustedVerifierID.Matches ⟨"a/v1", "v2"⟩ (TrustedVerifierID.Name ⟨"a/v1", "v2"⟩) false =
        .error .MismatchVerifierID :=
  ⟨(Matches_own_name "https://the.trusted.verifier/v0.1" ⟨"https://the.trusted.verifier", "v0.1"⟩
      ["https:", ""] "the.trusted.verifier" (by decide) (by decide) (by decide)).1 (by decide),
    (Matches_own_name "a/v1/v2" ⟨"a/v1", "v2"⟩ ["a"] "v1" (by decide) (by decide)
      (by decide)).2 (by decide)⟩

/-! ## Matching a verifier ID against itself -/

/-- C36: matching is reflexive on full IDs. For every string `id` accepted by
`TrustedVerifierIDNew`, the resulting `TrustedVerifierID` matches `id`, for
both values of `allowRef`. -/
theorem Matches_reflexive (id : String) (b : TrustedVerifierID) (allowRef : Bool)
    (hnew : TrustedVerifierIDNew id = .ok b) : b.Matches id allowRef = .ok () := by
  obtain ⟨segments, hid, hfree, hv, hname⟩ := TrustedVerifierIDNew_ok_segments hnew
  have hp := ParseVerifierID_false_of_segments id segments b.version hid hfree
  rw [if_pos hv] at hp
  unfold TrustedVerifierID.Matches
  rw [hp]
  simp [hname]

/-- Witness of C36: the verifier ID of the scenario, with and without
`allowRef`. -/
theorem Matches_reflexive_witness :
    TrustedVerifierID.Matches ⟨"https://the.trusted.verifier", "v0.1"⟩
        "https://the.trusted.verifier/v0.1" true = .ok () ∧
      TrustedVerifierID.Matches ⟨"https://the.trusted.verifier", "v0.1"⟩
        "https://the.trusted.verifier/v0.1" false = .ok () :=
  ⟨Matches_reflexive "https://the.trusted.verifier/v0.1"
      ⟨"https://the.trusted.verifier", "v0.1"⟩ true (by decide),
    Matches_reflexive "https://the.trusted.verifier/v0.1"
      ⟨"https://the.trusted.verifier", "v0.1"⟩ false (by decide)⟩

/-! ## Matching: `allowRef` on constructed IDs -/

/-- C37: for every `TrustedVerifierID` `b` produced by `TrustedVerifierIDNew`
and every expected string `e`, `b.Matches(e, true)` and `b.Matches(e, false)`
return the same result: the version of `b` is a slash-free segment, so it
differs from `refs/tags/` followed by any string. -/
theorem Matches_allowRef_irrelevant (id : String) (b : TrustedVerifierID) (e : String)
    (hnew : TrustedVerifierIDNew id = .ok b) :
    b.Matches e true = b.Matches e false ∧ '/' ∉ b.Version.data ∧
      ∀ v : String, "refs/tags/" ++ v ≠ b.Version := by
  obtain ⟨segments, _, hfree, _, _⟩ := TrustedVerifierIDNew_ok_segments hnew
  have hslash : '/' ∉ b.version.data := hfree b.version (by simp)
  have hne : ∀ v : String, "refs/tags/" ++ v ≠ b.version := by
    intro v heq
    apply hslash
    rw [← heq, String.data_append]
    exact List.mem_append_left _ (by decide)
  refine ⟨?_, hslash, hne⟩
  unfold TrustedVerifierID.Matches
  cases hparse : ParseVerifierID e false with
  | error err => rfl
  | ok r =>
    obtain ⟨name, version⟩ := r
    simp [hne version]

/-- Witness of C37: the scenario's verifier against an expected ID of another
version, with and without `allowRef`. -/
theorem Matches_allowRef_irrelevant_witness :
    TrustedVerifierID.Matches ⟨"https://the.trusted.verifier", "v0.1"⟩
        "https://the.trusted.verifier/v0.2" true =
      TrustedVerifierID.Matches ⟨"https://the.trusted.verifier", "v0.1"⟩
        "https://the.trusted.verifier/v0.2" false :=
  (Matches_allowRef_irrelevant "https://the.trusted.verifier/v0.1"
    ⟨"https://the.trusted.verifier", "v0.1"⟩ "https://the.trusted.verifier/v0.2"
    (by decide)).1

/-! ## ParseVerifierID without a required version never fails -/

/-- C38: `ParseVerifierID(id, false)` never fails, for any string `id`, the
empty string included: `strings.Split` yields at least one part, so the
branch `len(parts) < 1` is not taken. With `id` written as its slash-free
segments joined by `/`, the result is `(id, "")` when the last segment does
not start with `v`, and the remaining segments joined by `/` together with
the last segment when it does. Hence `getVsaVerifier` never fails with
`InvalidFormat`. -/
theorem ParseVerifierID_false_total {V : Type} (id : String)
    (IsAuthoritativeFor : V → String → Bool) (VsaVerifiers : List (String × V))
    (verifierOpts : VerifierOpts) :
    (∃ name version, ParseVerifierID id false = .ok (name, version)) ∧
    ParseVerifierID "" false = .ok ("", "") ∧
    ¬ (Split id '/').length < 1 ∧
    (∃ segments last, id = Join (segments ++ [last]) "/" ∧
      ∀ s ∈ segments ++ [last], '/' ∉ s.data) ∧
    (∀ segments last, id = Join (segments ++ [last]) "/" →
      (∀ s ∈ segments ++ [last], '/' ∉ s.data) →
        (HasPrefix last "v" = false → ParseVerifierID id false = .ok (id, "")) ∧
        (HasPrefix last "v" = true →
          ParseVerifierID id false = .ok (Join segments "/", last))) ∧
    getVsaVerifier IsAuthoritativeFor VsaVerifiers verifierOpts ≠ .error .InvalidFormat := by
  refine ⟨ParseVerifierID_false_ok id, by decide, ?_, segments_of_string id, ?_, ?_⟩
  · obtain ⟨_, _, hne⟩ := Join_Split id
    have := List.length_pos.mpr hne
    omega
  · intro segments last hid hfree
    have hp := ParseVerifierID_false_of_segments id segments last hid hfree
    constructor
    · intro hv
      rw [hv] at hp
      simpa using hp
    · intro hv
      rw [if_pos hv] at hp
      exact hp
  · obtain ⟨name, version, hparse⟩ := ParseVerifierID_false_ok verifierOpts.ExpectedID
    unfold getVsaVerifier
    rw [hparse]
    split_ifs
    · dsimp only
      split <;> simp
    · simp

/-- Witness of C38: an ID without version, a versioned ID, and dispatch on an
ID that no registered verifier is authoritative for. -/
theorem ParseVerifierID_false_total_witness :
    ParseVerifierID "https://the.trusted.verifier" false =
        .ok ("https://the.trusted.verifier", "") ∧
      ParseVerifierID "https://the.trusted.verifier/v0.1" false =
        .ok ("https://the.trusted.verifier", "v0.1") ∧
      getVsaVerifier samplePrefixAuthority sampleRegistry { ExpectedID := "/" } ≠
        .error .InvalidFormat :=
  ⟨((ParseVerifierID_false_total "https://the.trusted.verifier" samplePrefixAuthority
        sampleRegistry { ExpectedID := "/" }).2.2.2.2.1
      ["https:", ""] "the.trusted.verifier" (by decide) (by decide)).1 (by decide),
    ((ParseVerifierID_false_total "https://the.trusted.verifier/v0.1" samplePrefixAuthority
        sampleRegistry { ExpectedID := "/" }).2.2.2.2.1
      ["https:", "", "the.trusted.verifier"] "v0.1" (by decide) (by decide)).2 (by decide),
    (ParseVerifierID_false_total "" samplePrefixAuthority sampleRegistry
      { ExpectedID := "/" }).2.2.2.2.2⟩

/-! ## Error kinds of the checks of verifyPayload -/

/-- On a single character `Atoi` fails with a syntax error only. -/
theorem Atoi_singleton_error_kind {c : Char} {e : Err}
    (h : Atoi (String.singleton c) = .error e) : e = .strconvErrSyntax := by
  by_cases hp : c = '+'
  · subst hp
    have h2 : Atoi (String.singleton '+') = .error .strconvErrSyntax := by decide
    rw [h2] at h
    cases h
    rfl
  by_cases hm : c = '-'
  · subst hm
    have h2 : Atoi (String.singleton '-') = .error .strconvErrSyntax := by decide
    rw [h2] at h
    cases h
    rfl
  unfold Atoi at h
  have hdata : (String.singleton c).data = [c] := rfl
  simp only [hdata] at h
  simp [hp, hm] at h
  split_ifs at h with h1 h2
  · cases h
    rfl
  · exfalso
    have hd : c.isDigit = true := by simpa using h1
    have hle : c.toNat ≤ 57 := by
      simp only [Char.isDigit, Bool.and_eq_true, decide_eq_true_eq] at hd
      exact hd.2
    omega

/-- The last byte of a string that ends in a one-byte character. -/
theorem lastByte_append_singleton (pre : String) (c : Char) (hc : c.utf8Size = 1) :
    lastByte (pre ++ String.singleton c) = String.singleton c := by
  have hdata : (pre ++ String.singleton c).data = pre.data ++ [c] := by
    simp [String.singleton]
  unfold lastByte
  rw [hdata, List.getLast?_append, List.getLast?_singleton]
  simp [hc]

/-- On a build-level string with a one-byte trailing character
`LevelFromString` fails only with the syntax error of `Atoi` or with the
invalid-level error. -/
theorem LevelFromString_build_form_error_kind {c : Char} {e : Err} (hc : c.utf8Size = 1)
    (h : LevelFromString ("SLSA_BUILD_LEVEL_" ++ String.singleton c) = .error e) :
    e = .strconvErrSyntax ∨ e = .invalidLevel := by
  unfold LevelFromString at h
  rw [HasPrefix_append, if_pos rfl] at h
  unfold BuildLevelFromString parseLevel at h
  rw [HasPrefix_append, len_append_singleton, hc, lastByte_append_singleton _ _ hc] at h
  simp only [Bool.not_true, bne_self_eq_false, Bool.or_self, Bool.false_eq_true,
    if_false] at h
  cases hat : Atoi (String.singleton c) with
  | error e2 =>
    rw [hat] at h
    cases h
    exact Or.inl (Atoi_singleton_error_kind hat)
  | ok level =>
    rw [hat] at h
    dsimp only at h
    split_ifs at h
    · cases h
      exact Or.inr rfl

/-- Two levels of the same track can be compared. -/
theorem LowerThan_of_same_track (a b : Level) (h : a.Track = b.Track) :
    a.LowerThan b = some (decide (a.value < b.value)) := by
  cases a <;> cases b
  · rfl
  · exact absurd h track_build_ne_source
  · exact absurd h.symm track_build_ne_source
  · rfl

/-- When the policy level does not parse `VerifyLevels` returns the parse
error. -/
theorem VerifyLevels_parse_error (p : VsaPredicate) (expectedLevels : List Level) (e : Err)
    (h : LevelFromString p.PolicyLevel = .error e) :
    p.VerifyLevels expectedLevels = .error e := by
  simp [VsaPredicate.VerifyLevels, h]

/-- When the policy level parses `VerifyLevels` returns ok, `InvalidVsaLevel`
or `MismatchVsaLevel`. -/
theorem VerifyLevels_error_kind (p : VsaPredicate) (pl : Level) (expectedLevels : List Level)
    (e : Err) (hparse : LevelFromString p.PolicyLevel = .ok pl)
    (h : p.VerifyLevels expectedLevels = .error e) :
    e = .InvalidVsaLevel ∨ e = .MismatchVsaLevel := by
  unfold VsaPredicate.VerifyLevels at h
  rw [hparse] at h
  dsimp only at h
  split_ifs at h with hlen
  · cases h
    exact Or.inl rfl
  · cases expectedLevels with
    | nil =>
      cases h
      exact Or.inl rfl
    | cons expectedLevel rest =>
      dsimp only at h
      split_ifs at h with htrack
      · cases h
        exact Or.inr rfl
      · have ht : pl.Track = expectedLevel.Track := by
          have := htrack
          simp only [bne_iff_ne, ne_eq, not_not] at this
          exact this.symm
        rw [LowerThan_of_same_track pl expectedLevel ht] at h
        cases hd : decide (pl.value < expectedLevel.value) with
        | true =>
          rw [hd] at h
          cases h
          exact Or.inr rfl
        | false =>
          rw [hd] at h
          cases h

/-- The function `TrustedVerifierIDNew` fails with `InvalidFormat` only. -/
theorem TrustedVerifierIDNew_error_kind {id : String} {e : Err}
    (h : TrustedVerifierIDNew id = .error e) : e = .InvalidFormat := by
  obtain ⟨segments, last, hid, hfree⟩ := segments_of_string id
  unfold TrustedVerifierIDNew at h
  rw [ParseVerifierID_true_of_segments id segments last hid hfree] at h
  split_ifs at h
  cases h
  rfl

/-- The method `Matches` fails with `MismatchVerifierID` only. -/
theorem Matches_error_kind {b : TrustedVerifierID} {id : String} {allowRef : Bool} {e : Err}
    (h : b.Matches id allowRef = .error e) : e = .MismatchVerifierID := by
  obtain ⟨name, version, hparse⟩ := ParseVerifierID_false_ok id
  unfold TrustedVerifierID.Matches at h
  rw [hparse] at h
  dsimp only at h
  split_ifs at h <;> cases h <;> rfl

/-- The loop of `verifySubject` fails with `InvalidDssePayload` or
`MismatchHash` only. -/
theorem verifySubjectLoop_error_kind {expectedHash : String} {subjects : List Subject}
    {e : Err} (h : verifySubjectLoop expectedHash subjects = .error e) :
    e = .InvalidDssePayload ∨ e = .MismatchHash := by
  induction subjects with
  | nil =>
    cases h
    exact Or.inr rfl
  | cons s rest ih =>
    unfold verifySubjectLoop at h
    cases hs : s.Digest.lookup "sha256" with
    | none =>
      rw [hs] at h
      cases h
      exact Or.inl rfl
    | some hash =>
      rw [hs] at h
      dsimp only at h
      split_ifs at h
      exact ih h

/-! ## verifyPayload: the order of the checks -/

/-- C32, evaluated on the code: with every check before the levels check
passing, the policy level `SLSA_LX` makes `verifyPayload` fail with the
syntax error of `strconv.Atoi`, and `SLSA_L9` with the invalid-level error of
`parseLevel`; neither is `InvalidVsaLevel` or `MismatchVsaLevel`. -/
theorem verifyPayload_levels_error_counterexample :
    verifyPayload nonDigitLevelStatement scenarioVsaOpts scenarioVerifierOpts =
        .error .strconvErrSyntax ∧
      verifyPayload
        { scenarioStatement with
          Predicate := .decodes { scenarioPredicate with PolicyLevel := "SLSA_L9" } }
        scenarioVsaOpts scenarioVerifierOpts = .error .invalidLevel := by
  decide

/-- C32, amended: `verifyPayload` reports the error of the first failing
check in this order: predicate type (`InvalidPredicate`), decoding of the
predicate (the marshal error, `InvalidDssePayload`), policy-level form
(`InvalidVsaLevel`), format of the predicate's verifier ID (`InvalidFormat`),
match of the verifier ID (`MismatchVerifierID`), subject digest
(`InvalidDssePayload` or `MismatchHash`), verification result
(`VsaResultFailure`), levels (the syntax error of `Atoi` or the invalid-level
error when the normalised level does not parse, `InvalidVsaLevel` or
`MismatchVsaLevel` when it does), resource URI (`MismatchVsaResourceURI`);
when no check fails it returns the verifier ID of the predicate. -/
theorem verifyPayload_first_failing_check (statement : Statement) (vsaOpts : VsaOpts)
    (verifierOpts : VerifierOpts) :
    (statement.PredicateType ≠ PredicateVsa →
      verifyPayload statement vsaOpts verifierOpts = .error .InvalidPredicate) ∧
    (statement.PredicateType = PredicateVsa → statement.Predicate = .unmarshalable →
      verifyPayload statement vsaOpts verifierOpts = .error .marshal) ∧
    (statement.PredicateType = PredicateVsa → statement.Predicate = .undecodable →
      verifyPayload statement vsaOpts verifierOpts = .error .InvalidDssePayload) ∧
    (∀ p e, statement.PredicateType = PredicateVsa → statement.Predicate = .decodes p →
      FromStatement statement = .error e →
        e = .InvalidVsaLevel ∧
          verifyPayload statement vsaOpts verifierOpts = .error .InvalidVsaLevel) ∧
    (∀ vsa, FromStatement statement = .ok vsa →
      (∀ e, TrustedVerifierIDNew vsa.Verifier.ID = .error e →
        e = .InvalidFormat ∧
          verifyPayload statement vsaOpts verifierOpts = .error .InvalidFormat) ∧
      (∀ trustedVerifier, TrustedVerifierIDNew vsa.Verifier.ID = .ok trustedVerifier →
        (∀ e, trustedVerifier.Matches verifierOpts.ExpectedID false = .error e →
          e = .MismatchVerifierID ∧
            verifyPayload statement vsaOpts verifierOpts = .error .MismatchVerifierID) ∧
        (trustedVerifier.Matches verifierOpts.ExpectedID false = .ok () →
          (∀ e, verifySubject statement vsaOpts.ExpectedDigest = .error e →
            (e = .InvalidDssePayload ∨ e = .MismatchHash) ∧
              verifyPayload statement vsaOpts verifierOpts = .error e) ∧
          (verifySubject statement vsaOpts.ExpectedDigest = .ok () →
            (vsa.VerificationResult ≠ "PASSED" →
              verifyPayload statement vsaOpts verifierOpts = .error .VsaResultFailure) ∧
            (vsa.VerificationResult = "PASSED" →
              (∀ e, LevelFromString vsa.PolicyLevel = .error e →
                (e = .strconvErrSyntax ∨ e = .invalidLevel) ∧
                  verifyPayload statement vsaOpts verifierOpts = .error e) ∧
              (∀ pl e, LevelFromString vsa.PolicyLevel = .ok pl →
                vsa.VerifyLevels vsaOpts.ExpectedLevels = .error e →
                  (e = .InvalidVsaLevel ∨ e = .MismatchVsaLevel) ∧
                    verifyPayload statement vsaOpts verifierOpts = .error e) ∧
              (vsa.VerifyLevels vsaOpts.ExpectedLevels = .ok () →
                (∀ uri, vsaOpts.ExpectedResourceURI = some uri → uri ≠ vsa.ResourceURI →
                  verifyPayload statement vsaOpts verifierOpts =
                    .error .MismatchVsaResourceURI) ∧
                ((vsaOpts.ExpectedResourceURI = none ∨
                    vsaOpts.ExpectedResourceURI = some vsa.ResourceURI) →
                  verifyPayload statement vsaOpts verifierOpts =
                    .ok trustedVerifier))))))) := by
  refine ⟨?_, ?_, ?_, ?_, ?_⟩
  · intro htype
    have hfs : FromStatement statement = .error .InvalidPredicate := by
      simp [FromStatement, htype]
    simp only [verifyPayload, hfs]
  · intro htype hp
    have hfs : FromStatement statement = .error .marshal := by
      simp [FromStatement, htype, hp]
    simp only [verifyPayload, hfs]
  · intro htype hp
    have hfs : FromStatement statement = .error .InvalidDssePayload := by
      simp [FromStatement, htype, hp]
    simp only [verifyPayload, hfs]
  · intro p e htype hp hfs
    have he : e = .InvalidVsaLevel := by
      rw [FromStatement_decodes statement p htype hp] at hfs
      split_ifs at hfs
      cases hfs
      rfl
    subst he
    exact ⟨rfl, by simp only [verifyPayload, hfs]⟩
  · intro vsa hfs
    obtain ⟨p, c, _, hc, _, hvsa⟩ := FromStatement_ok_form hfs
    have hlevel : vsa.PolicyLevel = "SLSA_BUILD_LEVEL_" ++ String.singleton c := by
      rw [hvsa]
    refine ⟨?_, ?_⟩
    · intro e hid
      have he := TrustedVerifierIDNew_error_kind hid
      subst he
      exact ⟨rfl, by simp only [verifyPayload, hfs, hid]⟩
    · intro trustedVerifier hid
      refine ⟨?_, ?_⟩
      · intro e hmatch
        have he := Matches_error_kind hmatch
        subst he
        exact ⟨rfl, by simp only [verifyPayload, hfs, hid, hmatch]⟩
      · intro hmatch
        refine ⟨?_, ?_⟩
        · intro e hsub
          exact ⟨verifySubjectLoop_error_kind hsub,
            by simp only [verifyPayload, hfs, hid, hmatch, hsub]⟩
        · intro hsub
          refine ⟨?_, ?_⟩
          · intro hres
            simp [verifyPayload, hfs, hid, hmatch, hsub, hres]
          · intro hres
            refine ⟨?_, ?_, ?_⟩
            · intro e hparse
              have hkind : e = .strconvErrSyntax ∨ e = .invalidLevel := by
                rw [hlevel] at hparse
                exact LevelFromString_build_form_error_kind hc hparse
              have hlevels := VerifyLevels_parse_error vsa vsaOpts.ExpectedLevels e hparse
              exact ⟨hkind, by simp [verifyPayload, hfs, hid, hmatch, hsub, hres, hlevels]⟩
            · intro pl e hparse hlevels
              exact ⟨VerifyLevels_error_kind vsa pl vsaOpts.ExpectedLevels e hparse hlevels,
                by simp [verifyPayload, hfs, hid, hmatch, hsub, hres, hlevels]⟩
            · intro hlevels
              refine ⟨?_, ?_⟩
              · intro uri huri hne
                simp [verifyPayload, hfs, hid, hmatch, hsub, hres, hlevels, huri, hne]
              · intro huri
                rcases huri with hu | hu
                · simp [verifyPayload, hfs, hid, hmatch, hsub, hres, hlevels, hu]
                · simp [verifyPayload, hfs, hid, hmatch, hsub, hres, hlevels, hu]

/-- Witness of C32 (amended): a statement with both a mismatching digest and
the verification result `FAILED` fails with `MismatchHash`; with the digest
matching it fails with `VsaResultFailure`. -/
theorem verifyPayload_first_failing_check_witness :
    verifyPayload
        { scenarioStatement with
          Subject := [{ Name := "", Digest := [("sha256", "1234")] }]
          Predicate := .decodes { scenarioPredicate with VerificationResult := "FAILED" } }
        scenarioVsaOpts scenarioVerifierOpts = .error .MismatchHash ∧
      verifyPayload
        { scenarioStatement with
          Predicate := .decodes { scenarioPredicate with VerificationResult := "FAILED" } }
        scenarioVsaOpts scenarioVerifierOpts = .error .VsaResultFailure :=
  ⟨(((((verifyPayload_first_failing_check
      { scenarioStatement with
        Subject := [{ Name := "", Digest := [("sha256", "1234")] }]
        Predicate := .decodes { scenarioPredicate with VerificationResult := "FAILED" } }
      scenarioVsaOpts scenarioVerifierOpts).2.2.2.2
        { scenarioPredicate with
          VerificationResult := "FAILED", PolicyLevel := "SLSA_BUILD_LEVEL_2" }
        (by decide)).2 ⟨"https://the.trusted.verifier", "v0.1"⟩ (by decide)).2
          (by decide)).1 .MismatchHash (by decide)).2,
    (((((verifyPayload_first_failing_check
      { scenarioStatement with
        Predicate := .decodes { scenarioPredicate with VerificationResult := "FAILED" } }
      scenarioVsaOpts scenarioVerifierOpts).2.2.2.2
        { scenarioPredicate with
          VerificationResult := "FAILED", PolicyLevel := "SLSA_BUILD_LEVEL_2" }
        (by decide)).2 ⟨"https://the.trusted.verifier", "v0.1"⟩ (by decide)).2
          (by decide)).2 (by decide)).1 (by decide)⟩

/-! ## verifyPayload: a verifier ID without version -/

/-- C33: let the predicate of a statement decode to `p`, and let the last
`/`-separated segment of `p`'s verifier ID be empty or not start with `v`.
Then `verifyPayload` never succeeds, whatever the caller's options are (the
expected verifier ID may be that very string); and when the predicate is
extracted (the predicate type and the policy-level form are accepted), the
error is `InvalidFormat`. -/
theorem verifyPayload_unversioned_verifier (statement : Statement) (p : VsaPredicate)
    (vsaOpts : VsaOpts) (verifierOpts : VerifierOpts) (segments : List String) (last : String)
    (hp : statement.Predicate = .decodes p)
    (hid : p.Verifier.ID = Join (segments ++ [last]) "/")
    (hfree : ∀ s ∈ segments ++ [last], '/' ∉ s.data)
    (hbad : last = "" ∨ HasPrefix last "v" = false) :
    (∀ vsa, FromStatement statement = .ok vsa →
      verifyPayload statement vsaOpts verifierOpts = .error .InvalidFormat) ∧
    (∀ trustedVerifier,
      verifyPayload statement vsaOpts verifierOpts ≠ .ok trustedVerifier) := by
  have hnew : TrustedVerifierIDNew p.Verifier.ID = .error .InvalidFormat := by
    unfold TrustedVerifierIDNew
    rw [ParseVerifierID_true_of_segments _ segments last hid hfree, if_pos hbad]
  have hfail : ∀ vsa, FromStatement statement = .ok vsa →
      verifyPayload statement vsaOpts verifierOpts = .error .InvalidFormat := by
    intro vsa hfs
    obtain ⟨_, q, hq, hver, _⟩ := FromStatement_ok_fields hfs
    rw [hp] at hq
    cases hq
    have hnew2 : TrustedVerifierIDNew vsa.Verifier.ID = .error .InvalidFormat := by
      rw [hver]
      exact hnew
    simp only [verifyPayload, hfs, hnew2]
  refine ⟨hfail, ?_⟩
  intro trustedVerifier hok
  cases hfs : FromStatement statement with
  | error e =>
    simp only [verifyPayload, hfs] at hok
    cases hok
  | ok vsa =>
    rw [hfail vsa hfs] at hok
    cases hok

/-- Witness of C33: the scenario with the unversioned verifier ID
`https://the.trusted.verifier` in the predicate, and the caller expecting
exactly that ID. -/
theorem verifyPayload_unversioned_verifier_witness :
    verifyPayload
        { scenarioStatement with
          Predicate := .decodes
            { scenarioPredicate with Verifier := { ID := "https://the.trusted.verifier" } } }
        scenarioVsaOpts { ExpectedID := "https://the.trusted.verifier" } =
      .error .InvalidFormat :=
  (verifyPayload_unversioned_verifier
    { scenarioStatement with
      Predicate := .decodes
        { scenarioPredicate with Verifier := { ID := "https://the.trusted.verifier" } } }
    { scenarioPredicate with Verifier := { ID := "https://the.trusted.verifier" } }
    scenarioVsaOpts { ExpectedID := "https://the.trusted.verifier" }
    ["https:", ""] "the.trusted.verifier" rfl (by decide) (by decide) (Or.inr (by decide))).1
    { scenarioPredicate with
      Verifier := { ID := "https://the.trusted.verifier" }
      PolicyLevel := "SLSA_BUILD_LEVEL_2" }
    (by decide)

/-! ## The CLI parser of verified levels -/

/-- Every level stored by the loop of `VSALevels.Set` is a `VSABuildLevel`. -/
theorem setEntry_build {part : String} {l : VSALevel}
    (h : VSALevels.setEntry part = .ok l) : ∃ k, l = .VSABuildLevel k := by
  unfold VSALevels.setEntry at h
  dsimp only at h
  split at h
  · cases h
    exact ⟨_, rfl⟩
  · split at h
    · cases h
      exact ⟨_, rfl⟩
    · cases h

/-- Every level stored by the loop of `VSALevels.Set` is a `VSABuildLevel`. -/
theorem setLoop_build {parts : List String} {levels : List VSALevel}
    (h : VSALevels.setLoop parts = .ok levels) : ∀ l ∈ levels, ∃ k, l = .VSABuildLevel k := by
  induction parts generalizing levels with
  | nil =>
    cases h
    intro l hl
    exact absurd hl (List.not_mem_nil l)
  | cons part rest ih =>
    unfold VSALevels.setLoop at h
    cases he : VSALevels.setEntry part with
    | error e =>
      rw [he] at h
      cases h
    | ok level =>
      rw [he] at h
      dsimp only at h
      cases hr : VSALevels.setLoop rest with
      | error e =>
        rw [hr] at h
        cases h
      | ok ls =>
        rw [hr] at h
        cases h
        intro l hl
        rcases List.mem_cons.mp hl with h1 | h1
        · rw [h1]
          exact setEntry_build he
        · exact ih hr l h1

/-- C34: the CLI parser `VSALevels.Set` parses source-track entries with the
build-level type. For every digit `n` in 0..4 (the accepted digits),
`Set("SLSA_SOURCE_LEVEL_n")` and `Set("SLSA_BUILD_LEVEL_n")` succeed and store
the same slice, holding the one value `VSABuildLevel n`; the digits 5..9 are
rejected in both forms; whatever `Set` stores holds values of type
`VSABuildLevel` only; and two entries of one track are accepted, in
whichever forms. -/
theorem VSALevels_Set_source_as_build (ls : VSALevels) (n : Nat) (hn : n ≤ 4) :
    VSALevels.Set ls ("SLSA_SOURCE_LEVEL_" ++ toString n) = (none, [.VSABuildLevel n]) ∧
    VSALevels.Set ls ("SLSA_BUILD_LEVEL_" ++ toString n) = (none, [.VSABuildLevel n]) ∧
    (∀ m : Nat, 4 < m → m ≤ 9 →
      VSALevels.Set ls ("SLSA_SOURCE_LEVEL_" ++ toString m) = (some (.other "parse"), ls) ∧
      VSALevels.Set ls ("SLSA_BUILD_LEVEL_" ++ toString m) = (some (.other "parse"), ls)) ∧
    (∀ value levels, VSALevels.Set ls value = (none, levels) →
      ∀ l ∈ levels, ∃ k, l = .VSABuildLevel k) ∧
    VSALevels.Set ls ("SLSA_BUILD_LEVEL_" ++ toString n ++ ",SLSA_BUILD_LEVEL_" ++ toString n) =
      (none, [.VSABuildLevel n, .VSABuildLevel n]) ∧
    VSALevels.Set ls ("SLSA_SOURCE_LEVEL_" ++ toString n ++ ", SLSA_BUILD_LEVEL_" ++ toString n) =
      (none, [.VSABuildLevel n, .VSABuildLevel n]) := by
  have hset : ∀ (value : String) (levels : List VSALevel),
      VSALevels.setLoop (Split value ',') = .ok levels →
        VSALevels.Set ls value = (none, levels) := by
    intro value levels h
    simp only [VSALevels.Set, h]
  have hfail : ∀ (value : String) (e : Err),
      VSALevels.setLoop (Split value ',') = .error e →
        VSALevels.Set ls value = (some e, ls) := by
    intro value e h
    simp only [VSALevels.Set, h]
  refine ⟨?_, ?_, ?_, ?_, ?_, ?_⟩
  · apply hset
    interval_cases n <;> decide
  · apply hset
    interval_cases n <;> decide
  · intro m h4 h9
    constructor
    · apply hfail
      interval_cases m <;> decide
    · apply hfail
      interval_cases m <;> decide
  · intro value levels h
    unfold VSALevels.Set at h
    cases hl : VSALevels.setLoop (Split value ',') with
    | error e =>
      rw [hl] at h
      cases h
    | ok stored =>
      rw [hl] at h
      cases h
      exact setLoop_build hl
  · apply hset
    interval_cases n <;> decide
  · apply hset
    interval_cases n <;> decide

/-- Witness of C34: the source level 3 is stored as the build level 3. -/
theorem VSALevels_Set_source_as_build_witness :
    VSALevels.Set [] "SLSA_SOURCE_LEVEL_3" = (none, [.VSABuildLevel 3]) ∧
      VSALevels.Set [] "SLSA_BUILD_LEVEL_3" = (none, [.VSABuildLevel 3]) :=
  ⟨(VSALevels_Set_source_as_build [] 3 (by decide)).1,
    (VSALevels_Set_source_as_build [] 3 (by decide)).2.1⟩

/-! ## Dispatch under the prefix invariant -/

/-- Two prefixes of one string: one of them is a prefix of the other. -/
theorem HasPrefix_comparable (name a b : String) (ha : HasPrefix name a = true)
    (hb : HasPrefix name b = true) : HasPrefix a b = true ∨ HasPrefix b a = true := by
  unfold HasPrefix at *
  rcases List.prefix_or_prefix_of_prefix (List.isPrefixOf_iff_prefix.mp ha)
    (List.isPrefixOf_iff_prefix.mp hb) with h | h
  · exact Or.inr (List.isPrefixOf_iff_prefix.mpr h)
  · exact Or.inl (List.isPrefixOf_iff_prefix.mpr h)

/-- The first element that satisfies `p` does not depend on the order of the
list when at most one element satisfies `p`. -/
theorem find?_perm_of_unique {α : Type} (p : α → Bool) {l1 l2 : List α}
    (hperm : l1.Perm l2)
    (huniq : ∀ a ∈ l1, ∀ b ∈ l1, p a = true → p b = true → a = b) :
    l1.find? p = l2.find? p := by
  cases h1 : l1.find? p with
  | none =>
    have hnone := List.find?_eq_none.mp h1
    symm
    apply List.find?_eq_none.mpr
    intro x hx
    exact hnone x (hperm.mem_iff.mpr hx)
  | some a =>
    have ha := List.mem_of_find?_eq_some h1
    have hpa := List.find?_some h1
    cases h2 : l2.find? p with
    | none =>
      have hcontra := List.find?_eq_none.mp h2 a (hperm.mem_iff.mp ha)
      exact absurd hpa hcontra
    | some b =>
      have hb := hperm.mem_iff.mpr (List.mem_of_find?_eq_some h2)
      have hpb := List.find?_some h2
      rw [huniq a ha b hb hpa hpb]

/-- Reading a key does not depend on the order of an association list in
which every key occurs once. -/
theorem lookup_perm_of_nodup_keys {V : Type} {r1 r2 : List (String × V)}
    (hperm : r1.Perm r2) (hkeys : (r1.map Prod.fst).Nodup) (k : String) :
    r1.lookup k = r2.lookup k := by
  induction hperm with
  | nil => rfl
  | cons x _ ih =>
    obtain ⟨a, v⟩ := x
    have hk : (List.map Prod.fst _).Nodup := (List.nodup_cons.mp hkeys).2
    by_cases h : k = a
    · simp [List.lookup, h]
    · have hb : (k == a) = false := by simpa using h
      simp only [List.lookup, hb]
      exact ih hk
  | swap x y l =>
    obtain ⟨a, v⟩ := x
    obtain ⟨b, w⟩ := y
    have hba : b ≠ a := by
      intro h
      have hmem := (List.nodup_cons.mp hkeys).1
      apply hmem
      simp [h]
    by_cases h1 : k = a
    · have h2 : (k == b) = false := by
        subst h1
        simpa using fun h => hba h.symm
      simp [List.lookup, h1, h2]
      subst h1
      simp [h2]
    · have hb1 : (k == a) = false := by simpa using h1
      simp [List.lookup, hb1]
  | trans h1 _ ih1 ih2 =>
    exact (ih1 hkeys).trans (ih2 ((h1.map Prod.fst).nodup_iff.mp hkeys))

/-- C39: dispatch is deterministic under the prefix invariant. Let every
registered verifier `v` have an ID `ident v`, be authoritative exactly for
the names that have this ID as a prefix, and let no ID of a registered
verifier be a prefix of the ID of another one. Then at most one registered
verifier is authoritative for any name, and `getVsaVerifier` and
`getProvenanceVerifier` return the same result for every order in which the
range loop visits the registry (a Go map, which holds each key once). -/
theorem dispatch_deterministic {V : Type} (ident : V → String)
    (IsAuthoritativeFor : V → String → Bool) (registry reordered : List (String × V))
    (hauth : ∀ v ∈ registry.map Prod.snd, ∀ name,
      IsAuthoritativeFor v name = HasPrefix name (ident v))
    (hinv : ∀ v ∈ registry.map Prod.snd, ∀ w ∈ registry.map Prod.snd, v ≠ w →
      HasPrefix (ident v) (ident w) = false)
    (hkeys : (registry.map Prod.fst).Nodup) (hperm : registry.Perm reordered) :
    (∀ name, ∀ v ∈ registry.map Prod.snd, ∀ w ∈ registry.map Prod.snd,
      IsAuthoritativeFor v name = true → IsAuthoritativeFor w name = true → v = w) ∧
    (∀ verifierOpts, getVsaVerifier IsAuthoritativeFor registry verifierOpts =
      getVsaVerifier IsAuthoritativeFor reordered verifierOpts) ∧
    (∀ (ParseBuilderID : String → Bool → Except Err (String × String)) (BuilderName : String)
      (builderOpts : BuilderOpts),
      getProvenanceVerifier IsAuthoritativeFor ParseBuilderID BuilderName registry builderOpts =
        getProvenanceVerifier IsAuthoritativeFor ParseBuilderID BuilderName reordered
          builderOpts) := by
  have huniq : ∀ name, ∀ v ∈ registry.map Prod.snd, ∀ w ∈ registry.map Prod.snd,
      IsAuthoritativeFor v name = true → IsAuthoritativeFor w name = true → v = w := by
    intro name v hv w hw hav haw
    by_contra hne
    rw [hauth v hv name] at hav
    rw [hauth w hw name] at haw
    rcases HasPrefix_comparable name (ident v) (ident w) hav haw with h | h
    · rw [hinv v hv w hw hne] at h
      cases h
    · rw [hinv w hw v hv (fun e => hne e.symm)] at h
      cases h
  have hfind : ∀ name, (registry.map Prod.snd).find? (fun v => IsAuthoritativeFor v name) =
      (reordered.map Prod.snd).find? (fun v => IsAuthoritativeFor v name) := by
    intro name
    exact find?_perm_of_unique _ (hperm.map Prod.snd) (huniq name)
  refine ⟨huniq, ?_, ?_⟩
  · intro verifierOpts
    unfold getVsaVerifier
    simp only [hfind]
  · intro ParseBuilderID BuilderName builderOpts
    unfold getProvenanceVerifier
    simp only [hfind, lookup_perm_of_nodup_keys hperm hkeys BuilderName]

/-- Witness of C39: the sample registry of the GitHub and Cloud Build
prefixes, visited in its two orders, for a verifier ID and a builder ID of
Cloud Build. -/
theorem dispatch_deterministic_witness :
    getVsaVerifier samplePrefixAuthority sampleRegistry
        { ExpectedID := "https://cloudbuild.googleapis.com/verifier/v1" } =
      getVsaVerifier samplePrefixAuthority
        [("GCB", "https://cloudbuild.googleapis.com/"), ("GHA", "https://github.com/")]
        { ExpectedID := "https://cloudbuild.googleapis.com/verifier/v1" } ∧
    getProvenanceVerifier samplePrefixAuthority sampleParseBuilderID "GHA" sampleRegistry
        { ExpectedID := some "https://cloudbuild.googleapis.com/GoogleHostedWorker@v0.2" } =
      getProvenanceVerifier samplePrefixAuthority sampleParseBuilderID "GHA"
        [("GCB", "https://cloudbuild.googleapis.com/"), ("GHA", "https://github.com/")]
        { ExpectedID := some "https://cloudbuild.googleapis.com/GoogleHostedWorker@v0.2" } :=
  ⟨(dispatch_deterministic (fun v => v) samplePrefixAuthority sampleRegistry
      [("GCB", "https://cloudbuild.googleapis.com/"), ("GHA", "https://github.com/")]
      (fun _ _ _ => rfl) (by decide) (by decide) (List.Perm.swap _ _ _)).2.1 _,
    (dispatch_deterministic (fun v => v) samplePrefixAuthority sampleRegistry
      [("GCB", "https://cloudbuild.googleapis.com/"), ("GHA", "https://github.com/")]
      (fun _ _ _ => rfl) (by decide) (by decide) (List.Perm.swap _ _ _)).2.2 _ _ _⟩

/-! ## VerifyLevels never dereferences a nil pointer -/

/-- The errors of `LevelFromString` are error values, not a panic. -/
theorem LevelFromString_error_ne_nilDereference {s : String} {e : Err}
    (h : LevelFromString s = .error e) : e ≠ .nilDereference := by
  unfold LevelFromString at h
  split_ifs at h
  · unfold BuildLevelFromString at h
    split at h
    · rename_i e2 hp
      cases h
      rcases parseLevel_error_kind hp with h1 | h1 | h1 | h1 <;> simp [h1]
    · cases h
  · unfold SourceLevelFromString at h
    split at h
    · rename_i e2 hp
      cases h
      rcases parseLevel_error_kind hp with h1 | h1 | h1 | h1 <;> simp [h1]
    · cases h
  · cases h
    simp

/-- C40: `VerifyLevels` is total on well-formed inputs. For every predicate
and every list of (non-nil) expected levels it returns ok or an error, never
the nil dereference of `LowerThan`: two levels with equal `Track()` have the
same concrete type (both build or both source), so `LowerThan`, which is
reached only after the track comparison, is defined on them. -/
theorem VerifyLevels_total (p : VsaPredicate) (expectedLevels : List Level) :
    p.VerifyLevels expectedLevels ≠ .error .nilDereference ∧
    (p.VerifyLevels expectedLevels = .ok () ∨
      ∃ e, e ≠ .nilDereference ∧ p.VerifyLevels expectedLevels = .error e) ∧
    (∀ a b : Level, a.Track = b.Track →
      ((∃ x y, a = .BuildLevel x ∧ b = .BuildLevel y) ∨
        (∃ x y, a = .SourceLevel x ∧ b = .SourceLevel y)) ∧
      ∃ r, a.LowerThan b = some r) := by
  have hne : p.VerifyLevels expectedLevels ≠ .error .nilDereference := by
    intro h
    cases hparse : LevelFromString p.PolicyLevel with
    | error e =>
      rw [VerifyLevels_parse_error p expectedLevels e hparse] at h
      cases h
      exact LevelFromString_error_ne_nilDereference hparse rfl
    | ok pl =>
      rcases VerifyLevels_error_kind p pl expectedLevels _ hparse h with h1 | h1 <;> cases h1
  refine ⟨hne, ?_, ?_⟩
  · cases hres : p.VerifyLevels expectedLevels with
    | ok u => exact Or.inl rfl
    | error e =>
      refine Or.inr ⟨e, ?_, rfl⟩
      intro he
      rw [he] at hres
      exact hne hres
  · intro a b htrack
    refine ⟨?_, _, LowerThan_of_same_track a b htrack⟩
    cases a <;> cases b
    · exact Or.inl ⟨_, _, rfl, rfl⟩
    · exact absurd htrack track_build_ne_source
    · exact absurd htrack.symm track_build_ne_source
    · exact Or.inr ⟨_, _, rfl, rfl⟩

/-- Witness of C40: a build-level predicate against an expected source level
fails with `MismatchVsaLevel`, an error value. -/
theorem VerifyLevels_total_witness :
    VsaPredicate.VerifyLevels { scenarioPredicate with PolicyLevel := "SLSA_BUILD_LEVEL_2" }
        [.SourceLevel 1] ≠ .error .nilDereference ∧
      VsaPredicate.VerifyLevels { scenarioPredicate with PolicyLevel := "SLSA_BUILD_LEVEL_2" }
        [.SourceLevel 1] = .error .MismatchVsaLevel :=
  ⟨(VerifyLevels_total { scenarioPredicate with PolicyLevel := "SLSA_BUILD_LEVEL_2" }
      [.SourceLevel 1]).1, by decide⟩

end SlsaVerifier
